import Mathlib

/-!
# ASL translator: the webcam capture-and-predict loop

Shallow embedding of `src/website/static/js/translate_fixed.js` (class
`ASLTranslator`): the fields of the translator object become the record
`Translator`, every method becomes a function on that record, and the
asynchronous parts (animation-frame callbacks, the fetch continuation of
`processSingleFrame`, the 5 second timer) become events of a step function.

Numbers are exact rationals, except where the double arithmetic of the
source is modelled explicitly. Labels are strings.
-/

namespace ASLTranslator

/-! ## Data model -/

/-- One element of `predictionHistory` as pushed by `handleValidPrediction`:
the label and the confidence of an accepted sample. The `timestamp` field of
the source object is written and never read, it is left out. -/
structure HistoryItem where
  prediction : String
  confidence : ℚ
deriving DecidableEq

/-- One landmark point `{x, y}` of the response. -/
structure Landmark where
  x : ℚ
  y : ℚ
deriving DecidableEq

/-! ## Majority vote (`applyTemporalSmoothing`) -/

/-- Value of a string of decimal digits, `none` when a character is not a digit. -/
def digitsValue : List Char → Option Nat
  | [] => some 0
  | cs => cs.foldl
      (fun acc c => match acc with
        | none => none
        | some n => if c.isDigit then some (10 * n + (c.toNat - 48)) else none)
      (some 0)

/-- Array-index property keys of a JavaScript object: canonical decimal numerals
(no leading zero, not empty) of value at most `2^32 - 2`. `Object.entries` lists
them first, in ascending numeric order. Gives the numeric value of such a key. -/
def arrayIndex (k : String) : Option Nat :=
  match k.data with
  | [] => none
  | [c] => if c.isDigit then some (c.toNat - 48) else none
  | c :: cs =>
    if c = '0' then none
    else match digitsValue (c :: cs) with
      | some n => if n ≤ 4294967294 then some n else none
      | none => none

/-- A value held by a property of the object `predictions`: a number, or a
string that is not a numeral. Such a string arises when the statement
`predictions[k] = (predictions[k] || 0) + 1` reads a function that the object
inherits: `text ones` is the source text of that function followed by `ones`
characters `1`. Read as a number (by `-` and by `>=`) it is `NaN`. -/
inductive PropertyValue where
  | number (n : ℕ)
  | text (ones : ℕ)
deriving DecidableEq

/-- The names of the function-valued members that the literal `{}` inherits
from `Object.prototype`. The accessor `__proto__` is treated apart. -/
def inheritedMethods : List String :=
  ["constructor", "__defineGetter__", "__defineSetter__", "hasOwnProperty",
    "__lookupGetter__", "__lookupSetter__", "isPrototypeOf", "propertyIsEnumerable",
    "toString", "valueOf", "toLocaleString"]

/-- The value `x + 1` for a stored value `x`: a number is incremented, a string
gets the character `1` appended. -/
def PropertyValue.plusOne : PropertyValue → PropertyValue
  | .number n => .number (n + 1)
  | .text ones => .text (ones + 1)

/-- The value `(predictions[k] || 0) + 1` when `k` is not an own property: the
read gives the inherited function when `k` names one, whose sum with 1 is a
string, and `undefined` otherwise, which gives `0 + 1`. -/
def storedFirst (k : String) : PropertyValue :=
  if k ∈ inheritedMethods then .text 1 else .number 1

/-- The assignment `predictions[k] = (predictions[k] || 0) + 1` on the own
properties of `predictions`, kept in creation order, for a key other than
`__proto__`. Stored values are truthy (a number at least 1 or a non-empty
string), so an own property is replaced by its value plus one. -/
def assign (k : String) : List (String × PropertyValue) → List (String × PropertyValue)
  | [] => [(k, storedFirst k)]
  | (k', v) :: rest =>
    if k' = k then (k', v.plusOne) :: rest else (k', v) :: assign k rest

/-- The statement `predictions[k] = (predictions[k] || 0) + 1` on the own
properties of `predictions`. For the key `__proto__` the read gives
`Object.prototype`, the sum is a string, and the inherited setter ignores a
value that is neither an object nor `null`: no own property is created. -/
def increment (k : String) (own : List (String × PropertyValue)) :
    List (String × PropertyValue) :=
  if k = "__proto__" then own else assign k own

/-- The `forEach` loop of `applyTemporalSmoothing` that fills `predictions`,
which starts as the literal `{}`. -/
def countPredictions (history : List HistoryItem) : List (String × PropertyValue) :=
  history.foldl (fun acc item => increment item.prediction acc) []

/-- Numeric value of an entry whose key is an array index (0 otherwise). -/
def indexValue (e : String × PropertyValue) : Nat := (arrayIndex e.1).getD 0

/-- The order of `Object.entries`: array-index keys in ascending numeric order,
then the other string keys in creation order. -/
def objectEntries (own : List (String × PropertyValue)) : List (String × PropertyValue) :=
  (own.filter (fun e => (arrayIndex e.1).isSome)).insertionSort
      (fun a b => indexValue a ≤ indexValue b)
    ++ own.filter (fun e => !(arrayIndex e.1).isSome)

/-- Whether the sort leaves entry `a` before entry `b`: the comparator
`([,a], [,b]) => b - a` is not positive. Between two numbers that is
`b ≤ a`; when one of the two values is a string the difference is `NaN`, which
the sort takes as 0. -/
def keepsBefore (a b : String × PropertyValue) : Bool :=
  match a.2, b.2 with
  | .number x, .number y => decide (y ≤ x)
  | _, _ => true

/-- The call `.sort(([,a], [,b]) => b - a)`: a stable sort by descending count.
When a string value stands beside numbers that differ, the comparator is not
consistent and the language leaves the order to the engine; the model then
gives the order of a stable insertion sort. -/
def sortByCountDesc (entries : List (String × PropertyValue)) :
    List (String × PropertyValue) :=
  entries.insertionSort (fun a b => keepsBefore a b = true)

/-- The `filter(...).reduce((sum, item) => sum + item.confidence, 0)` of
`applyTemporalSmoothing`, in exact arithmetic. -/
def sumConfidence (label : String) (history : List HistoryItem) : ℚ :=
  (history.filter (fun item => item.prediction = label)).foldl
    (fun sum item => sum + item.confidence) 0

/-- The method `applyTemporalSmoothing` as a function of `predictionHistory`,
in exact arithmetic: `none` is the `null` result, `some v` the object
`{prediction, confidence}`. The test `mostFrequent[1] >= Math.floor(...)` is
false when `mostFrequent[1]` is a string. -/
def applyTemporalSmoothing (history : List HistoryItem) : Option HistoryItem :=
  if history.length < 2 then none
  else
    match (sortByCountDesc (objectEntries (countPredictions history))).head? with
    | none => none
    | some mostFrequent =>
      match mostFrequent.2 with
      | .number count =>
        if history.length / 2 ≤ count then
          some { prediction := mostFrequent.1
                 confidence := sumConfidence mostFrequent.1 history / count }
        else none
      | .text _ => none

/-! ## The double arithmetic of the vote's confidence

The source computes the confidence of a vote in IEEE 754 double precision.
`applyTemporalSmoothing` above is that computation in exact arithmetic;
`applyTemporalSmoothingDouble` rounds every sum and the quotient to the nearest
double, as the code does. Neither the label of the vote nor any counter depends
on the difference. -/

/-- Rounding to the nearest integer, a half to the even neighbour. -/
def roundHalfEven (x : ℚ) : ℤ :=
  if x - ⌊x⌋ < 1 / 2 then ⌊x⌋
  else if 1 / 2 < x - ⌊x⌋ then ⌊x⌋ + 1
  else if ⌊x⌋ % 2 = 0 then ⌊x⌋ else ⌊x⌋ + 1

/-- The exponent `e` such that the doubles next to `x` are `2 ^ e` apart: 52
below the binary exponent of `x`, and -1074 throughout the subnormal range. -/
def spacingExponent (x : ℚ) : ℤ := max (Int.log 2 |x|) (-1022) - 52

/-- The double nearest to `x`, a tie going to the even significand (the
rounding of every double operation). It is the result of the code for
magnitudes below `2 ^ 1024`; above, the code gives `Infinity`, which has no
counterpart here. -/
def roundToDouble (x : ℚ) : ℚ :=
  roundHalfEven (x / 2 ^ spacingExponent x) * 2 ^ spacingExponent x

/-- The number is a finite double. -/
def IsDouble (x : ℚ) : Prop := roundToDouble x = x ∧ |x| < 2 ^ (1024 : ℕ)

/-- The `filter(...).reduce((sum, item) => sum + item.confidence, 0)` of
`applyTemporalSmoothing` in double arithmetic: every sum is rounded. -/
def sumConfidenceDouble (label : String) (history : List HistoryItem) : ℚ :=
  (history.filter (fun item => item.prediction = label)).foldl
    (fun sum item => roundToDouble (sum + item.confidence)) 0

/-- The method `applyTemporalSmoothing` with the confidence computed in double
arithmetic: the rounded sum is divided by the count and the quotient is
rounded. -/
def applyTemporalSmoothingDouble (history : List HistoryItem) : Option HistoryItem :=
  if history.length < 2 then none
  else
    match (sortByCountDesc (objectEntries (countPredictions history))).head? with
    | none => none
    | some mostFrequent =>
      match mostFrequent.2 with
      | .number count =>
        if history.length / 2 ≤ count then
          some { prediction := mostFrequent.1
                 confidence :=
                   roundToDouble (sumConfidenceDouble mostFrequent.1 history / count) }
        else none
      | .text _ => none

/-- The own property `k` of the property list (`none` when `k` is not an own
property). -/
def ownValue (k : String) : List (String × PropertyValue) → Option PropertyValue
  | [] => none
  | (k', v) :: rest => if k' = k then some v else ownValue k rest

/-- The value that the own property `k` holds after `n` runs of the statement
`predictions[k] = (predictions[k] || 0) + 1`. -/
def storedValue (k : String) (n : ℕ) : PropertyValue :=
  if k ∈ inheritedMethods then .text n else .number n

/-- The label is counted by a number in `predictions`: it is not `__proto__`
and names no function inherited from `Object.prototype`. -/
def countedLabel (k : String) : Prop :=
  k ≠ "__proto__" ∧ k ∉ inheritedMethods

instance (k : String) : Decidable (countedLabel k) := by
  unfold countedLabel
  exact inferInstance

/-! ## Numeric and text helpers -/

/-- JavaScript `Math.round`: the nearest integer, halves rounded up. -/
def jsRound (x : ℚ) : ℤ := ⌊x + 1 / 2⌋

/-- JavaScript `a % b` on numbers: `a - b * trunc (a / b)`, the sign follows the
dividend. For `b = 0` JavaScript gives `NaN`; here the value is `a`. -/
def jsRem (a b : ℚ) : ℚ :=
  a - b * (if 0 ≤ a / b then (⌊a / b⌋ : ℤ) else (⌈a / b⌉ : ℤ))

/-- The replacement function of `escapeHtml` for one character. -/
def escapeChar (c : Char) : List Char :=
  if c = '&' then "&amp;".data
  else if c = '<' then "&lt;".data
  else if c = '>' then "&gt;".data
  else if c = Char.ofNat 34 then "&quot;".data
  else if c = Char.ofNat 39 then "&#039;".data
  else [c]

/-- The method `escapeHtml` on a string argument. -/
def escapeHtml (text : String) : String :=
  String.mk (text.data.map escapeChar).flatten

/-- The method `getConfidenceClass`. -/
def getConfidenceClass (confidence : ℤ) : String :=
  if 80 ≤ confidence then "high-confidence"
  else if 60 ≤ confidence then "medium-confidence"
  else "low-confidence"

/-! ## Responses of the prediction endpoint -/

/-- A parsed response object. A field is `none` when the object does not have
it (it reads as `undefined`); a present field has the type the endpoint
contract gives it. -/
structure PredictionResult where
  success : Option Bool
  prediction : Option String
  confidence : Option ℚ
  landmarks_detected : Option Bool
  landmarks : Option (List Landmark)
  hand_count : Option ℕ
deriving DecidableEq

/-- What `await response.json()` can deliver: `null`, a number, string or
boolean (every property of which reads as `undefined`), or an object. -/
inductive ParsedBody where
  | null
  | primitive
  | object (result : PredictionResult)
deriving DecidableEq

/-- Exceptions raised inside the loop. -/
inductive JsError where
  | typeError
deriving DecidableEq

/-- The only thing `handleProcessingError` reads of an error: whether its
`name` is `AbortError`. -/
inductive FrameError where
  | abortError
  | other
deriving DecidableEq

/-! ## Presentation elements written by the loop -/

/-- The page elements that `updateDisplay` writes. A field is `none` when the
page has no such element (the cached reference is `null`). Percentages are the
integer shown before the `%` sign; style colours are not modelled. -/
structure Display where
  textOutput : Option String
  gestureName : Option String
  confidenceBadge : Option (ℤ × String)
  handsCount : Option ℕ
  currentSignName : Option String
  currentSignConfidence : Option ℤ
deriving DecidableEq

/-- One `history-item` element of the recognition history list. The time of
day shown in it is not modelled. -/
structure HistoryEntry where
  text : String
  percent : ℤ
deriving DecidableEq

/-- A suspended invocation of `processSingleFrame`: the request it sent, with
the locals it closed over. `awaitingBody` is false while `await fetch(...)` is
pending and true while `await response.json()` is pending. -/
structure Request where
  frameId : ℕ
  controller : ℕ
  timeoutId : ℕ
  startTime : ℚ
  awaitingBody : Bool
deriving DecidableEq

/-! ## The translator object and its host -/

/-- The fields of `ASLTranslator` set in the constructor, followed by the part
of the host the loop acts on: scheduled animation-frame callbacks, armed
timers, suspended requests, abort calls, the canvases, and logs of the calls
to `showError` and `addToHistory`. Handles (animation frames, controllers,
timers) are positive integers in the host, so a handle is truthy exactly when
it is not `null`. -/
structure Translator where
  isTranslating : Bool
  videoStream : Option ℕ
  isCameraInitialized : Bool
  cameraRetryCount : ℕ
  maxCameraRetries : ℕ
  confidenceThreshold : ℚ
  smoothingFrames : ℕ
  targetFPS : ℚ
  frameInterval : ℚ
  lastFrameTime : ℚ
  processingFrame : Bool
  animationFrameId : Option ℕ
  consecutiveErrors : ℕ
  maxConsecutiveErrors : ℕ
  currentFrameController : Option ℕ
  predictionHistory : List HistoryItem
  lastValidPrediction : Option HistoryItem
  stabilityCounter : ℕ
  minStabilityFrames : ℕ
  frameCount : ℕ
  fps : ℤ
  processingTimes : List ℚ
  averageProcessingTime : ℚ
  currentLandmarks : List Landmark
  handDetected : Bool
  /-- Whether `ctx` and `outputCanvas` are both non-null. -/
  ctxReady : Bool
  /-- Whether `keypointCtx` and `keypointCanvas` are both non-null. -/
  keypointCtxReady : Bool
  /-- Animation-frame callbacks of `processFramesOptimized` waiting to run. -/
  rafQueue : List ℕ
  /-- Source of fresh handles. -/
  nextHandle : ℕ
  /-- Armed 5 second timers of `processSingleFrame`. -/
  timers : List ℕ
  /-- Suspended invocations of `processSingleFrame`. -/
  pending : List Request
  /-- Controllers on which `abort()` was called, one entry per call. -/
  aborted : List ℕ
  /-- Whether the output canvas shows a video frame. -/
  frameDrawn : Bool
  /-- Whether the keypoint canvas shows landmarks. -/
  keypointsDrawn : Bool
  /-- Messages passed to `showError`, oldest first. -/
  notifications : List String
  /-- Arguments of the calls to `addToHistory`, oldest first. -/
  settled : List (String × ℚ)
  /-- The `history-item` children of `#historyList`, `none` without that element. -/
  historyList : Option (List HistoryEntry)
  display : Display
  /-- The `srcObject` of the video element. -/
  srcObject : Option ℕ
  /-- Streams whose tracks were stopped, one entry per stream released. -/
  stoppedStreams : List ℕ
  /-- Number of calls of `getUserMedia` so far. -/
  getUserMediaCalls : ℕ
  /-- Number of invocations of `initializeCamera` suspended at an `await`. -/
  cameraAttempts : ℕ
  /-- Whether the permission dialog is shown. -/
  permissionModalShown : Bool
  /-- Title and message of the camera error dialog while it is shown. -/
  cameraErrorShown : Option (String × String)

/-- The state the constructor leaves, on a page with every element present. -/
def constructed : Translator where
  isTranslating := false
  videoStream := none
  isCameraInitialized := false
  cameraRetryCount := 0
  maxCameraRetries := 3
  confidenceThreshold := 3 / 4
  smoothingFrames := 4
  targetFPS := 30
  frameInterval := 1000 / 30
  lastFrameTime := 0
  processingFrame := false
  animationFrameId := none
  consecutiveErrors := 0
  maxConsecutiveErrors := 5
  currentFrameController := none
  predictionHistory := []
  lastValidPrediction := none
  stabilityCounter := 0
  minStabilityFrames := 2
  frameCount := 0
  fps := 0
  processingTimes := []
  averageProcessingTime := 0
  currentLandmarks := []
  handDetected := false
  ctxReady := true
  keypointCtxReady := true
  rafQueue := []
  nextHandle := 1
  timers := []
  pending := []
  aborted := []
  frameDrawn := false
  keypointsDrawn := false
  notifications := []
  settled := []
  historyList := some []
  display :=
    { textOutput := some "", gestureName := some "", confidenceBadge := some (0, ""),
      handsCount := some 0, currentSignName := some "", currentSignConfidence := some 0 }
  srcObject := none
  stoppedStreams := []
  getUserMediaCalls := 0
  cameraAttempts := 0
  permissionModalShown := false
  cameraErrorShown := none

/-! ## Methods without suspension points -/

/-- The method `showError`: the message is recorded in `notifications`. -/
def showError (s : Translator) (message : String) : Translator :=
  { s with notifications := s.notifications ++ [message] }

/-- The method `showPermissionModal`, on a page that has the dialog. -/
def showPermissionModal (s : Translator) : Translator :=
  { s with permissionModalShown := true }

/-- The method `hidePermissionModal`. -/
def hidePermissionModal (s : Translator) : Translator :=
  { s with permissionModalShown := false }

/-- The method `showCameraErrorModal`, on a page that has the dialog and its
title and message elements. -/
def showCameraErrorModal (s : Translator) (title message : String) : Translator :=
  { s with cameraErrorShown := some (title, message) }

/-- The method `hideCameraErrorModal`. -/
def hideCameraErrorModal (s : Translator) : Translator :=
  { s with cameraErrorShown := none }

/-- The method `clearKeypoints`. -/
def clearKeypoints (s : Translator) : Translator :=
  if s.keypointCtxReady then { s with keypointsDrawn := false } else s

/-- The method `clearCanvases`. -/
def clearCanvases (s : Translator) : Translator :=
  clearKeypoints (if s.ctxReady then { s with frameDrawn := false } else s)

/-- The method `drawOptimizedLandmarks`. -/
def drawOptimizedLandmarks (s : Translator) : Translator :=
  if !s.keypointCtxReady || s.currentLandmarks.length == 0 then s
  else { s with keypointsDrawn := true }

/-- The method `addToHistory`: the call is recorded in `settled`; the new item
goes to the top of the list and the last item is removed beyond 10 items. -/
def addToHistory (s : Translator) (prediction : String) (confidence : ℚ) : Translator :=
  let s1 := { s with settled := s.settled ++ [(prediction, confidence)] }
  match s1.historyList with
  | none => s1
  | some items =>
    let items1 :=
      { text := escapeHtml prediction, percent := jsRound (confidence * 100) } :: items
    { s1 with historyList := some (if 10 < items1.length then items1.dropLast else items1) }

/-- The method `handleValidPrediction`, given the label and confidence of the
result (both present when the method is called). -/
def handleValidPrediction (s : Translator) (item : HistoryItem) : Translator :=
  let pushed := s.predictionHistory ++ [item]
  let history := if s.smoothingFrames < pushed.length then pushed.tail else pushed
  let s1 := { s with predictionHistory := history }
  match applyTemporalSmoothing s1.predictionHistory with
  | some smoothedPrediction =>
    let s2 := { s1 with stabilityCounter := s1.stabilityCounter + 1 }
    if s2.minStabilityFrames ≤ s2.stabilityCounter then
      addToHistory { s2 with consecutiveErrors := 0 }
        smoothedPrediction.prediction smoothedPrediction.confidence
    else s2
  | none => { s1 with stabilityCounter := 0 }

/-- The method `handleLowConfidencePrediction`. -/
def handleLowConfidencePrediction (s : Translator) (result : PredictionResult) : Translator :=
  let s1 := { s with stabilityCounter := 0, lastValidPrediction := none }
  if result.prediction = some "No hand detected" then clearKeypoints s1 else s1

/-- The method `handleNoPrediction`. -/
def handleNoPrediction (s : Translator) : Translator :=
  let s1 := clearKeypoints
    { s with consecutiveErrors := s.consecutiveErrors + 1, handDetected := false }
  if s1.maxConsecutiveErrors ≤ s1.consecutiveErrors then
    { showError s1 "Translation issues detected. Please check connection and try again."
      with consecutiveErrors := 0 }
  else s1

/-- The method `handleProcessingError`. The test of `error.name` only selects
the console message. -/
def handleProcessingError (s : Translator) (_error : FrameError) : Translator :=
  let s1 := { s with consecutiveErrors := s.consecutiveErrors + 1 }
  if 3 ≤ s1.consecutiveErrors then
    { showError s1 "Processing issues detected. Please try again."
      with consecutiveErrors := 0 }
  else s1

/-- The sample that `processPredictionResult` hands to `handleValidPrediction`
when `isValidPrediction` is truthy: the label is present, not empty and not the
sentinel, and the confidence is present and at least the threshold. -/
def validSample (s : Translator) (result : PredictionResult) : Option HistoryItem :=
  match result.prediction, result.confidence with
  | some prediction, some confidence =>
    if prediction ≠ "" ∧ prediction ≠ "No hand detected" ∧ s.confidenceThreshold ≤ confidence
    then some { prediction := prediction, confidence := confidence }
    else none
  | _, _ => none

/-- The method `updateTextOutput`. -/
def updateTextOutput (d : Display) (result : PredictionResult) (isValidPrediction : Bool) :
    Display :=
  match d.textOutput with
  | none => d
  | some _ =>
    if isValidPrediction then
      { d with
        textOutput := some ("<span class=\"detected-text\">"
          ++ escapeHtml (result.prediction.getD "undefined") ++ "</span>") }
    else
      { d with
        textOutput := some "<span class=\"placeholder\">Show a sign to your webcam...</span>" }

/-- The value of `result.prediction || fallback`. -/
def predictionOr (result : PredictionResult) (fallback : String) : String :=
  match result.prediction with
  | some prediction => if prediction = "" then fallback else prediction
  | none => fallback

/-- The value of `Math.round((result.confidence || 0) * 100)`. -/
def confidencePercent (result : PredictionResult) : ℤ :=
  jsRound (result.confidence.getD 0 * 100)

/-- The method `updateGestureInfo`. -/
def updateGestureInfo (d : Display) (result : PredictionResult) (_isValidPrediction : Bool) :
    Display :=
  let d1 := match d.gestureName with
    | some _ => { d with gestureName := some (predictionOr result "-") }
    | none => d
  let d2 := match d1.confidenceBadge with
    | some _ =>
      { d1 with
        confidenceBadge :=
          some (confidencePercent result, getConfidenceClass (confidencePercent result)) }
    | none => d1
  match d2.handsCount with
  | some _ => { d2 with handsCount := some (result.hand_count.getD 0) }
  | none => d2

/-- The method `updateVideoOverlay`. -/
def updateVideoOverlay (d : Display) (result : PredictionResult) (_isValidPrediction : Bool) :
    Display :=
  let d1 := match d.currentSignName with
    | some _ => { d with currentSignName := some (predictionOr result "No Sign Detected") }
    | none => d
  match d1.currentSignConfidence with
  | some _ => { d1 with currentSignConfidence := some (confidencePercent result) }
  | none => d1

/-- The method `updateDisplay`: the three writers in order. The source runs
them in the next animation frame, with the same arguments. -/
def updateDisplay (s : Translator) (result : PredictionResult) (isValidPrediction : Bool) :
    Translator :=
  { s with
    display :=
      updateVideoOverlay
        (updateGestureInfo (updateTextOutput s.display result isValidPrediction)
          result isValidPrediction)
        result isValidPrediction }

/-- The block of `processPredictionResult` that updates the hand detection
state: `handDetected` is the truthiness of
`result.landmarks_detected && result.landmarks?.length > 0`, and
`currentLandmarks` is `result.landmarks || []`. -/
def updateHandState (s : Translator) (result : PredictionResult) : Translator :=
  { s with
    handDetected := (result.landmarks_detected == some true) &&
      (match result.landmarks with
        | some landmarks => decide (0 < landmarks.length)
        | none => false)
    currentLandmarks := result.landmarks.getD [] }

/-- The method `processPredictionResult`. Reading `result.success` raises a
`TypeError` when the parsed body is `null`. -/
def processPredictionResult (s : Translator) (body : ParsedBody) : Except JsError Translator :=
  match body with
  | .null => .error .typeError
  | .primitive => .ok (handleNoPrediction s)
  | .object result =>
    if result.success ≠ some true then .ok (handleNoPrediction s)
    else
      let s1 := updateHandState s result
      match validSample s1 result with
      | some item => .ok (updateDisplay (handleValidPrediction s1 item) result true)
      | none => .ok (updateDisplay (handleLowConfidencePrediction s1 result) result false)

/-- The method `updatePerformanceMetrics`. -/
def updatePerformanceMetrics (s : Translator) (processingTime : ℚ) : Translator :=
  let pushed := s.processingTimes ++ [processingTime]
  let times := if 10 < pushed.length then pushed.tail else pushed
  { s with processingTimes := times, averageProcessingTime := times.sum / times.length }

/-- The method `updateFPSCounter`. -/
def updateFPSCounter (s : Translator) (elapsed : ℚ) : Translator :=
  { s with fps := jsRound (1000 / elapsed) }

/-- The method `stopTranslation`. The calls `updateUI` and `updateStatus` write
only button and status elements. -/
def stopTranslation (s : Translator) : Translator :=
  let s1 := { s with isTranslating := false }
  let s2 := match s1.animationFrameId with
    | some id => { s1 with rafQueue := s1.rafQueue.filter (fun h => h ≠ id),
                           animationFrameId := none }
    | none => s1
  let s3 := match s2.currentFrameController with
    | some controller => { s2 with aborted := s2.aborted ++ [controller],
                                   currentFrameController := none }
    | none => s2
  { clearCanvases s3 with currentLandmarks := [], handDetected := false }

/-- The method `pauseProcessing`. -/
def pauseProcessing (s : Translator) : Translator :=
  if s.isTranslating then
    let s1 := { s with isTranslating := false }
    match s1.animationFrameId with
    | some id => { s1 with rafQueue := s1.rafQueue.filter (fun h => h ≠ id),
                           animationFrameId := none }
    | none => s1
  else s

/-! ## The frame loop -/

/-- What one run of `processFramesOptimized` reads from the host: the clock
(`performance.now()`), whether the video element has enough data and non-zero
dimensions, whether drawing or encoding the frame raises, and whether
`requestAnimationFrame` raises. -/
structure TickEnv where
  now : ℚ
  videoReady : Bool
  captureThrows : Bool
  scheduleThrows : Bool
deriving DecidableEq

/-- The method `isSystemReady`. -/
def isSystemReady (s : Translator) (env : TickEnv) : Bool :=
  s.isCameraInitialized && env.videoReady

/-- The `finally` block of `processSingleFrame`. -/
def finallyBlock (s : Translator) : Translator :=
  { s with processingFrame := false, currentFrameController := none }

/-- The method `processSingleFrame` up to its first suspension point: after the
guard it sets `processingFrame`, draws and encodes the frame, creates the
controller, arms the timer and sends the request. When drawing or encoding
raises, the `catch` and `finally` blocks run at once. -/
def processSingleFrame (s : Translator) (env : TickEnv) : Translator :=
  if s.processingFrame || !isSystemReady s env then s
  else
    let s1 := { s with processingFrame := true }
    if !s1.ctxReady || env.captureThrows then
      finallyBlock (handleProcessingError s1 .other)
    else
      let controller := s1.nextHandle
      let timeoutId := s1.nextHandle + 1
      { s1 with
        frameDrawn := true
        currentFrameController := some controller
        timers := s1.timers ++ [timeoutId]
        frameCount := s1.frameCount + 1
        pending := s1.pending ++
          [{ frameId := s1.frameCount, controller := controller, timeoutId := timeoutId,
             startTime := env.now, awaitingBody := false }]
        nextHandle := s1.nextHandle + 2 }

/-- The frame-rate block of `processFramesOptimized`: when more than
`frameInterval` has elapsed since `lastFrameTime`, that field is set to
`now - (elapsed % frameInterval)`, a frame is processed if none is being
processed and the system is ready, and the FPS counter is updated. -/
def frameRateControl (s : Translator) (env : TickEnv) : Translator :=
  let elapsed := env.now - s.lastFrameTime
  if s.frameInterval < elapsed then
    let s1 := { s with lastFrameTime := env.now - jsRem elapsed s.frameInterval }
    let s2 :=
      if !s1.processingFrame && isSystemReady s1 env then processSingleFrame s1 env
      else s1
    updateFPSCounter s2 elapsed
  else s

/-- The block of `processFramesOptimized` that redraws the landmarks. -/
def drawKeypointsIfAvailable (s : Translator) : Translator :=
  if s.handDetected && decide (0 < s.currentLandmarks.length) then drawOptimizedLandmarks s
  else s

/-- The last block of `processFramesOptimized`: the next run is scheduled; when
`requestAnimationFrame` raises, `stopTranslation` runs instead. -/
def scheduleNextFrame (s : Translator) (env : TickEnv) : Translator :=
  if env.scheduleThrows then stopTranslation s
  else
    { s with
      animationFrameId := some s.nextHandle
      rafQueue := s.rafQueue ++ [s.nextHandle]
      nextHandle := s.nextHandle + 1 }

/-- The method `processFramesOptimized`. -/
def processFramesOptimized (s : Translator) (env : TickEnv) : Translator :=
  if !s.isTranslating then s
  else scheduleNextFrame (drawKeypointsIfAvailable (frameRateControl s env)) env

/-- The method `startTranslation`. -/
def startTranslation (s : Translator) (env : TickEnv) : Translator :=
  if !s.isCameraInitialized then
    showPermissionModal (showError s "Please enable camera access first")
  else
    processFramesOptimized
      { s with
        isTranslating := true
        consecutiveErrors := 0
        predictionHistory := []
        lastValidPrediction := none
        stabilityCounter := 0 }
      env

/-- The method `resumeProcessing`. -/
def resumeProcessing (s : Translator) (env : TickEnv) : Translator :=
  if !s.isTranslating && s.isCameraInitialized then
    processFramesOptimized { s with isTranslating := true } env
  else s

/-- The suspended invocation of `processSingleFrame` for frame `frameId`. -/
def findRequest (s : Translator) (frameId : ℕ) : Option Request :=
  s.pending.find? (fun r => r.frameId == frameId)

/-- The state without the suspended invocation for frame `frameId`. -/
def dropRequest (s : Translator) (frameId : ℕ) : Translator :=
  { s with pending := s.pending.filter (fun r => r.frameId != frameId) }

/-- Continuation of `processSingleFrame` when `fetch` resolves: the timer is
cleared; a response that is not `ok` raises and runs `catch` and `finally`,
otherwise the invocation waits for `response.json()`. -/
def onFetchResolved (s : Translator) (r : Request) (ok : Bool) : Translator :=
  let s1 := { s with timers := s.timers.filter (fun t => t ≠ r.timeoutId) }
  if !ok then finallyBlock (handleProcessingError (dropRequest s1 r.frameId) .other)
  else
    { s1 with
      pending := s1.pending.map
        (fun q => if q.frameId = r.frameId then { q with awaitingBody := true } else q) }

/-- Continuation of `processSingleFrame` when `response.json()` resolves. -/
def onBodyParsed (s : Translator) (r : Request) (body : ParsedBody) (now : ℚ) : Translator :=
  let s1 := dropRequest s r.frameId
  match processPredictionResult s1 body with
  | .ok s2 => finallyBlock (updatePerformanceMetrics s2 (now - r.startTime))
  | .error _ => finallyBlock (handleProcessingError s1 .other)

/-- Continuation of `processSingleFrame` when `fetch` or `response.json()`
rejects. -/
def onRequestFailed (s : Translator) (r : Request) (error : FrameError) : Translator :=
  finallyBlock (handleProcessingError (dropRequest s r.frameId) error)

/-- The timer callback `() => this.currentFrameController.abort()`: it raises
a `TypeError` when the field is `null`. -/
def timeoutCallback (s : Translator) : Except JsError Translator :=
  match s.currentFrameController with
  | some controller => .ok { s with aborted := s.aborted ++ [controller] }
  | none => .error .typeError

/-- What can happen to the translator: a scheduled animation-frame callback
runs, the request of a frame progresses, a timer fires, or the page calls one
of the control methods. -/
inductive Event where
  | animationFrame (env : TickEnv)
  | fetchResolved (frameId : ℕ) (ok : Bool)
  | bodyParsed (frameId : ℕ) (body : ParsedBody) (now : ℚ)
  | requestFailed (frameId : ℕ) (error : FrameError)
  | timeoutFired (timeoutId : ℕ)
  | start (env : TickEnv)
  | stop
  | pause
  | resume (env : TickEnv)

/-- One event applied to a state. An event that the state does not enable (no
callback scheduled, no such request in that phase, no such timer) leaves the
state as it is. An exception in the timer callback is not caught by the loop
and changes nothing further. -/
def step (s : Translator) : Event → Translator
  | .animationFrame env =>
    match s.rafQueue with
    | [] => s
    | _ :: rest => processFramesOptimized { s with rafQueue := rest } env
  | .fetchResolved frameId ok =>
    match findRequest s frameId with
    | some r => if r.awaitingBody then s else onFetchResolved s r ok
    | none => s
  | .bodyParsed frameId body now =>
    match findRequest s frameId with
    | some r => if r.awaitingBody then onBodyParsed s r body now else s
    | none => s
  | .requestFailed frameId error =>
    match findRequest s frameId with
    | some r => onRequestFailed s r error
    | none => s
  | .timeoutFired timeoutId =>
    if timeoutId ∈ s.timers then
      let s1 := { s with timers := s.timers.filter (fun t => t ≠ timeoutId) }
      match timeoutCallback s1 with
      | .ok s2 => s2
      | .error _ => s1
    else s
  | .start env => startTranslation s env
  | .stop => stopTranslation s
  | .pause => pauseProcessing s
  | .resume env => resumeProcessing s env

/-- The state after a sequence of events. -/
def run (s : Translator) (events : List Event) : Translator :=
  events.foldl step s

/-- The pacing test of `processFramesOptimized`: the loop is translating and
more than `frameInterval` has elapsed since `lastFrameTime`. -/
def accepted (s : Translator) (now : ℚ) : Prop :=
  s.isTranslating = true ∧ s.frameInterval < now - s.lastFrameTime

/-- The state after a sequence of runs of `processFramesOptimized`. -/
def runTicks (s : Translator) (ticks : List TickEnv) : Translator :=
  ticks.foldl processFramesOptimized s

/-! ## The camera -/

/-- What `handleCameraError` reads of an error: its `name` and `message`. -/
structure CameraError where
  name : String
  message : String
deriving DecidableEq

/-- The title and the message that `handleCameraError` computes. -/
def cameraErrorText (error : CameraError) : String × String :=
  if error.name = "NotAllowedError" then
    ("Permission Required",
      "Please allow camera access in your browser settings. Click \"Enable Camera\" to try again.")
  else if error.name = "NotFoundError" ∨ error.name = "OverconstrainedError" then
    ("Camera Not Found",
      "No suitable camera detected. Please check your device has a working camera.")
  else if error.name = "NotReadableError" then
    ("Camera Busy",
      "Camera is already in use by another application. Please close other camera apps and try again.")
  else
    ("Camera Error",
      "Unable to access camera. " ++
        (if error.message = "" then "Please try again." else error.message))

/-- The method `handleCameraError`. -/
def handleCameraError (s : Translator) (error : CameraError) : Translator :=
  let s1 := if error.name = "NotAllowedError" then showPermissionModal s else s
  showCameraErrorModal s1 (cameraErrorText error).1 (cameraErrorText error).2

/-- The error with which `setupVideoStream` rejects when the video metadata
does not load within 8 seconds. -/
def videoLoadTimeout : CameraError :=
  { name := "Error", message := "Video load timeout after 8 seconds" }

/-- The method `stopCamera`. -/
def stopCamera (s : Translator) : Translator :=
  let s1 := match s.currentFrameController with
    | some controller => { s with aborted := s.aborted ++ [controller],
                                  currentFrameController := none }
    | none => s
  let s2 := match s1.videoStream with
    | some stream => { s1 with stoppedStreams := s1.stoppedStreams ++ [stream],
                               videoStream := none }
    | none => s1
  { clearCanvases { s2 with srcObject := none } with isCameraInitialized := false }

/-- The method `handleCameraDisconnected`. -/
def handleCameraDisconnected (s : Translator) : Translator :=
  showError (stopTranslation { s with isCameraInitialized := false })
    "Camera disconnected. Please check your camera connection."

/-- The first statements of `setupVideoStream`. -/
def attachStream (s : Translator) (stream : ℕ) : Translator :=
  { s with videoStream := some stream, srcObject := some stream }

/-- The `catch` block of `initializeCamera`. -/
def initializeCameraCatch (s : Translator) (error : CameraError) : Translator :=
  handleCameraError { s with cameraRetryCount := s.cameraRetryCount + 1 } error

/-- How an invocation of `initializeCamera` that reached `getUserMedia` ends:
both calls of `getUserMedia` are rejected; a stream is obtained (from the first
call or from the fallback call) and the video fails to load; it loads and
delivers no frames; or the camera is ready. -/
inductive CameraOutcome where
  | acquireFailed (error : CameraError)
  | loadFailed (stream : ℕ) (fallbackUsed : Bool) (error : CameraError)
  | noFrames (stream : ℕ) (fallbackUsed : Bool)
  | ready (stream : ℕ) (fallbackUsed : Bool)
deriving DecidableEq

/-- Whether an invocation of `initializeCamera` reaches its first `await` of
`getUserMedia`: the retry guard lets it pass and the browser has the API. -/
def initializeCameraSuspends (s : Translator) (apiSupported : Bool) : Bool :=
  decide (s.cameraRetryCount < s.maxCameraRetries) && apiSupported

/-- The method `initializeCamera` up to the first call of `getUserMedia`. With
the retry limit reached it shows the error dialog and returns. Without the API
it raises inside `try`, and the `catch` block runs. Otherwise it releases the
camera, resets the video element, calls `getUserMedia` and is suspended. -/
def initializeCameraBegin (s : Translator) (apiSupported : Bool) : Translator :=
  if s.maxCameraRetries ≤ s.cameraRetryCount then
    showCameraErrorModal s "Camera Error"
      "Maximum retry attempts reached. Please refresh the page."
  else
    let s1 := hidePermissionModal s
    if !apiSupported then
      initializeCameraCatch s1
        { name := "Error", message := "Camera API not supported in this browser" }
    else
      let s2 := stopCamera s1
      { s2 with
        srcObject := none
        getUserMediaCalls := s2.getUserMediaCalls + 1
        cameraAttempts := s2.cameraAttempts + 1 }

/-- The rest of a suspended invocation of `initializeCamera`, from the result
of `getUserMedia` to the end of the method. Without a suspended invocation
nothing happens. -/
def initializeCameraFinish (s : Translator) (outcome : CameraOutcome) : Translator :=
  if s.cameraAttempts = 0 then s
  else
    let s1 := { s with cameraAttempts := s.cameraAttempts - 1 }
    match outcome with
    | .acquireFailed error =>
      initializeCameraCatch { s1 with getUserMediaCalls := s1.getUserMediaCalls + 1 } error
    | .loadFailed stream fallbackUsed error =>
      initializeCameraCatch
        (attachStream
          { s1 with getUserMediaCalls := s1.getUserMediaCalls + (if fallbackUsed then 1 else 0) }
          stream)
        error
    | .noFrames stream fallbackUsed =>
      initializeCameraCatch
        (attachStream
          { s1 with getUserMediaCalls := s1.getUserMediaCalls + (if fallbackUsed then 1 else 0) }
          stream)
        { name := "Error", message := "Camera initialized but not providing video frames" }
    | .ready stream fallbackUsed =>
      hideCameraErrorModal
        { attachStream
            { s1 with
              getUserMediaCalls := s1.getUserMediaCalls + (if fallbackUsed then 1 else 0) }
            stream with
          isCameraInitialized := true
          cameraRetryCount := 0 }

/-- One whole invocation of `initializeCamera` with no other invocation running
in between. -/
def initializeCamera (s : Translator) (apiSupported : Bool) (outcome : CameraOutcome) :
    Translator :=
  if initializeCameraSuspends s apiSupported then
    initializeCameraFinish (initializeCameraBegin s apiSupported) outcome
  else initializeCameraBegin s apiSupported

/-- Whether an invocation with this environment fails: the API is missing or
the outcome is not `ready`. -/
def attemptFails (apiSupported : Bool) (outcome : CameraOutcome) : Bool :=
  !apiSupported ||
    match outcome with
    | .ready _ _ => false
    | _ => true

/-! ## Reading escaped text back -/

/-- Whether the list `p` is an initial segment of the list `l`. -/
def startsWith : List Char → List Char → Bool
  | [], _ => true
  | _ :: _, [] => false
  | p :: ps, c :: cs => p == c && startsWith ps cs

/-- The five entities that `escapeHtml` writes. -/
def entities : List (List Char) :=
  ["&amp;".data, "&lt;".data, "&gt;".data, "&quot;".data, "&#039;".data]

/-- The characters that `escapeHtml` replaces. -/
def specialChars : List Char :=
  ['&', '<', '>', Char.ofNat 34, Char.ofNat 39]

/-- Replaces, from left to right, every entity of `entities` by the character it
stands for. The first argument counts characters of an entity still to be
skipped. -/
def unescapeAux : ℕ → List Char → List Char
  | _, [] => []
  | skip + 1, _ :: rest => unescapeAux skip rest
  | 0, c :: rest =>
    if c = '&' then
      if startsWith "amp;".data rest then '&' :: unescapeAux 4 rest
      else if startsWith "lt;".data rest then '<' :: unescapeAux 3 rest
      else if startsWith "gt;".data rest then '>' :: unescapeAux 3 rest
      else if startsWith "quot;".data rest then Char.ofNat 34 :: unescapeAux 5 rest
      else if startsWith "#039;".data rest then Char.ofNat 39 :: unescapeAux 5 rest
      else c :: unescapeAux 0 rest
    else c :: unescapeAux 0 rest

/-- The inverse replacement of `escapeHtml`: the five entities are replaced back
by their characters. -/
def unescapeHtml (text : String) : String :=
  String.mk (unescapeAux 0 text.data)

/-! ## Feeding the stabilizer -/

/-- The number of samples of the window that carry `label`. -/
def countLabel (label : String) (history : List HistoryItem) : ℕ :=
  (history.filter (fun item => item.prediction = label)).length

/-- The window that `handleValidPrediction` leaves for sample `item`: the
sample is pushed, and the first element is shifted out when the length exceeds
`smoothingFrames`. -/
def pushWindow (s : Translator) (item : HistoryItem) : List HistoryItem :=
  if s.smoothingFrames < (s.predictionHistory ++ [item]).length then
    (s.predictionHistory ++ [item]).tail
  else s.predictionHistory ++ [item]

/-- One cycle: `processPredictionResult` on a parsed response object. (On an
object the method does not raise.) -/
def processResult (s : Translator) (result : PredictionResult) : Translator :=
  match processPredictionResult s (.object result) with
  | .ok t => t
  | .error _ => s

/-- The state after a sequence of cycles. -/
def feedResponses (s : Translator) (results : List PredictionResult) : Translator :=
  results.foldl processResult s

/-- The state after `handleValidPrediction` has run on each sample in turn. -/
def feedValid (s : Translator) (items : List HistoryItem) : Translator :=
  items.foldl handleValidPrediction s

/-! ## Predicates used in the statements -/

/-- Every `&` of the list starts one of the five entities. -/
def AmpersandsStartEntities : List Char → Prop
  | [] => True
  | c :: rest =>
    (c = '&' → ∃ e ∈ entities, startsWith e (c :: rest) = true) ∧ AmpersandsStartEntities rest


/-- At most one request is outstanding, and `processingFrame` is set exactly
while one is. -/
def SingleFlight (s : Translator) : Prop :=
  s.pending.length ≤ 1 ∧ (s.processingFrame = true ↔ s.pending ≠ [])

/-- The two states agree on what the stabilizer reads and writes: the window,
the counter, the three parameters and the emitted labels. -/
def SameStabilizer (s t : Translator) : Prop :=
  t.predictionHistory = s.predictionHistory ∧ t.stabilityCounter = s.stabilityCounter ∧
  t.smoothingFrames = s.smoothingFrames ∧ t.minStabilityFrames = s.minStabilityFrames ∧
  t.confidenceThreshold = s.confidenceThreshold ∧ t.settled = s.settled

/-- Event `e` ends the request of frame `frameId`: its response arrived with
a status that is not ok, its body was parsed, or it was rejected. -/
def settles (e : Event) (frameId : ℕ) : Prop :=
  match e with
  | .fetchResolved f ok => f = frameId ∧ ok = false
  | .bodyParsed f _ _ => f = frameId
  | .requestFailed f _ => f = frameId
  | _ => False

/-- The ticks in the list are all rejected by the pacing test, each in the
state left by the ones before it. -/
def allRejected (s : Translator) : List TickEnv → Prop
  | [] => True
  | env :: rest => ¬ accepted s env.now ∧ allRejected (processFramesOptimized s env) rest

/-! ## Concrete states and inputs used in the examples -/

/-- The constructed state once `initializeCamera` has succeeded: the stream is
attached and `isCameraInitialized` is set. -/
def cameraReady : Translator :=
  { constructed with
    isCameraInitialized := true, videoStream := some 0, srcObject := some 0,
    getUserMediaCalls := 1 }

/-- A translating loop with the camera ready, `lastFrameTime` 0 and no request
in flight. -/
def translating : Translator :=
  { cameraReady with isTranslating := true }

/-- A run of `processFramesOptimized` at time `now` with the video ready and
nothing raising. -/
def tickAt (now : ℚ) : TickEnv :=
  { now := now, videoReady := true, captureThrows := false, scheduleThrows := false }

/-- A complete response for label `label` with confidence `confidence`. -/
def responseFor (label : String) (confidence : ℚ) : PredictionResult :=
  { success := some true, prediction := some label, confidence := some confidence,
    landmarks_detected := some true, landmarks := some [{ x := 1 / 2, y := 1 / 2 }],
    hand_count := some 1 }


end ASLTranslator

/-! # The alphabet quiz (`src/website/static/js/quiz.js`, class `ASLQuiz`) -/

namespace ASLQuiz

/-- One element of `questions`. Letters and options are one-character strings,
modelled as characters. -/
structure Question where
  letter : Char
  videoUrl : String
  options : List Char
  correctAnswer : Char
deriving DecidableEq

/-- The array `'ABCDEFGHIJKLMNOPQRSTUVWXYZ'.split('')`. -/
def alphabet : List Char := "ABCDEFGHIJKLMNOPQRSTUVWXYZ".data

/-- The outcome of the three `sort(() => Math.random() - 0.5)` calls of
`generateQuestions`: what the first call makes of the alphabet, and for each
question (named by its letter) what the other two calls make of their arrays. -/
structure Shuffles where
  letters : List Char → List Char
  wrong : Char → List Char → List Char
  options : Char → List Char → List Char

/-- Every shuffle returns a permutation of the array it is given. -/
def Shuffles.ArePermutations (σ : Shuffles) : Prop :=
  (∀ l, (σ.letters l).Perm l) ∧ (∀ c l, (σ.wrong c l).Perm l) ∧
    (∀ c l, (σ.options c l).Perm l)

/-- The method `generateQuestions`. The first `sort` works in place, so the
later `alphabet.filter` reads the shuffled alphabet. -/
def generateQuestions (σ : Shuffles) : List Question :=
  let shuffled := σ.letters alphabet
  let selected := shuffled.take 10
  selected.map (fun letter =>
    let wrong := (σ.wrong letter (shuffled.filter (fun l => l ≠ letter))).take 3
    { letter := letter
      videoUrl := "/assets/videos/alphabet/" ++ letter.toString ++ ".mp4"
      options := σ.options letter (letter :: wrong)
      correctAnswer := letter })

/-- The shuffles that leave every array as it is. -/
def noShuffle : Shuffles :=
  { letters := fun l => l, wrong := fun _ l => l, options := fun _ l => l }

/-- The quiz state: the fields of `ASLQuiz`, and of the page the option buttons
shown with whether they are disabled, whether the submit button is disabled,
whether the quiz dialog is shown, the number of scheduled advance timers, and
the result dialog (final score and percentage) once shown. -/
structure Quiz where
  questions : List Question
  currentQuestionIndex : ℕ
  score : ℕ
  selectedAnswer : Option Char
  renderedOptions : List Char
  optionsDisabled : Bool
  submitDisabled : Bool
  quizShown : Bool
  pendingAdvances : ℕ
  result : Option (ℕ × ℤ)

/-- The state the constructor leaves. -/
def constructed : Quiz :=
  { questions := [], currentQuestionIndex := 0, score := 0, selectedAnswer := none,
    renderedOptions := [], optionsDisabled := false, submitDisabled := true,
    quizShown := false, pendingAdvances := 0, result := none }

/-- The method `showResults`. -/
def showResults (q : Quiz) : Quiz :=
  { q with
    quizShown := false
    result := some (q.score, ASLTranslator.jsRound ((q.score : ℚ) / 10 * 100)) }

/-- The method `showQuestion`. -/
def showQuestion (q : Quiz) : Quiz :=
  match q.questions.get? q.currentQuestionIndex with
  | none => showResults q
  | some question =>
    { q with
      renderedOptions := question.options
      optionsDisabled := false
      submitDisabled := true
      selectedAnswer := none }

/-- The method `start`. -/
def start (q : Quiz) (σ : Shuffles) : Quiz :=
  { showQuestion
      { q with
        questions := generateQuestions σ
        currentQuestionIndex := 0
        score := 0
        selectedAnswer := none } with
    quizShown := true }

/-- The method `selectOption`. -/
def selectOption (q : Quiz) (option : Char) : Quiz :=
  { q with selectedAnswer := some option, submitDisabled := false }

/-- The method `submitAnswer`. Reading the question beyond the last one raises;
the state is then left as it is. -/
def submitAnswer (q : Quiz) : Quiz :=
  match q.selectedAnswer with
  | none => q
  | some answer =>
    match q.questions.get? q.currentQuestionIndex with
    | none => q
    | some question =>
      { q with
        score := if answer = question.correctAnswer then q.score + 1 else q.score
        optionsDisabled := true
        pendingAdvances := q.pendingAdvances + 1 }

/-- The timer callback of `submitAnswer`. -/
def advance (q : Quiz) : Quiz :=
  showQuestion { q with currentQuestionIndex := q.currentQuestionIndex + 1 }

/-- What the user and the timers can do: press an option button, press the
submit button, or let a scheduled advance run. -/
inductive Action where
  | clickOption (option : Char)
  | clickSubmit
  | timerFires

/-- One action applied to the quiz. A press on a button that is not shown or
is disabled does nothing, and so does a timer that was never scheduled. -/
def step (q : Quiz) : Action → Quiz
  | .clickOption option =>
    if q.quizShown && !q.optionsDisabled && decide (option ∈ q.renderedOptions) then
      selectOption q option
    else q
  | .clickSubmit => if q.quizShown && !q.submitDisabled then submitAnswer q else q
  | .timerFires =>
    if q.pendingAdvances = 0 then q
    else advance { q with pendingAdvances := q.pendingAdvances - 1 }

/-- The state after a sequence of actions. -/
def run (q : Quiz) (actions : List Action) : Quiz :=
  actions.foldl step q

end ASLQuiz

namespace ASLTranslator

/-! # Theorems -/

/-! ## The count table of the majority vote -/

theorem plusOne_storedValue (k : String) (n : ℕ) :
    (storedValue k n).plusOne = storedValue k (n + 1) := by
  unfold storedValue
  split <;> rfl

theorem storedFirst_eq (k : String) : storedFirst k = storedValue k 1 := rfl

theorem storedValue_number (k : String) (n m : ℕ) (h : storedValue k n = .number m) :
    k ∉ inheritedMethods ∧ n = m := by
  unfold storedValue at h
  split at h
  · exact absurd h (by simp)
  · rename_i hk
    exact ⟨hk, by simpa using h⟩

theorem storedValue_of_counted (k : String) (n : ℕ) (h : countedLabel k) :
    storedValue k n = .number n := by
  unfold storedValue
  rw [if_neg h.2]

theorem ownValue_assign (k j : String) (own : List (String × PropertyValue)) :
    ownValue j (assign k own) =
      if k = j then
        some (match ownValue k own with
          | some v => v.plusOne
          | none => storedFirst k)
      else ownValue j own := by
  induction own with
  | nil =>
    by_cases h : k = j <;> simp [assign, ownValue, h]
  | cons e rest ih =>
    obtain ⟨k', v⟩ := e
    by_cases h1 : k' = k
    · subst h1
      by_cases h2 : k' = j <;> simp [assign, ownValue, h2]
    · by_cases h2 : k = j
      · subst h2
        simp only [assign, h1, if_false, ownValue, ih, if_true]
      · by_cases h3 : k' = j
        · subst h3
          simp [assign, ownValue, h1, h2]
        · simp only [assign, h1, if_false, ownValue, h3, ih, h2]

theorem keys_assign (k : String) (own : List (String × PropertyValue)) :
    (assign k own).map Prod.fst =
      if k ∈ own.map Prod.fst then own.map Prod.fst else own.map Prod.fst ++ [k] := by
  induction own with
  | nil => simp [assign]
  | cons e rest ih =>
    obtain ⟨k', c⟩ := e
    by_cases h1 : k' = k
    · subst h1
      simp [assign]
    · have h3 : ¬ k = k' := fun h => h1 h.symm
      by_cases h2 : k ∈ rest.map Prod.fst
      · simp only [assign, h1, if_false, List.map_cons, ih, h2, if_true]
        simp [h2]
      · simp only [assign, h1, if_false, List.map_cons, ih, h2]
        simp [h3, h2]

theorem keys_increment (k : String) (own : List (String × PropertyValue)) :
    (increment k own).map Prod.fst =
      if k = "__proto__" ∨ k ∈ own.map Prod.fst then own.map Prod.fst
      else own.map Prod.fst ++ [k] := by
  unfold increment
  by_cases hp : k = "__proto__"
  · simp [hp]
  · rw [if_neg hp, keys_assign]
    simp only [hp, false_or]

theorem nodup_keys_increment (k : String) (own : List (String × PropertyValue))
    (h : (own.map Prod.fst).Nodup) : ((increment k own).map Prod.fst).Nodup := by
  rw [keys_increment]
  split
  · exact h
  · rename_i hk
    rw [List.nodup_append]
    refine ⟨h, List.nodup_singleton k, ?_⟩
    intro a ha hb
    simp at hb
    subst hb
    exact hk (Or.inr ha)

theorem ownValue_of_mem (own : List (String × PropertyValue)) (h : (own.map Prod.fst).Nodup)
    (e : String × PropertyValue) (he : e ∈ own) : ownValue e.1 own = some e.2 := by
  induction own with
  | nil => simp at he
  | cons a rest ih =>
    obtain ⟨k', c⟩ := a
    simp only [List.map_cons, List.nodup_cons] at h
    rcases List.mem_cons.mp he with he | he
    · subst he; simp [ownValue]
    · have hne : ¬ k' = e.1 := by
        intro hk
        apply h.1
        rw [hk]
        exact List.mem_map_of_mem Prod.fst he
      simp [ownValue, hne, ih h.2 he]

theorem mem_of_ownValue (k : String) (v : PropertyValue) (own : List (String × PropertyValue))
    (h : ownValue k own = some v) : (k, v) ∈ own := by
  induction own with
  | nil => simp [ownValue] at h
  | cons e rest ih =>
    obtain ⟨k', c⟩ := e
    by_cases hk : k' = k
    · subst hk
      simp only [ownValue, if_true, Option.some.injEq] at h
      subst h
      simp
    · simp only [ownValue, hk, if_false] at h
      exact List.mem_cons_of_mem _ (ih h)

theorem countLabel_concat (label : String) (history : List HistoryItem) (item : HistoryItem) :
    countLabel label (history ++ [item]) =
      countLabel label history + (if item.prediction = label then 1 else 0) := by
  unfold countLabel
  by_cases h : item.prediction = label <;> simp [List.filter_append, List.filter_cons, h]

theorem countPredictions_concat (history : List HistoryItem) (item : HistoryItem) :
    countPredictions (history ++ [item]) =
      increment item.prediction (countPredictions history) := by
  simp [countPredictions, List.foldl_append]

/-- The object `predictions` after the `forEach` loop: every label of the
window other than `__proto__` is an own property, created once, and holds the
number of its samples, or a string when it names an inherited function. -/
theorem countPredictions_spec (history : List HistoryItem) :
    ((countPredictions history).map Prod.fst).Nodup ∧
    ∀ k, ownValue k (countPredictions history) =
      if k = "__proto__" ∨ countLabel k history = 0 then none
      else some (storedValue k (countLabel k history)) := by
  induction history using List.reverseRecOn with
  | nil =>
    refine ⟨by simp [countPredictions], ?_⟩
    intro k
    simp [countPredictions, ownValue, countLabel]
  | append_singleton history item ih =>
    obtain ⟨hn, hv⟩ := ih
    rw [countPredictions_concat]
    refine ⟨nodup_keys_increment _ _ hn, ?_⟩
    intro k
    rw [countLabel_concat]
    unfold increment
    by_cases hp : item.prediction = "__proto__"
    · rw [if_pos hp, hv k]
      by_cases hk : k = "__proto__"
      · simp [hk]
      · have hne : ¬ item.prediction = k := by
          rw [hp]
          exact fun h => hk h.symm
        simp [hne]
    · rw [if_neg hp, ownValue_assign]
      by_cases hk : item.prediction = k
      · subst hk
        rw [if_pos rfl, hv item.prediction]
        by_cases hc : countLabel item.prediction history = 0
        · simp [hp, hc, storedFirst_eq]
        · simp [hp, hc, plusOne_storedValue]
      · rw [if_neg hk, hv k]
        simp [hk]

theorem countPredictions_mem (history : List HistoryItem) (e : String × PropertyValue)
    (he : e ∈ countPredictions history) :
    e.1 ≠ "__proto__" ∧ 0 < countLabel e.1 history ∧
      e.2 = storedValue e.1 (countLabel e.1 history) := by
  obtain ⟨hn, hv⟩ := countPredictions_spec history
  have h1 := ownValue_of_mem _ hn e he
  rw [hv e.1] at h1
  split at h1
  · exact absurd h1 (by simp)
  · rename_i hcond
    push_neg at hcond
    exact ⟨hcond.1, Nat.pos_of_ne_zero hcond.2, (Option.some.inj h1).symm⟩

theorem mem_countPredictions_of_pos (label : String) (history : List HistoryItem)
    (hp : label ≠ "__proto__") (h : 0 < countLabel label history) :
    (label, storedValue label (countLabel label history)) ∈ countPredictions history := by
  apply mem_of_ownValue
  rw [(countPredictions_spec history).2 label]
  have hc : ¬ countLabel label history = 0 := by omega
  simp [hp, hc]

theorem mem_objectEntries (own : List (String × PropertyValue)) (e : String × PropertyValue)
    (he : e ∈ objectEntries own) : e ∈ own := by
  unfold objectEntries at he
  rcases List.mem_append.mp he with h | h
  · have := (List.perm_insertionSort _ _).mem_iff.mp h
    exact (List.mem_filter.mp this).1
  · exact (List.mem_filter.mp h).1

theorem mem_objectEntries_of_mem (own : List (String × PropertyValue))
    (e : String × PropertyValue) (he : e ∈ own) : e ∈ objectEntries own := by
  unfold objectEntries
  rw [List.mem_append]
  by_cases hi : (arrayIndex e.1).isSome = true
  · left
    exact (List.perm_insertionSort _ _).mem_iff.mpr (List.mem_filter.mpr ⟨he, hi⟩)
  · right
    exact List.mem_filter.mpr ⟨he, by simpa using hi⟩

theorem mem_sortByCountDesc (entries : List (String × PropertyValue))
    (e : String × PropertyValue) (he : e ∈ sortByCountDesc entries) : e ∈ entries :=
  (List.perm_insertionSort _ _).mem_iff.mp he

/-- The first entry after the sort of entries that all hold numbers: the
entries before it in the list hold a smaller number, the entries after it hold
no greater number. -/
theorem sortByCountDesc_head (l : List (String × PropertyValue))
    (hnum : ∀ e ∈ l, ∃ m, e.2 = .number m) :
    ∀ x rest, sortByCountDesc l = x :: rest →
      ∃ P S n, l = P ++ x :: S ∧ x.2 = .number n ∧
        (∀ e ∈ P, ∀ m, e.2 = .number m → m < n) ∧
        (∀ e ∈ S, ∀ m, e.2 = .number m → m ≤ n) := by
  induction l with
  | nil =>
    intro x rest h
    simp [sortByCountDesc] at h
  | cons a l' ih =>
    intro x rest h
    obtain ⟨na, hna⟩ := hnum a (by simp)
    have hnum' : ∀ e ∈ l', ∃ m, e.2 = .number m := fun e he => hnum e (by simp [he])
    have hcons : sortByCountDesc (a :: l') =
        List.orderedInsert (fun a b => keepsBefore a b = true) a (sortByCountDesc l') := rfl
    rw [hcons] at h
    cases hs : sortByCountDesc l' with
    | nil =>
      have hl' : l' = [] := by
        have := (List.perm_insertionSort (fun a b => keepsBefore a b = true) l').length_eq
        unfold sortByCountDesc at hs
        rw [hs] at this
        exact List.length_eq_zero.mp this.symm
      rw [hs] at h
      simp only [List.orderedInsert, List.cons.injEq] at h
      obtain ⟨rfl, _⟩ := h
      exact ⟨[], [], na, by simp [hl'], hna, by simp, by simp⟩
    | cons m rest' =>
      obtain ⟨P', S', nm, hl', hnm, hP', hS'⟩ := ih hnum' m rest' hs
      rw [hs] at h
      have hkb : keepsBefore a m = decide (nm ≤ na) := by
        simp [keepsBefore, hna, hnm]
      by_cases hr : nm ≤ na
      · have hkb' : keepsBefore a m = true := by rw [hkb]; simpa using hr
        simp only [List.orderedInsert, hkb', if_true, List.cons.injEq] at h
        obtain ⟨rfl, _⟩ := h
        refine ⟨[], l', na, rfl, hna, by simp, ?_⟩
        intro e he k hk
        rw [hl'] at he
        rcases List.mem_append.mp he with he | he
        · exact le_trans (le_of_lt (hP' e he k hk)) hr
        · rcases List.mem_cons.mp he with he | he
          · rw [he, hnm] at hk
            cases hk
            exact hr
          · exact le_trans (hS' e he k hk) hr
      · have hkb' : ¬ keepsBefore a m = true := by rw [hkb]; simpa using hr
        simp only [List.orderedInsert, hkb', if_false, List.cons.injEq] at h
        obtain ⟨rfl, _⟩ := h
        refine ⟨a :: P', S', nm, by rw [hl']; rfl, hnm, ?_, hS'⟩
        intro e he k hk
        rcases List.mem_cons.mp he with he | he
        · rw [he, hna] at hk
          cases hk
          exact not_le.mp hr
        · exact hP' e he k hk

/-- The entry that `applyTemporalSmoothing` reads as `mostFrequent` on a window
of at least two samples whose labels are all counted by numbers: it holds the
number of samples with its label, and no label has more samples. -/
theorem mostFrequent_spec (history : List HistoryItem) (hlen : 2 ≤ history.length)
    (hplain : ∀ item ∈ history, countedLabel item.prediction) :
    ∃ x rest n, sortByCountDesc (objectEntries (countPredictions history)) = x :: rest ∧
      x.2 = .number n ∧ n = countLabel x.1 history ∧ 0 < n ∧
      (∀ label, countLabel label history ≤ n) ∧
      (∃ P S, objectEntries (countPredictions history) = P ++ x :: S ∧
        ∀ e ∈ P, countLabel e.1 history < n) ∧
      applyTemporalSmoothing history =
        if history.length / 2 ≤ n then
          some { prediction := x.1, confidence := sumConfidence x.1 history / n }
        else none := by
  have hcounted : ∀ label, 0 < countLabel label history → countedLabel label := by
    intro label hpos
    unfold countLabel at hpos
    obtain ⟨it, hit⟩ := List.exists_mem_of_length_pos hpos
    have hit2 := List.mem_filter.mp hit
    have hit3 : it.prediction = label := by simpa using hit2.2
    rw [← hit3]
    exact hplain it hit2.1
  have hval : ∀ e ∈ countPredictions history, e.2 = .number (countLabel e.1 history) := by
    intro e he
    obtain ⟨_, hpos, hv⟩ := countPredictions_mem history e he
    rw [hv, storedValue_of_counted _ _ (hcounted _ hpos)]
  have hnum : ∀ e ∈ objectEntries (countPredictions history), ∃ m, e.2 = .number m :=
    fun e he => ⟨_, hval e (mem_objectEntries _ _ he)⟩
  obtain ⟨first, others, hh⟩ : ∃ first others, history = first :: others := by
    cases history with
    | nil => simp at hlen
    | cons a b => exact ⟨a, b, rfl⟩
  have hfirst : 0 < countLabel first.prediction history := by
    rw [hh]
    simp [countLabel, List.filter_cons]
  have hmem1 := mem_objectEntries_of_mem _ _
    (mem_countPredictions_of_pos _ _ (hcounted _ hfirst).1 hfirst)
  have hmem2 := (List.perm_insertionSort (fun a b => keepsBefore a b = true) _).mem_iff.mpr hmem1
  cases hsort : sortByCountDesc (objectEntries (countPredictions history)) with
  | nil =>
    unfold sortByCountDesc at hsort
    rw [hsort] at hmem2
    simp at hmem2
  | cons x rest =>
    obtain ⟨P, S, n, hl, hxn, hP, hS⟩ := sortByCountDesc_head _ hnum x rest hsort
    have hxmem : x ∈ countPredictions history := by
      apply mem_objectEntries
      rw [hl]
      simp
    have hx := countPredictions_mem history x hxmem
    have hn : n = countLabel x.1 history := by
      have := hval x hxmem
      rw [hxn] at this
      cases this
      rfl
    have hmax : ∀ label, countLabel label history ≤ n := by
      intro label
      by_cases hpos : 0 < countLabel label history
      · have he := mem_objectEntries_of_mem _ _
          (mem_countPredictions_of_pos _ _ (hcounted _ hpos).1 hpos)
        rw [storedValue_of_counted _ _ (hcounted _ hpos), hl] at he
        rcases List.mem_append.mp he with he | he
        · exact le_of_lt (hP _ he _ rfl)
        · rcases List.mem_cons.mp he with he | he
          · rw [← he] at hn
            rw [hn]
          · exact hS _ he _ rfl
      · omega
    have hP' : ∀ e ∈ P, countLabel e.1 history < n := by
      intro e he
      have hemem : e ∈ countPredictions history := by
        apply mem_objectEntries
        rw [hl]
        simp [he]
      exact hP e he _ (hval e hemem)
    refine ⟨x, rest, n, rfl, hxn, hn, by rw [hn]; exact hx.2.1, hmax, ⟨P, S, hl, hP'⟩, ?_⟩
    have hnot : ¬ history.length < 2 := by omega
    simp only [applyTemporalSmoothing, hnot, if_false, hsort, List.head?_cons, hxn]

theorem foldl_confidence (l : List HistoryItem) (a : ℚ) :
    l.foldl (fun sum item => sum + item.confidence) a
      = a + (l.map HistoryItem.confidence).sum := by
  induction l generalizing a with
  | nil => simp
  | cons x xs ih => simp [ih, add_assoc]

theorem length_mul_le_sum (l : List ℚ) (a : ℚ) (h : ∀ x ∈ l, a ≤ x) :
    a * (l.length : ℚ) ≤ l.sum := by
  induction l with
  | nil => simp
  | cons x xs ih =>
    have hx := h x (by simp)
    have hxs := ih (fun y hy => h y (by simp [hy]))
    simp only [List.length_cons, List.sum_cons]
    push_cast
    linarith

theorem sum_le_length_mul (l : List ℚ) (b : ℚ) (h : ∀ x ∈ l, x ≤ b) :
    l.sum ≤ b * (l.length : ℚ) := by
  induction l with
  | nil => simp
  | cons x xs ih =>
    have hx := h x (by simp)
    have hxs := ih (fun y hy => h y (by simp [hy]))
    simp only [List.length_cons, List.sum_cons]
    push_cast
    linarith

theorem exists_least_confidence (l : List HistoryItem) (hl : l ≠ []) :
    ∃ lo ∈ l, ∀ x ∈ l, lo.confidence ≤ x.confidence := by
  induction l with
  | nil => exact absurd rfl hl
  | cons a rest ih =>
    by_cases hr : rest = []
    · subst hr
      exact ⟨a, by simp, by simp⟩
    · obtain ⟨m, hm, hmin⟩ := ih hr
      by_cases hle : a.confidence ≤ m.confidence
      · refine ⟨a, by simp, ?_⟩
        intro x hx
        rcases List.mem_cons.mp hx with hx | hx
        · subst hx; exact le_refl _
        · exact le_trans hle (hmin x hx)
      · refine ⟨m, by simp [hm], ?_⟩
        intro x hx
        rcases List.mem_cons.mp hx with hx | hx
        · subst hx; exact le_of_lt (not_le.mp hle)
        · exact hmin x hx

theorem exists_greatest_confidence (l : List HistoryItem) (hl : l ≠ []) :
    ∃ hi ∈ l, ∀ x ∈ l, x.confidence ≤ hi.confidence := by
  induction l with
  | nil => exact absurd rfl hl
  | cons a rest ih =>
    by_cases hr : rest = []
    · subst hr
      exact ⟨a, by simp, by simp⟩
    · obtain ⟨m, hm, hmax⟩ := ih hr
      by_cases hle : m.confidence ≤ a.confidence
      · refine ⟨a, by simp, ?_⟩
        intro x hx
        rcases List.mem_cons.mp hx with hx | hx
        · subst hx; exact le_refl _
        · exact le_trans (hmax x hx) hle
      · refine ⟨m, by simp [hm], ?_⟩
        intro x hx
        rcases List.mem_cons.mp hx with hx | hx
        · subst hx; exact le_of_lt (not_le.mp hle)
        · exact hmax x hx

/-- What a vote of `applyTemporalSmoothing` is made of: the first entry of the
sorted count table, which holds a number, the number of samples with that
label. -/
theorem applyTemporalSmoothing_some (history : List HistoryItem) (v : HistoryItem)
    (h : applyTemporalSmoothing history = some v) :
    0 < (history.filter (fun item => item.prediction = v.prediction)).length ∧
    v.confidence = sumConfidence v.prediction history /
      ((history.filter (fun item => item.prediction = v.prediction)).length : ℚ) := by
  unfold applyTemporalSmoothing at h
  split at h
  · exact absurd h (by simp)
  · split at h
    · exact absurd h (by simp)
    · rename_i mostFrequent hhead
      split at h
      · rename_i count hcount
        split at h
        · have hmem : mostFrequent ∈ countPredictions history :=
            mem_objectEntries _ _ (mem_sortByCountDesc _ _
              (List.mem_of_mem_head? (by rw [hhead]; exact rfl)))
          obtain ⟨_, hpos, hval⟩ := countPredictions_mem history mostFrequent hmem
          rw [hcount] at hval
          have hc := (storedValue_number _ _ _ hval.symm).2
          have hv : v = { prediction := mostFrequent.1
                          confidence := sumConfidence mostFrequent.1 history / count } :=
            (Option.some.inj h).symm
          subst hv
          unfold countLabel at hpos hc
          refine ⟨hpos, ?_⟩
          simp only []
          rw [hc]
        · exact absurd h (by simp)
      · exact absurd h (by simp)

/-- The vote of the exact version: its confidence is the mean of the
confidences of the samples that carry the voted label, and lies between the
smallest and the largest of them. -/
theorem exact_vote_confidence_is_mean (history : List HistoryItem) (v : HistoryItem)
    (h : applyTemporalSmoothing history = some v) :
    history.filter (fun item => item.prediction = v.prediction) ≠ [] ∧
    v.confidence =
      ((history.filter (fun item => item.prediction = v.prediction)).map
          HistoryItem.confidence).sum /
        ((history.filter (fun item => item.prediction = v.prediction)).length : ℚ) ∧
    ∃ lo ∈ history.filter (fun item => item.prediction = v.prediction),
      ∃ hi ∈ history.filter (fun item => item.prediction = v.prediction),
        (∀ x ∈ history.filter (fun item => item.prediction = v.prediction),
          lo.confidence ≤ x.confidence ∧ x.confidence ≤ hi.confidence) ∧
        lo.confidence ≤ v.confidence ∧ v.confidence ≤ hi.confidence := by
  obtain ⟨hpos, hconf⟩ := applyTemporalSmoothing_some history v h
  have hne : history.filter (fun item => item.prediction = v.prediction) ≠ [] := by
    intro hnil
    rw [hnil] at hpos
    simp at hpos
  have hmean : v.confidence =
      ((history.filter (fun item => item.prediction = v.prediction)).map
          HistoryItem.confidence).sum /
        ((history.filter (fun item => item.prediction = v.prediction)).length : ℚ) := by
    rw [hconf]
    unfold sumConfidence
    rw [foldl_confidence, zero_add]
  obtain ⟨lo, hlo, hmin⟩ := exists_least_confidence _ hne
  obtain ⟨hi, hhi, hmax⟩ := exists_greatest_confidence _ hne
  have hlen : (0 : ℚ) <
      ((history.filter (fun item => item.prediction = v.prediction)).length : ℚ) := by
    exact_mod_cast hpos
  refine ⟨hne, hmean, lo, hlo, hi, hhi, fun x hx => ⟨hmin x hx, hmax x hx⟩, ?_, ?_⟩
  · rw [hmean, le_div_iff₀ hlen]
    have := length_mul_le_sum
      ((history.filter (fun item => item.prediction = v.prediction)).map HistoryItem.confidence)
      lo.confidence (by
        intro x hx
        obtain ⟨y, hy, rfl⟩ := List.mem_map.mp hx
        exact hmin y hy)
    simpa using this
  · rw [hmean, div_le_iff₀ hlen]
    have := sum_le_length_mul
      ((history.filter (fun item => item.prediction = v.prediction)).map HistoryItem.confidence)
      hi.confidence (by
        intro x hx
        obtain ⟨y, hy, rfl⟩ := List.mem_map.mp hx
        exact hmax y hy)
    simpa using this

/-! ## Rounding to the nearest double -/

theorem roundHalfEven_bounds (x : ℚ) :
    ⌈x - 1 / 2⌉ ≤ roundHalfEven x ∧ roundHalfEven x ≤ ⌊x + 1 / 2⌋ := by
  have hf := Int.floor_le x
  have hf2 := Int.lt_floor_add_one x
  unfold roundHalfEven
  split
  · rename_i h
    constructor
    · rw [Int.ceil_le]
      linarith
    · rw [Int.le_floor]
      linarith
  · split
    · rename_i h1 h2
      constructor
      · rw [Int.ceil_le]
        push_cast
        linarith
      · rw [Int.le_floor]
        push_cast
        linarith
    · rename_i h1 h2
      have h3 : x - ⌊x⌋ = 1 / 2 := le_antisymm (not_lt.mp h2) (not_lt.mp h1)
      split
      · constructor
        · rw [Int.ceil_le]
          linarith
        · rw [Int.le_floor]
          linarith
      · constructor
        · rw [Int.ceil_le]
          push_cast
          linarith
        · rw [Int.le_floor]
          push_cast
          linarith

theorem roundHalfEven_mono {x y : ℚ} (h : x ≤ y) : roundHalfEven x ≤ roundHalfEven y := by
  rcases eq_or_lt_of_le h with h | h
  · rw [h]
  · have h1 := (roundHalfEven_bounds x).2
    have h2 := (roundHalfEven_bounds y).1
    refine le_trans h1 (le_trans ?_ h2)
    have h3 : ((⌊x + 1 / 2⌋ : ℤ) : ℚ) ≤ x + 1 / 2 := Int.floor_le _
    have h4 : ((⌊x + 1 / 2⌋ : ℤ) : ℚ) - 1 < y - 1 / 2 := by linarith
    have h5 : (((⌊x + 1 / 2⌋ - 1 : ℤ)) : ℚ) < y - 1 / 2 := by
      push_cast
      exact h4
    have h6 := Int.lt_ceil.mpr h5
    omega

theorem roundHalfEven_intCast (n : ℤ) : roundHalfEven (n : ℚ) = n := by
  unfold roundHalfEven
  simp

theorem roundToDouble_zero : roundToDouble 0 = 0 := by
  simp [roundToDouble, roundHalfEven]

theorem two_zpow_pos (e : ℤ) : (0 : ℚ) < 2 ^ e := zpow_pos (by norm_num) e

theorem spacingExponent_of_pos {x : ℚ} (hx : 0 < x) :
    spacingExponent x = max (Int.log 2 x) (-1022) - 52 := by
  unfold spacingExponent
  rw [abs_of_pos hx]

theorem zpow_log_le {x : ℚ} (hx : 0 < x) : (2 : ℚ) ^ Int.log 2 x ≤ x := by
  have h := Int.zpow_log_le_self (b := 2) (by norm_num) hx
  simpa using h

theorem lt_zpow_log_succ (x : ℚ) : x < (2 : ℚ) ^ (Int.log 2 x + 1) := by
  have h := Int.lt_zpow_succ_log_self (b := 2) (by norm_num) x
  simpa using h

theorem roundToDouble_nonneg {x : ℚ} (hx : 0 ≤ x) : 0 ≤ roundToDouble x := by
  unfold roundToDouble
  have h1 : (0 : ℚ) ≤ x / 2 ^ spacingExponent x := div_nonneg hx (le_of_lt (two_zpow_pos _))
  have h2 := roundHalfEven_mono h1
  rw [show ((0 : ℚ)) = ((0 : ℤ) : ℚ) from by simp, roundHalfEven_intCast] at h2
  exact mul_nonneg (by exact_mod_cast h2) (le_of_lt (two_zpow_pos _))

/-- A positive number rounds to at most the next power of two above its
binade. -/
theorem roundToDouble_le_zpow {x : ℚ} (hx : 0 < x) :
    roundToDouble x ≤ 2 ^ (spacingExponent x + 53) := by
  have hlt := lt_zpow_log_succ x
  have hexp : Int.log 2 x + 1 ≤ spacingExponent x + 53 := by
    rw [spacingExponent_of_pos hx]
    have := le_max_left (Int.log 2 x) (-1022)
    omega
  have hle : x ≤ 2 ^ (spacingExponent x + 53) :=
    le_trans (le_of_lt hlt) (zpow_le_zpow_right₀ (by norm_num) hexp)
  have hq : x / 2 ^ spacingExponent x ≤ (((2 : ℤ) ^ 53 : ℤ) : ℚ) := by
    rw [div_le_iff₀ (two_zpow_pos _)]
    have : (((2 : ℤ) ^ 53 : ℤ) : ℚ) * 2 ^ spacingExponent x = 2 ^ (spacingExponent x + 53) := by
      rw [zpow_add₀ (by norm_num : (2 : ℚ) ≠ 0)]
      push_cast
      rw [mul_comm]
      norm_num
    rw [this]
    exact hle
  have hr := roundHalfEven_mono hq
  rw [roundHalfEven_intCast] at hr
  unfold roundToDouble
  have h2 : ((roundHalfEven (x / 2 ^ spacingExponent x) : ℤ) : ℚ) ≤ (((2 : ℤ) ^ 53 : ℤ) : ℚ) := by
    exact_mod_cast hr
  calc ((roundHalfEven (x / 2 ^ spacingExponent x) : ℤ) : ℚ) * 2 ^ spacingExponent x
      ≤ (((2 : ℤ) ^ 53 : ℤ) : ℚ) * 2 ^ spacingExponent x :=
        mul_le_mul_of_nonneg_right h2 (le_of_lt (two_zpow_pos _))
    _ = 2 ^ (spacingExponent x + 53) := by
        rw [zpow_add₀ (by norm_num : (2 : ℚ) ≠ 0)]
        push_cast
        rw [mul_comm]
        norm_num

/-- A positive number of the normal range rounds to at least the power of two
at the bottom of its binade. -/
theorem zpow_le_roundToDouble {y : ℚ} (hy : 0 < y) (hn : -1022 ≤ Int.log 2 y) :
    (2 : ℚ) ^ Int.log 2 y ≤ roundToDouble y := by
  have he : spacingExponent y = Int.log 2 y - 52 := by
    rw [spacingExponent_of_pos hy, max_eq_left hn]
  have hq : (((2 : ℤ) ^ 52 : ℤ) : ℚ) ≤ y / 2 ^ spacingExponent y := by
    rw [le_div_iff₀ (two_zpow_pos _), he]
    have : (((2 : ℤ) ^ 52 : ℤ) : ℚ) * 2 ^ (Int.log 2 y - 52) = 2 ^ Int.log 2 y := by
      rw [zpow_sub₀ (by norm_num : (2 : ℚ) ≠ 0)]
      push_cast
      field_simp
      norm_num
      ring
    rw [this]
    exact zpow_log_le hy
  have hr := roundHalfEven_mono hq
  rw [roundHalfEven_intCast] at hr
  unfold roundToDouble
  have h2 : (((2 : ℤ) ^ 52 : ℤ) : ℚ) ≤ ((roundHalfEven (y / 2 ^ spacingExponent y) : ℤ) : ℚ) := by
    exact_mod_cast hr
  calc (2 : ℚ) ^ Int.log 2 y
      = (((2 : ℤ) ^ 52 : ℤ) : ℚ) * 2 ^ spacingExponent y := by
        rw [he, zpow_sub₀ (by norm_num : (2 : ℚ) ≠ 0)]
        push_cast
        field_simp
        norm_num
        ring
    _ ≤ ((roundHalfEven (y / 2 ^ spacingExponent y) : ℤ) : ℚ) * 2 ^ spacingExponent y :=
        mul_le_mul_of_nonneg_right h2 (le_of_lt (two_zpow_pos _))

/-- Rounding to the nearest double is monotone on the numbers that are not
negative. -/
theorem roundToDouble_mono {x y : ℚ} (hx : 0 ≤ x) (h : x ≤ y) :
    roundToDouble x ≤ roundToDouble y := by
  rcases eq_or_lt_of_le hx with hx0 | hxpos
  · rw [← hx0, roundToDouble_zero]
    exact roundToDouble_nonneg (le_trans hx h)
  have hypos : 0 < y := lt_of_lt_of_le hxpos h
  have hlog : Int.log 2 x ≤ Int.log 2 y := Int.log_mono_right hxpos h
  have hex := spacingExponent_of_pos hxpos
  have hey := spacingExponent_of_pos hypos
  by_cases hsame : spacingExponent x = spacingExponent y
  · unfold roundToDouble
    rw [hsame]
    have hq : x / 2 ^ spacingExponent y ≤ y / 2 ^ spacingExponent y :=
      div_le_div_of_nonneg_right h (le_of_lt (two_zpow_pos _))
    have hr := roundHalfEven_mono hq
    exact mul_le_mul_of_nonneg_right (by exact_mod_cast hr) (le_of_lt (two_zpow_pos _))
  · have hlt : spacingExponent x < spacingExponent y := by
      have : spacingExponent x ≤ spacingExponent y := by
        rw [hex, hey]
        have := max_le_max hlog (le_refl (-1022 : ℤ))
        omega
      omega
    have hn : -1022 ≤ Int.log 2 y ∧ spacingExponent x + 53 ≤ Int.log 2 y := by
      rw [hex, hey] at hlt
      rcases le_total (Int.log 2 y) (-1022) with hc | hc
      · rw [max_eq_right hc] at hlt
        have := le_max_right (Int.log 2 x) (-1022)
        omega
      · rw [max_eq_left hc] at hlt
        rw [hex]
        exact ⟨hc, by omega⟩
    calc roundToDouble x ≤ 2 ^ (spacingExponent x + 53) := roundToDouble_le_zpow hxpos
      _ ≤ 2 ^ Int.log 2 y := zpow_le_zpow_right₀ (by norm_num) hn.2
      _ ≤ roundToDouble y := zpow_le_roundToDouble hypos hn.1

/-- The value of `roundToDouble` on a positive number of the normal range whose
binade is known. -/
theorem roundToDouble_of_binade (x : ℚ) (e : ℤ) (he : -1022 ≤ e)
    (h1 : (2 : ℚ) ^ e ≤ x) (h2 : x < 2 ^ (e + 1)) :
    roundToDouble x = roundHalfEven (x / 2 ^ (e - 52)) * 2 ^ (e - 52) := by
  have hx : 0 < x := lt_of_lt_of_le (two_zpow_pos e) h1
  have hlog : Int.log 2 x = e := by
    apply le_antisymm
    · have := (Int.lt_zpow_iff_log_lt (b := 2) (by norm_num) hx).mp (by simpa using h2)
      omega
    · exact (Int.zpow_le_iff_le_log (b := 2) (by norm_num) hx).mp (by simpa using h1)
  have hs : spacingExponent x = e - 52 := by
    rw [spacingExponent_of_pos hx, hlog, max_eq_left he]
  unfold roundToDouble
  rw [hs]

theorem isDouble_of_mantissa (m e : ℤ) (hm1 : 2 ^ 52 ≤ m) (hm2 : m < 2 ^ 53)
    (he1 : -1022 ≤ e) (he2 : e ≤ 1023) : IsDouble ((m : ℚ) * 2 ^ (e - 52)) := by
  have hpos := two_zpow_pos (e - 52)
  have hm1' : ((2 : ℚ) ^ (52 : ℕ)) ≤ (m : ℚ) := by exact_mod_cast hm1
  have hm2' : (m : ℚ) < (2 : ℚ) ^ (53 : ℕ) := by exact_mod_cast hm2
  have hsplit1 : (2 : ℚ) ^ e = (2 : ℚ) ^ (52 : ℕ) * 2 ^ (e - 52) := by
    rw [← zpow_natCast, ← zpow_add₀ (by norm_num : (2 : ℚ) ≠ 0)]
    congr 1
    omega
  have hsplit2 : (2 : ℚ) ^ (e + 1) = (2 : ℚ) ^ (53 : ℕ) * 2 ^ (e - 52) := by
    rw [← zpow_natCast, ← zpow_add₀ (by norm_num : (2 : ℚ) ≠ 0)]
    congr 1
    omega
  have h1 : (2 : ℚ) ^ e ≤ (m : ℚ) * 2 ^ (e - 52) := by
    rw [hsplit1]
    exact mul_le_mul_of_nonneg_right hm1' (le_of_lt hpos)
  have h2 : (m : ℚ) * 2 ^ (e - 52) < 2 ^ (e + 1) := by
    rw [hsplit2]
    exact mul_lt_mul_of_pos_right hm2' hpos
  constructor
  · rw [roundToDouble_of_binade _ e he1 h1 h2, mul_div_assoc, div_self (ne_of_gt hpos), mul_one,
      roundHalfEven_intCast]
  · have hx : 0 < (m : ℚ) * 2 ^ (e - 52) := lt_of_lt_of_le (two_zpow_pos e) h1
    rw [abs_of_pos hx]
    refine lt_of_lt_of_le h2 ?_
    rw [← zpow_natCast]
    exact zpow_le_zpow_right₀ (by norm_num) (by omega)

/-! ## The confidence of a vote in double arithmetic -/

/-- What a vote of `applyTemporalSmoothingDouble` is made of: the exact version
gives a vote with the same label, and the confidence is the rounded quotient of
the rounded sum by the number of samples with that label. -/
theorem applyTemporalSmoothingDouble_some (history : List HistoryItem) (v : HistoryItem)
    (h : applyTemporalSmoothingDouble history = some v) :
    (∃ c, applyTemporalSmoothing history = some ⟨v.prediction, c⟩) ∧
    v.confidence = roundToDouble (sumConfidenceDouble v.prediction history /
      ((history.filter (fun item => item.prediction = v.prediction)).length : ℚ)) := by
  have hlen : ¬ history.length < 2 := by
    intro hl
    simp [applyTemporalSmoothingDouble, hl] at h
  cases hhead : (sortByCountDesc (objectEntries (countPredictions history))).head? with
  | none => simp [applyTemporalSmoothingDouble, hlen, hhead] at h
  | some mostFrequent =>
    cases hcount : mostFrequent.2 with
    | text ones => simp [applyTemporalSmoothingDouble, hlen, hhead, hcount] at h
    | number count =>
      by_cases hge : history.length / 2 ≤ count
      · simp only [applyTemporalSmoothingDouble, hlen, if_false, hhead, hcount, hge,
          if_true, Option.some.injEq] at h
        have hmem : mostFrequent ∈ countPredictions history :=
          mem_objectEntries _ _ (mem_sortByCountDesc _ _
            (List.mem_of_mem_head? (by rw [hhead]; exact rfl)))
        obtain ⟨_, _, hval⟩ := countPredictions_mem history mostFrequent hmem
        rw [hcount] at hval
        have hc := (storedValue_number _ _ _ hval.symm).2
        unfold countLabel at hc
        subst h
        refine ⟨⟨sumConfidence mostFrequent.1 history / count, ?_⟩, ?_⟩
        · simp only [applyTemporalSmoothing, hlen, if_false, hhead, hcount, hge, if_true]
        · simp only []
          rw [hc]
      · simp [applyTemporalSmoothingDouble, hlen, hhead, hcount, hge] at h

/-- The rounded sum of `count` confidences between `lo` and `hi`, started from
a value between `j * lo` and `j * hi`, lies between `(j + count) * lo` and
`(j + count) * hi` when these multiples are doubles. -/
theorem foldl_double_bounds (lo hi : ℚ) (hlo : 0 ≤ lo) (n : ℕ)
    (hmul : ∀ k : ℕ, 1 ≤ k → k ≤ n →
      roundToDouble (k * lo) = k * lo ∧ roundToDouble (k * hi) = k * hi)
    (l : List HistoryItem) :
    ∀ (j : ℕ) (a : ℚ), (∀ x ∈ l, lo ≤ x.confidence ∧ x.confidence ≤ hi) →
      j + l.length ≤ n → (j : ℚ) * lo ≤ a → a ≤ (j : ℚ) * hi →
      ((j + l.length : ℕ) : ℚ) * lo ≤
          l.foldl (fun sum item => roundToDouble (sum + item.confidence)) a ∧
        l.foldl (fun sum item => roundToDouble (sum + item.confidence)) a ≤
          ((j + l.length : ℕ) : ℚ) * hi := by
  induction l with
  | nil =>
    intro j a _ _ h1 h2
    simpa using ⟨h1, h2⟩
  | cons x xs ih =>
    intro j a hb hlen h1 h2
    have hx := hb x (by simp)
    have hj : (0 : ℚ) ≤ (j : ℚ) * lo := mul_nonneg (by positivity) hlo
    simp only [List.length_cons] at hlen
    obtain ⟨m1, m2⟩ := hmul (j + 1) (by omega) (by omega)
    have e1 : ((j + 1 : ℕ) : ℚ) * lo = (j : ℚ) * lo + lo := by push_cast; ring
    have e2 : ((j + 1 : ℕ) : ℚ) * hi = (j : ℚ) * hi + hi := by push_cast; ring
    have s1 : ((j + 1 : ℕ) : ℚ) * lo ≤ roundToDouble (a + x.confidence) := by
      rw [← m1]
      apply roundToDouble_mono
      · rw [e1]; linarith
      · rw [e1]; linarith
    have s2 : roundToDouble (a + x.confidence) ≤ ((j + 1 : ℕ) : ℚ) * hi := by
      rw [← m2]
      apply roundToDouble_mono
      · linarith
      · rw [e2]; linarith
    have := ih (j + 1) (roundToDouble (a + x.confidence))
      (fun y hy => hb y (by simp [hy])) (by omega) s1 s2
    simp only [List.foldl_cons, List.length_cons]
    have hidx : j + (xs.length + 1) = j + 1 + xs.length := by omega
    rw [hidx]
    exact this

/-- C11 (as amended): for every window none of whose labels is `__proto__` or
the name of a function inherited from `Object.prototype`, and on which
`applyTemporalSmoothing`, evaluated in the double arithmetic of the code,
returns a vote: there are samples that carry the voted label; in exact
arithmetic the confidence of the vote is their mean, which lies between the
smallest and the largest of their confidences; the confidence that the code
returns is the rounded quotient of the rounded left-to-right sum by their
number, and it lies between `lo` and `hi` for every two bounds of those
confidences, `lo` not negative, whose multiples up to that number are doubles
(such as 0.75 and 1). It need not lie between the smallest and the largest
confidence. -/
theorem C11_vote_confidence_in_double_arithmetic (history : List HistoryItem)
    (v : HistoryItem) (h : applyTemporalSmoothingDouble history = some v) :
    (∀ item ∈ history, countedLabel item.prediction) →
    history.filter (fun item => item.prediction = v.prediction) ≠ [] ∧
    (∃ mean, applyTemporalSmoothing history = some ⟨v.prediction, mean⟩ ∧
      mean = ((history.filter (fun item => item.prediction = v.prediction)).map
          HistoryItem.confidence).sum /
        ((history.filter (fun item => item.prediction = v.prediction)).length : ℚ) ∧
      ∃ lo ∈ history.filter (fun item => item.prediction = v.prediction),
        ∃ hi ∈ history.filter (fun item => item.prediction = v.prediction),
          (∀ x ∈ history.filter (fun item => item.prediction = v.prediction),
            lo.confidence ≤ x.confidence ∧ x.confidence ≤ hi.confidence) ∧
          lo.confidence ≤ mean ∧ mean ≤ hi.confidence) ∧
    v.confidence = roundToDouble (sumConfidenceDouble v.prediction history /
      ((history.filter (fun item => item.prediction = v.prediction)).length : ℚ)) ∧
    ∀ lo hi : ℚ, 0 ≤ lo →
      (∀ k : ℕ, 1 ≤ k →
        k ≤ (history.filter (fun item => item.prediction = v.prediction)).length →
        IsDouble (k * lo) ∧ IsDouble (k * hi)) →
      (∀ x ∈ history.filter (fun item => item.prediction = v.prediction),
        lo ≤ x.confidence ∧ x.confidence ≤ hi) →
      lo ≤ v.confidence ∧ v.confidence ≤ hi := by
  intro _
  obtain ⟨⟨c, hexact⟩, hconf⟩ := applyTemporalSmoothingDouble_some history v h
  obtain ⟨hne, hmean, hbetween⟩ := exact_vote_confidence_is_mean history _ hexact
  simp only [] at hne hmean hbetween
  refine ⟨hne, ⟨c, hexact, hmean, hbetween⟩, hconf, ?_⟩
  intro lo hi hlo hmul hb
  have hpos : 0 < (history.filter (fun item => item.prediction = v.prediction)).length :=
    List.length_pos_of_ne_nil hne
  have hsum := foldl_double_bounds lo hi hlo
    (history.filter (fun item => item.prediction = v.prediction)).length
    (fun k h1 h2 => ⟨(hmul k h1 h2).1.1, (hmul k h1 h2).2.1⟩)
    (history.filter (fun item => item.prediction = v.prediction)) 0 0 hb (by omega)
    (by simp) (by simp)
  simp only [zero_add] at hsum
  have hn : (0 : ℚ) <
      ((history.filter (fun item => item.prediction = v.prediction)).length : ℚ) := by
    exact_mod_cast hpos
  obtain ⟨o1, o2⟩ := hmul 1 (le_refl 1) hpos
  have o1' : roundToDouble lo = lo := by simpa using o1.1
  have o2' : roundToDouble hi = hi := by simpa using o2.1
  rw [hconf]
  unfold sumConfidenceDouble
  constructor
  · rw [← o1']
    apply roundToDouble_mono hlo
    rw [le_div_iff₀ hn, mul_comm]
    exact hsum.1
  · rw [← o2']
    apply roundToDouble_mono
    · exact div_nonneg (le_trans (mul_nonneg (le_of_lt hn) hlo) hsum.1) (le_of_lt hn)
    · rw [div_le_iff₀ hn, mul_comm]
      exact hsum.2

/-- The double that the numeral `0.8` denotes, and the doubles that arise when
three of them are added and the sum is divided by 3. -/
theorem double_arithmetic_on_three_samples :
    roundToDouble (4 / 5) = 3602879701896397 / 4503599627370496 ∧
    roundToDouble (0 + 3602879701896397 / 4503599627370496)
      = 3602879701896397 / 4503599627370496 ∧
    roundToDouble (3602879701896397 / 4503599627370496 + 3602879701896397 / 4503599627370496)
      = 3602879701896397 / 2251799813685248 ∧
    roundToDouble (3602879701896397 / 2251799813685248 + 3602879701896397 / 4503599627370496)
      = 1351079888211149 / 562949953421312 ∧
    roundToDouble (1351079888211149 / 562949953421312 / 3)
      = 7205759403792795 / 9007199254740992 := by
  refine ⟨?_, ?_, ?_, ?_, ?_⟩
  · rw [roundToDouble_of_binade _ (-1) (by norm_num) (by norm_num) (by norm_num)]
    norm_num [roundHalfEven]
  · rw [roundToDouble_of_binade _ (-1) (by norm_num) (by norm_num) (by norm_num)]
    norm_num [roundHalfEven]
  · rw [roundToDouble_of_binade _ 0 (by norm_num) (by norm_num) (by norm_num)]
    norm_num [roundHalfEven]
  · rw [roundToDouble_of_binade _ 1 (by norm_num) (by norm_num) (by norm_num)]
    norm_num [roundHalfEven]
  · rw [roundToDouble_of_binade _ (-1) (by norm_num) (by norm_num) (by norm_num)]
    norm_num [roundHalfEven]

theorem vote_on_three_doubles :
    applyTemporalSmoothingDouble
      [⟨"A", 3602879701896397 / 4503599627370496⟩, ⟨"A", 3602879701896397 / 4503599627370496⟩,
        ⟨"A", 3602879701896397 / 4503599627370496⟩]
      = some ⟨"A", 7205759403792795 / 9007199254740992⟩ := by
  obtain ⟨_, r1, r2, r3, r4⟩ := double_arithmetic_on_three_samples
  have hsum : sumConfidenceDouble "A"
      [⟨"A", 3602879701896397 / 4503599627370496⟩, ⟨"A", 3602879701896397 / 4503599627370496⟩,
        ⟨"A", 3602879701896397 / 4503599627370496⟩] = 1351079888211149 / 562949953421312 := by
    have : sumConfidenceDouble "A"
        [⟨"A", 3602879701896397 / 4503599627370496⟩,
          ⟨"A", 3602879701896397 / 4503599627370496⟩,
          ⟨"A", 3602879701896397 / 4503599627370496⟩]
        = roundToDouble (roundToDouble (roundToDouble
            (0 + 3602879701896397 / 4503599627370496) + 3602879701896397 / 4503599627370496)
              + 3602879701896397 / 4503599627370496) := by
      simp only [sumConfidenceDouble, List.filter_cons, decide_True, if_true, List.filter_nil,
        List.foldl_cons, List.foldl_nil]
    rw [this, r1, r2, r3]
  have key : applyTemporalSmoothingDouble
      [⟨"A", 3602879701896397 / 4503599627370496⟩, ⟨"A", 3602879701896397 / 4503599627370496⟩,
        ⟨"A", 3602879701896397 / 4503599627370496⟩]
      = some ⟨"A", roundToDouble (sumConfidenceDouble "A"
          [⟨"A", 3602879701896397 / 4503599627370496⟩,
            ⟨"A", 3602879701896397 / 4503599627370496⟩,
            ⟨"A", 3602879701896397 / 4503599627370496⟩] / (3 : ℕ))⟩ := by
    simp [applyTemporalSmoothingDouble, sortByCountDesc, objectEntries, countPredictions,
      increment, assign, storedFirst, inheritedMethods, PropertyValue.plusOne, keepsBefore,
      arrayIndex]
  rw [key, hsum]
  simp only [Nat.cast_ofNat]
  rw [r4]

/-- C11 (counterexample): three samples A carry the confidence 0.8, that is,
the double nearest to 0.8. The code adds them to 2.4000000000000004 and returns
0.8000000000000002, one unit in the last place above the confidence of every
sample. -/
theorem C11_counterexample_rounding_exceeds_largest :
    roundToDouble (4 / 5) = 3602879701896397 / 4503599627370496 ∧
    applyTemporalSmoothingDouble
      [⟨"A", 3602879701896397 / 4503599627370496⟩, ⟨"A", 3602879701896397 / 4503599627370496⟩,
        ⟨"A", 3602879701896397 / 4503599627370496⟩]
      = some ⟨"A", 7205759403792795 / 9007199254740992⟩ ∧
    (3602879701896397 / 4503599627370496 : ℚ) < 7205759403792795 / 9007199254740992 :=
  ⟨double_arithmetic_on_three_samples.1, vote_on_three_doubles, by norm_num⟩

theorem isDouble_multiples (k : ℕ) (h1 : 1 ≤ k) (h3 : k ≤ 3) :
    IsDouble ((k : ℚ) * (3 / 4)) ∧ IsDouble ((k : ℚ) * 1) := by
  have c1 := isDouble_of_mantissa (3 * 2 ^ 51) (-1) (by norm_num) (by norm_num) (by norm_num)
    (by norm_num)
  have c2 := isDouble_of_mantissa (3 * 2 ^ 51) 0 (by norm_num) (by norm_num) (by norm_num)
    (by norm_num)
  have c3 := isDouble_of_mantissa (9 * 2 ^ 49) 1 (by norm_num) (by norm_num) (by norm_num)
    (by norm_num)
  have c4 := isDouble_of_mantissa (2 ^ 52) 0 (by norm_num) (by norm_num) (by norm_num)
    (by norm_num)
  have c5 := isDouble_of_mantissa (2 ^ 52) 1 (by norm_num) (by norm_num) (by norm_num)
    (by norm_num)
  have c6 := isDouble_of_mantissa (3 * 2 ^ 51) 1 (by norm_num) (by norm_num) (by norm_num)
    (by norm_num)
  have e1 : (((3 * 2 ^ 51 : ℤ)) : ℚ) * 2 ^ ((-1 : ℤ) - 52) = 3 / 4 := by norm_num
  have e2 : (((3 * 2 ^ 51 : ℤ)) : ℚ) * 2 ^ ((0 : ℤ) - 52) = 3 / 2 := by norm_num
  have e3 : (((9 * 2 ^ 49 : ℤ)) : ℚ) * 2 ^ ((1 : ℤ) - 52) = 9 / 4 := by norm_num
  have e4 : (((2 ^ 52 : ℤ)) : ℚ) * 2 ^ ((0 : ℤ) - 52) = 1 := by norm_num
  have e5 : (((2 ^ 52 : ℤ)) : ℚ) * 2 ^ ((1 : ℤ) - 52) = 2 := by norm_num
  have e6 : (((3 * 2 ^ 51 : ℤ)) : ℚ) * 2 ^ ((1 : ℤ) - 52) = 3 := by norm_num
  rw [e1] at c1
  rw [e2] at c2
  rw [e3] at c3
  rw [e4] at c4
  rw [e5] at c5
  rw [e6] at c6
  interval_cases k
  · exact ⟨by norm_num; exact c1, by norm_num; exact c4⟩
  · exact ⟨by norm_num; exact c2, by norm_num; exact c5⟩
  · exact ⟨by norm_num; exact c3, by norm_num; exact c6⟩

/-- C11 (witness): the three samples A with the double of 0.8 as confidence:
the confidence that the code returns lies between 0.75 and 1. -/
theorem C11_vote_confidence_witness :
    applyTemporalSmoothingDouble
      [⟨"A", 3602879701896397 / 4503599627370496⟩, ⟨"A", 3602879701896397 / 4503599627370496⟩,
        ⟨"A", 3602879701896397 / 4503599627370496⟩]
      = some ⟨"A", 7205759403792795 / 9007199254740992⟩ ∧
    (3 / 4 : ℚ) ≤ 7205759403792795 / 9007199254740992 ∧
    (7205759403792795 / 9007199254740992 : ℚ) ≤ 1 :=
  ⟨vote_on_three_doubles,
    (C11_vote_confidence_in_double_arithmetic _ _ vote_on_three_doubles
      (by
        intro item hitem
        simp only [List.mem_cons, List.mem_singleton, List.not_mem_nil, or_false] at hitem
        rcases hitem with rfl | rfl | rfl <;> exact ⟨by decide, by decide⟩)).2.2.2 (3 / 4) 1
      (by norm_num)
      (fun k h1 h2 => isDouble_multiples k h1 (by
        simp only [List.filter_cons, decide_True, if_true, List.filter_nil] at h2
        exact h2))
      (by
        intro x hx
        simp only [List.filter_cons, decide_True, if_true, List.filter_nil, List.mem_cons,
          List.mem_singleton, List.not_mem_nil, or_false] at hx
        rcases hx with rfl | rfl | rfl <;> constructor <;> norm_num)⟩

/-! ## Fields that each method leaves alone -/

@[simp] theorem showError_pending (s : Translator) (m : String) :
    (showError s m).pending = s.pending := rfl

@[simp] theorem showError_processingFrame (s : Translator) (m : String) :
    (showError s m).processingFrame = s.processingFrame := rfl

@[simp] theorem showError_isTranslating (s : Translator) (m : String) :
    (showError s m).isTranslating = s.isTranslating := rfl

@[simp] theorem showError_frameInterval (s : Translator) (m : String) :
    (showError s m).frameInterval = s.frameInterval := rfl

@[simp] theorem showError_lastFrameTime (s : Translator) (m : String) :
    (showError s m).lastFrameTime = s.lastFrameTime := rfl

@[simp] theorem showError_isCameraInitialized (s : Translator) (m : String) :
    (showError s m).isCameraInitialized = s.isCameraInitialized := rfl

@[simp] theorem clearKeypoints_pending (s : Translator) :
    (clearKeypoints s).pending = s.pending := by
  simp only [clearKeypoints]
  split <;> rfl

@[simp] theorem clearKeypoints_processingFrame (s : Translator) :
    (clearKeypoints s).processingFrame = s.processingFrame := by
  simp only [clearKeypoints]
  split <;> rfl

@[simp] theorem clearKeypoints_isTranslating (s : Translator) :
    (clearKeypoints s).isTranslating = s.isTranslating := by
  simp only [clearKeypoints]
  split <;> rfl

@[simp] theorem clearKeypoints_frameInterval (s : Translator) :
    (clearKeypoints s).frameInterval = s.frameInterval := by
  simp only [clearKeypoints]
  split <;> rfl

@[simp] theorem clearKeypoints_lastFrameTime (s : Translator) :
    (clearKeypoints s).lastFrameTime = s.lastFrameTime := by
  simp only [clearKeypoints]
  split <;> rfl

@[simp] theorem clearKeypoints_isCameraInitialized (s : Translator) :
    (clearKeypoints s).isCameraInitialized = s.isCameraInitialized := by
  simp only [clearKeypoints]
  split <;> rfl

@[simp] theorem clearCanvases_pending (s : Translator) :
    (clearCanvases s).pending = s.pending := by
  simp only [clearCanvases]
  split <;> simp

@[simp] theorem clearCanvases_processingFrame (s : Translator) :
    (clearCanvases s).processingFrame = s.processingFrame := by
  simp only [clearCanvases]
  split <;> simp

@[simp] theorem clearCanvases_isTranslating (s : Translator) :
    (clearCanvases s).isTranslating = s.isTranslating := by
  simp only [clearCanvases]
  split <;> simp

@[simp] theorem clearCanvases_frameInterval (s : Translator) :
    (clearCanvases s).frameInterval = s.frameInterval := by
  simp only [clearCanvases]
  split <;> simp

@[simp] theorem clearCanvases_lastFrameTime (s : Translator) :
    (clearCanvases s).lastFrameTime = s.lastFrameTime := by
  simp only [clearCanvases]
  split <;> simp

@[simp] theorem clearCanvases_isCameraInitialized (s : Translator) :
    (clearCanvases s).isCameraInitialized = s.isCameraInitialized := by
  simp only [clearCanvases]
  split <;> simp

@[simp] theorem drawOptimizedLandmarks_pending (s : Translator) :
    (drawOptimizedLandmarks s).pending = s.pending := by
  simp only [drawOptimizedLandmarks]
  split <;> rfl

@[simp] theorem drawOptimizedLandmarks_processingFrame (s : Translator) :
    (drawOptimizedLandmarks s).processingFrame = s.processingFrame := by
  simp only [drawOptimizedLandmarks]
  split <;> rfl

@[simp] theorem drawOptimizedLandmarks_isTranslating (s : Translator) :
    (drawOptimizedLandmarks s).isTranslating = s.isTranslating := by
  simp only [drawOptimizedLandmarks]
  split <;> rfl

@[simp] theorem drawOptimizedLandmarks_frameInterval (s : Translator) :
    (drawOptimizedLandmarks s).frameInterval = s.frameInterval := by
  simp only [drawOptimizedLandmarks]
  split <;> rfl

@[simp] theorem drawOptimizedLandmarks_lastFrameTime (s : Translator) :
    (drawOptimizedLandmarks s).lastFrameTime = s.lastFrameTime := by
  simp only [drawOptimizedLandmarks]
  split <;> rfl

@[simp] theorem drawOptimizedLandmarks_isCameraInitialized (s : Translator) :
    (drawOptimizedLandmarks s).isCameraInitialized = s.isCameraInitialized := by
  simp only [drawOptimizedLandmarks]
  split <;> rfl

@[simp] theorem addToHistory_pending (s : Translator) (p : String) (c : ℚ) :
    (addToHistory s p c).pending = s.pending := by
  simp only [addToHistory]
  split <;> rfl

@[simp] theorem addToHistory_processingFrame (s : Translator) (p : String) (c : ℚ) :
    (addToHistory s p c).processingFrame = s.processingFrame := by
  simp only [addToHistory]
  split <;> rfl

@[simp] theorem handleValidPrediction_pending (s : Translator) (item : HistoryItem) :
    (handleValidPrediction s item).pending = s.pending := by
  simp only [handleValidPrediction]
  split <;> split <;> simp

@[simp] theorem handleValidPrediction_processingFrame (s : Translator) (item : HistoryItem) :
    (handleValidPrediction s item).processingFrame = s.processingFrame := by
  simp only [handleValidPrediction]
  split <;> split <;> simp

@[simp] theorem handleLowConfidencePrediction_pending (s : Translator) (r : PredictionResult) :
    (handleLowConfidencePrediction s r).pending = s.pending := by
  simp only [handleLowConfidencePrediction]
  split <;> simp

@[simp] theorem handleLowConfidencePrediction_processingFrame (s : Translator) (r : PredictionResult) :
    (handleLowConfidencePrediction s r).processingFrame = s.processingFrame := by
  simp only [handleLowConfidencePrediction]
  split <;> simp

@[simp] theorem handleNoPrediction_pending (s : Translator) :
    (handleNoPrediction s).pending = s.pending := by
  simp only [handleNoPrediction]
  split <;> simp

@[simp] theorem handleNoPrediction_processingFrame (s : Translator) :
    (handleNoPrediction s).processingFrame = s.processingFrame := by
  simp only [handleNoPrediction]
  split <;> simp

@[simp] theorem handleProcessingError_pending (s : Translator) (e : FrameError) :
    (handleProcessingError s e).pending = s.pending := by
  simp only [handleProcessingError]
  split <;> rfl

@[simp] theorem handleProcessingError_processingFrame (s : Translator) (e : FrameError) :
    (handleProcessingError s e).processingFrame = s.processingFrame := by
  simp only [handleProcessingError]
  split <;> rfl

@[simp] theorem handleProcessingError_isTranslating (s : Translator) (e : FrameError) :
    (handleProcessingError s e).isTranslating = s.isTranslating := by
  simp only [handleProcessingError]
  split <;> rfl

@[simp] theorem handleProcessingError_frameInterval (s : Translator) (e : FrameError) :
    (handleProcessingError s e).frameInterval = s.frameInterval := by
  simp only [handleProcessingError]
  split <;> rfl

@[simp] theorem handleProcessingError_lastFrameTime (s : Translator) (e : FrameError) :
    (handleProcessingError s e).lastFrameTime = s.lastFrameTime := by
  simp only [handleProcessingError]
  split <;> rfl

@[simp] theorem handleProcessingError_isCameraInitialized (s : Translator) (e : FrameError) :
    (handleProcessingError s e).isCameraInitialized = s.isCameraInitialized := by
  simp only [handleProcessingError]
  split <;> rfl

@[simp] theorem updateDisplay_pending (s : Translator) (r : PredictionResult) (b : Bool) :
    (updateDisplay s r b).pending = s.pending := rfl

@[simp] theorem updateDisplay_processingFrame (s : Translator) (r : PredictionResult) (b : Bool) :
    (updateDisplay s r b).processingFrame = s.processingFrame := rfl

@[simp] theorem updatePerformanceMetrics_pending (s : Translator) (t : ℚ) :
    (updatePerformanceMetrics s t).pending = s.pending := rfl

@[simp] theorem updatePerformanceMetrics_processingFrame (s : Translator) (t : ℚ) :
    (updatePerformanceMetrics s t).processingFrame = s.processingFrame := rfl

@[simp] theorem updateFPSCounter_pending (s : Translator) (t : ℚ) :
    (updateFPSCounter s t).pending = s.pending := rfl

@[simp] theorem updateFPSCounter_processingFrame (s : Translator) (t : ℚ) :
    (updateFPSCounter s t).processingFrame = s.processingFrame := rfl

@[simp] theorem updateFPSCounter_isTranslating (s : Translator) (t : ℚ) :
    (updateFPSCounter s t).isTranslating = s.isTranslating := rfl

@[simp] theorem updateFPSCounter_frameInterval (s : Translator) (t : ℚ) :
    (updateFPSCounter s t).frameInterval = s.frameInterval := rfl

@[simp] theorem updateFPSCounter_lastFrameTime (s : Translator) (t : ℚ) :
    (updateFPSCounter s t).lastFrameTime = s.lastFrameTime := rfl

@[simp] theorem updateFPSCounter_isCameraInitialized (s : Translator) (t : ℚ) :
    (updateFPSCounter s t).isCameraInitialized = s.isCameraInitialized := rfl

@[simp] theorem finallyBlock_pending (s : Translator) :
    (finallyBlock s).pending = s.pending := rfl

@[simp] theorem finallyBlock_isTranslating (s : Translator) :
    (finallyBlock s).isTranslating = s.isTranslating := rfl

@[simp] theorem finallyBlock_frameInterval (s : Translator) :
    (finallyBlock s).frameInterval = s.frameInterval := rfl

@[simp] theorem finallyBlock_lastFrameTime (s : Translator) :
    (finallyBlock s).lastFrameTime = s.lastFrameTime := rfl

@[simp] theorem finallyBlock_isCameraInitialized (s : Translator) :
    (finallyBlock s).isCameraInitialized = s.isCameraInitialized := rfl

@[simp] theorem stopTranslation_pending (s : Translator) :
    (stopTranslation s).pending = s.pending := by
  simp only [stopTranslation]
  split <;> split <;> simp

@[simp] theorem stopTranslation_processingFrame (s : Translator) :
    (stopTranslation s).processingFrame = s.processingFrame := by
  simp only [stopTranslation]
  split <;> split <;> simp

@[simp] theorem stopTranslation_frameInterval (s : Translator) :
    (stopTranslation s).frameInterval = s.frameInterval := by
  simp only [stopTranslation]
  split <;> split <;> simp

@[simp] theorem stopTranslation_lastFrameTime (s : Translator) :
    (stopTranslation s).lastFrameTime = s.lastFrameTime := by
  simp only [stopTranslation]
  split <;> split <;> simp

@[simp] theorem stopTranslation_isCameraInitialized (s : Translator) :
    (stopTranslation s).isCameraInitialized = s.isCameraInitialized := by
  simp only [stopTranslation]
  split <;> split <;> simp

@[simp] theorem pauseProcessing_pending (s : Translator) :
    (pauseProcessing s).pending = s.pending := by
  simp only [pauseProcessing]
  split
  · split <;> simp
  · simp

@[simp] theorem pauseProcessing_processingFrame (s : Translator) :
    (pauseProcessing s).processingFrame = s.processingFrame := by
  simp only [pauseProcessing]
  split
  · split <;> simp
  · simp

@[simp] theorem pauseProcessing_frameInterval (s : Translator) :
    (pauseProcessing s).frameInterval = s.frameInterval := by
  simp only [pauseProcessing]
  split
  · split <;> simp
  · simp

@[simp] theorem pauseProcessing_lastFrameTime (s : Translator) :
    (pauseProcessing s).lastFrameTime = s.lastFrameTime := by
  simp only [pauseProcessing]
  split
  · split <;> simp
  · simp

@[simp] theorem pauseProcessing_isCameraInitialized (s : Translator) :
    (pauseProcessing s).isCameraInitialized = s.isCameraInitialized := by
  simp only [pauseProcessing]
  split
  · split <;> simp
  · simp

@[simp] theorem dropRequest_processingFrame (s : Translator) (f : ℕ) :
    (dropRequest s f).processingFrame = s.processingFrame := rfl

@[simp] theorem dropRequest_isTranslating (s : Translator) (f : ℕ) :
    (dropRequest s f).isTranslating = s.isTranslating := rfl

@[simp] theorem dropRequest_frameInterval (s : Translator) (f : ℕ) :
    (dropRequest s f).frameInterval = s.frameInterval := rfl

@[simp] theorem dropRequest_lastFrameTime (s : Translator) (f : ℕ) :
    (dropRequest s f).lastFrameTime = s.lastFrameTime := rfl

@[simp] theorem dropRequest_isCameraInitialized (s : Translator) (f : ℕ) :
    (dropRequest s f).isCameraInitialized = s.isCameraInitialized := rfl

@[simp] theorem processSingleFrame_isTranslating (s : Translator) (env : TickEnv) :
    (processSingleFrame s env).isTranslating = s.isTranslating := by
  simp only [processSingleFrame]
  split
  · simp
  · split <;> simp

@[simp] theorem processSingleFrame_frameInterval (s : Translator) (env : TickEnv) :
    (processSingleFrame s env).frameInterval = s.frameInterval := by
  simp only [processSingleFrame]
  split
  · simp
  · split <;> simp

@[simp] theorem processSingleFrame_lastFrameTime (s : Translator) (env : TickEnv) :
    (processSingleFrame s env).lastFrameTime = s.lastFrameTime := by
  simp only [processSingleFrame]
  split
  · simp
  · split <;> simp

@[simp] theorem processSingleFrame_isCameraInitialized (s : Translator) (env : TickEnv) :
    (processSingleFrame s env).isCameraInitialized = s.isCameraInitialized := by
  simp only [processSingleFrame]
  split
  · simp
  · split <;> simp

@[simp] theorem drawKeypointsIfAvailable_pending (s : Translator) :
    (drawKeypointsIfAvailable s).pending = s.pending := by
  simp only [drawKeypointsIfAvailable]
  split <;> simp

@[simp] theorem drawKeypointsIfAvailable_processingFrame (s : Translator) :
    (drawKeypointsIfAvailable s).processingFrame = s.processingFrame := by
  simp only [drawKeypointsIfAvailable]
  split <;> simp

@[simp] theorem drawKeypointsIfAvailable_isTranslating (s : Translator) :
    (drawKeypointsIfAvailable s).isTranslating = s.isTranslating := by
  simp only [drawKeypointsIfAvailable]
  split <;> simp

@[simp] theorem drawKeypointsIfAvailable_frameInterval (s : Translator) :
    (drawKeypointsIfAvailable s).frameInterval = s.frameInterval := by
  simp only [drawKeypointsIfAvailable]
  split <;> simp

@[simp] theorem drawKeypointsIfAvailable_lastFrameTime (s : Translator) :
    (drawKeypointsIfAvailable s).lastFrameTime = s.lastFrameTime := by
  simp only [drawKeypointsIfAvailable]
  split <;> simp

@[simp] theorem drawKeypointsIfAvailable_isCameraInitialized (s : Translator) :
    (drawKeypointsIfAvailable s).isCameraInitialized = s.isCameraInitialized := by
  simp only [drawKeypointsIfAvailable]
  split <;> simp

@[simp] theorem scheduleNextFrame_pending (s : Translator) (env : TickEnv) :
    (scheduleNextFrame s env).pending = s.pending := by
  simp only [scheduleNextFrame]
  split <;> simp

@[simp] theorem scheduleNextFrame_processingFrame (s : Translator) (env : TickEnv) :
    (scheduleNextFrame s env).processingFrame = s.processingFrame := by
  simp only [scheduleNextFrame]
  split <;> simp

@[simp] theorem scheduleNextFrame_frameInterval (s : Translator) (env : TickEnv) :
    (scheduleNextFrame s env).frameInterval = s.frameInterval := by
  simp only [scheduleNextFrame]
  split <;> simp

@[simp] theorem scheduleNextFrame_lastFrameTime (s : Translator) (env : TickEnv) :
    (scheduleNextFrame s env).lastFrameTime = s.lastFrameTime := by
  simp only [scheduleNextFrame]
  split <;> simp

@[simp] theorem scheduleNextFrame_isCameraInitialized (s : Translator) (env : TickEnv) :
    (scheduleNextFrame s env).isCameraInitialized = s.isCameraInitialized := by
  simp only [scheduleNextFrame]
  split <;> simp

@[simp] theorem frameRateControl_isTranslating (s : Translator) (env : TickEnv) :
    (frameRateControl s env).isTranslating = s.isTranslating := by
  simp only [frameRateControl]
  split
  · split <;> simp
  · simp

@[simp] theorem frameRateControl_frameInterval (s : Translator) (env : TickEnv) :
    (frameRateControl s env).frameInterval = s.frameInterval := by
  simp only [frameRateControl]
  split
  · split <;> simp
  · simp

@[simp] theorem frameRateControl_isCameraInitialized (s : Translator) (env : TickEnv) :
    (frameRateControl s env).isCameraInitialized = s.isCameraInitialized := by
  simp only [frameRateControl]
  split
  · split <;> simp
  · simp

/-! ## One request in flight -/

theorem SingleFlight.congr {s t : Translator} (hs : SingleFlight s)
    (hp : t.pending = s.pending) (hf : t.processingFrame = s.processingFrame) :
    SingleFlight t := by
  unfold SingleFlight at *
  rw [hp, hf]
  exact hs

theorem SingleFlight.idle {s : Translator} (hs : SingleFlight s)
    (hf : s.processingFrame = false) : s.pending = [] := by
  by_contra hne
  have := hs.2.mpr hne
  rw [hf] at this
  exact absurd this (by simp)

theorem singleFlight_of_idle {s : Translator} (hp : s.pending = [])
    (hf : s.processingFrame = false) : SingleFlight s := by
  unfold SingleFlight
  simp [hp, hf]

/-- The two outcomes of `processSingleFrame`: nothing changes for the requests,
or `processingFrame` was false and exactly one request is added. -/
theorem processSingleFrame_cases (s : Translator) (env : TickEnv) :
    ((processSingleFrame s env).pending = s.pending ∧
      (processSingleFrame s env).processingFrame = s.processingFrame) ∨
    (s.processingFrame = false ∧ (processSingleFrame s env).processingFrame = true ∧
      ∃ r, (processSingleFrame s env).pending = s.pending ++ [r]) := by
  simp only [processSingleFrame]
  split
  · exact Or.inl ⟨rfl, rfl⟩
  · rename_i hguard
    have hpf : s.processingFrame = false := by
      cases h : s.processingFrame
      · rfl
      · simp [h] at hguard
    split
    · left
      simp [finallyBlock, hpf]
    · right
      exact ⟨hpf, rfl, _, rfl⟩

theorem processSingleFrame_singleFlight (s : Translator) (env : TickEnv)
    (h : SingleFlight s) : SingleFlight (processSingleFrame s env) := by
  rcases processSingleFrame_cases s env with ⟨hp, hf⟩ | ⟨hpf, hnew, r, hr⟩
  · exact h.congr hp hf
  · unfold SingleFlight
    rw [hr, hnew, h.idle hpf]
    simp

theorem frameRateControl_singleFlight (s : Translator) (env : TickEnv)
    (h : SingleFlight s) : SingleFlight (frameRateControl s env) := by
  simp only [frameRateControl]
  split
  · split
    · have h1 : SingleFlight
          { s with lastFrameTime := env.now - jsRem (env.now - s.lastFrameTime) s.frameInterval } :=
        h.congr rfl rfl
      exact (processSingleFrame_singleFlight _ env h1).congr
        (updateFPSCounter_pending _ _) (updateFPSCounter_processingFrame _ _)
    · exact h.congr (updateFPSCounter_pending _ _) (updateFPSCounter_processingFrame _ _)
  · exact h

theorem processFramesOptimized_singleFlight (s : Translator) (env : TickEnv)
    (h : SingleFlight s) : SingleFlight (processFramesOptimized s env) := by
  simp only [processFramesOptimized]
  split
  · exact h
  · exact (frameRateControl_singleFlight s env h).congr (by simp) (by simp)

theorem processPredictionResult_requests (s t : Translator) (body : ParsedBody)
    (h : processPredictionResult s body = .ok t) :
    t.pending = s.pending ∧ t.processingFrame = s.processingFrame := by
  simp only [processPredictionResult] at h
  split at h
  · exact absurd h (by simp)
  · cases h; simp
  · split at h
    · cases h; simp
    · split at h <;> (cases h; simp [updateHandState])

theorem findRequest_mem (s : Translator) (f : ℕ) (r : Request)
    (h : findRequest s f = some r) : r ∈ s.pending ∧ r.frameId = f := by
  unfold findRequest at h
  have h1 := List.mem_of_find?_eq_some h
  have h2 := List.find?_some h
  exact ⟨h1, by simpa using h2⟩

theorem pending_eq_singleton {s : Translator} (hs : SingleFlight s) {r : Request}
    (hr : r ∈ s.pending) : s.pending = [r] := by
  have hlen := hs.1
  match hp : s.pending with
  | [] => rw [hp] at hr; simp at hr
  | [a] => rw [hp] at hr; simp at hr; rw [hr]
  | a :: b :: rest => rw [hp] at hlen; simp at hlen

theorem dropRequest_pending_nil {s : Translator} (hs : SingleFlight s) {r : Request}
    (hr : r ∈ s.pending) : (dropRequest s r.frameId).pending = [] := by
  simp [dropRequest, pending_eq_singleton hs hr]

theorem settled_singleFlight {t : Translator} (hp : t.pending = []) :
    SingleFlight (finallyBlock t) := by
  apply singleFlight_of_idle
  · simp [hp]
  · rfl

theorem step_singleFlight (s : Translator) (e : Event) (h : SingleFlight s) :
    SingleFlight (step s e) := by
  cases e with
  | animationFrame env =>
    simp only [step]
    split
    · exact h
    · exact processFramesOptimized_singleFlight _ env (h.congr rfl rfl)
  | fetchResolved f ok =>
    simp only [step]
    split
    · rename_i r hr
      split
      · exact h
      · have hmem := (findRequest_mem s f r hr).1
        simp only [onFetchResolved]
        split
        · apply settled_singleFlight
          simp
          exact dropRequest_pending_nil (h.congr rfl rfl) hmem
        · unfold SingleFlight at *
          simp only [List.length_map]
          refine ⟨h.1, ?_⟩
          rw [h.2]
          simp
    · exact h
  | bodyParsed f body now =>
    simp only [step]
    split
    · rename_i r hr
      split
      · have hmem := (findRequest_mem s f r hr).1
        simp only [onBodyParsed]
        split
        · rename_i s2 hs2
          apply settled_singleFlight
          have := (processPredictionResult_requests _ _ _ hs2).1
          simp [this]
          exact dropRequest_pending_nil h hmem
        · apply settled_singleFlight
          simp
          exact dropRequest_pending_nil h hmem
      · exact h
    · exact h
  | requestFailed f error =>
    simp only [step]
    split
    · rename_i r hr
      have hmem := (findRequest_mem s f r hr).1
      simp only [onRequestFailed]
      apply settled_singleFlight
      simp
      exact dropRequest_pending_nil h hmem
    · exact h
  | timeoutFired t =>
    simp only [step]
    split
    · simp only [timeoutCallback]
      split
      · rename_i s2 hs2
        split at hs2
        · cases hs2
          exact h.congr rfl rfl
        · exact absurd hs2 (by simp)
      · exact h.congr rfl rfl
    · exact h
  | start env =>
    simp only [step, startTranslation]
    split
    · exact h.congr rfl rfl
    · exact processFramesOptimized_singleFlight _ env (h.congr rfl rfl)
  | stop => exact h.congr (by simp [step]) (by simp [step])
  | pause => exact h.congr (by simp [step]) (by simp [step])
  | resume env =>
    simp only [step, resumeProcessing]
    split
    · exact processFramesOptimized_singleFlight _ env (h.congr rfl rfl)
    · exact h

theorem run_singleFlight (events : List Event) :
    ∀ s : Translator, SingleFlight s → SingleFlight (run s events) := by
  induction events with
  | nil => intro s h; exact h
  | cons e rest ih =>
    intro s h
    exact ih (step s e) (step_singleFlight s e h)

theorem frameRateControl_requests (s : Translator) (env : TickEnv) :
    ((frameRateControl s env).pending = s.pending ∧
      (frameRateControl s env).processingFrame = s.processingFrame) ∨
    (s.processingFrame = false ∧ (frameRateControl s env).processingFrame = true) := by
  simp only [frameRateControl]
  split
  · split
    · rcases processSingleFrame_cases
          { s with lastFrameTime := env.now - jsRem (env.now - s.lastFrameTime) s.frameInterval }
          env with ⟨hp, hf⟩ | ⟨hpf, hnew, _⟩
      · left
        rw [updateFPSCounter_pending, updateFPSCounter_processingFrame, hp, hf]
        exact ⟨rfl, rfl⟩
      · right
        rw [updateFPSCounter_processingFrame, hnew]
        exact ⟨hpf, rfl⟩
    · left
      exact ⟨rfl, rfl⟩
  · exact Or.inl ⟨rfl, rfl⟩

theorem processFramesOptimized_keeps_busy (s : Translator) (env : TickEnv)
    (h : s.processingFrame = true) : (processFramesOptimized s env).processingFrame = true := by
  simp only [processFramesOptimized]
  split
  · exact h
  · rw [scheduleNextFrame_processingFrame, drawKeypointsIfAvailable_processingFrame]
    rcases frameRateControl_requests s env with ⟨_, hf⟩ | ⟨hpf, _⟩
    · rw [hf, h]
    · rw [h] at hpf
      exact absurd hpf (by simp)

/-- While a request is outstanding, only the end of that request clears
`processingFrame`. -/
theorem step_clears_processingFrame (s : Translator) (e : Event) (hs : SingleFlight s)
    (hpf : s.processingFrame = true) (hclr : (step s e).processingFrame = false) :
    ∃ r, s.pending = [r] ∧ settles e r.frameId ∧ (step s e).pending = [] := by
  have hcontra : ∀ t : Translator, t.processingFrame = true → (step s e) = t →
      ∃ r, s.pending = [r] ∧ settles e r.frameId ∧ (step s e).pending = [] := by
    intro t ht heq
    rw [heq, ht] at hclr
    exact absurd hclr (by simp)
  cases e with
  | animationFrame env =>
    apply hcontra _ _ rfl
    simp only [step]
    split
    · exact hpf
    · exact processFramesOptimized_keeps_busy _ env hpf
  | fetchResolved f ok =>
    simp only [step] at hclr ⊢
    split at hclr
    · rename_i r hr
      obtain ⟨hmem, hid⟩ := findRequest_mem s f r hr
      split at hclr
      · rw [hpf] at hclr; exact absurd hclr (by simp)
      · rename_i hbody
        simp only [hbody]
        cases ok with
        | false =>
          refine ⟨r, pending_eq_singleton hs hmem, ⟨hid.symm, rfl⟩, ?_⟩
          simp [onFetchResolved, finallyBlock]
          exact dropRequest_pending_nil (s := { s with timers := _ }) (hs.congr rfl rfl) hmem
        | true =>
          simp [onFetchResolved, hpf] at hclr
    · rw [hpf] at hclr; exact absurd hclr (by simp)
  | bodyParsed f body now =>
    simp only [step] at hclr ⊢
    split at hclr
    · rename_i r hr
      obtain ⟨hmem, hid⟩ := findRequest_mem s f r hr
      split at hclr
      · rename_i hbody
        simp only [hbody]
        refine ⟨r, pending_eq_singleton hs hmem, hid.symm, ?_⟩
        simp only [onBodyParsed, if_true]
        split
        · rename_i s2 hs2
          have := (processPredictionResult_requests _ _ _ hs2).1
          simp [finallyBlock, this]
          exact dropRequest_pending_nil hs hmem
        · simp [finallyBlock]
          exact dropRequest_pending_nil hs hmem
      · rw [hpf] at hclr; exact absurd hclr (by simp)
    · rw [hpf] at hclr; exact absurd hclr (by simp)
  | requestFailed f error =>
    simp only [step] at hclr ⊢
    split at hclr
    · rename_i r hr
      obtain ⟨hmem, hid⟩ := findRequest_mem s f r hr
      refine ⟨r, pending_eq_singleton hs hmem, hid.symm, ?_⟩
      simp [onRequestFailed, finallyBlock]
      exact dropRequest_pending_nil hs hmem
    · rw [hpf] at hclr; exact absurd hclr (by simp)
  | timeoutFired t =>
    apply hcontra _ _ rfl
    simp only [step]
    split
    · simp only [timeoutCallback]
      split
      · rename_i s2 hs2
        split at hs2
        · cases hs2; exact hpf
        · exact absurd hs2 (by simp)
      · exact hpf
    · exact hpf
  | start env =>
    apply hcontra _ _ rfl
    simp only [step, startTranslation]
    split
    · exact hpf
    · exact processFramesOptimized_keeps_busy _ env hpf
  | stop => exact hcontra _ (by simpa [step] using hpf) rfl
  | pause => exact hcontra _ (by simpa [step] using hpf) rfl
  | resume env =>
    apply hcontra _ _ rfl
    simp only [step, resumeProcessing]
    split
    · exact processFramesOptimized_keeps_busy _ env hpf
    · exact hpf

/-- C12: in every state reached from a state with no request in flight through
ticks, request progress, timers, start, stop, pause and resume, at most one
frame request is outstanding and `processingFrame` is set exactly while one
is; `processSingleFrame` sends a request only when `processingFrame` is false
(and then no request is outstanding); and an event that clears
`processingFrame` is the end (parsed body, rejection, or a response that is not
ok) of the one outstanding request. -/
theorem C12_at_most_one_request_in_flight (s0 : Translator)
    (h0 : s0.pending = [] ∧ s0.processingFrame = false) (events : List Event) :
    (run s0 events).pending.length ≤ 1 ∧
    ((run s0 events).processingFrame = true ↔ (run s0 events).pending ≠ []) ∧
    (∀ env, (processSingleFrame (run s0 events) env).pending ≠ (run s0 events).pending →
      (run s0 events).processingFrame = false ∧ (run s0 events).pending = []) ∧
    (∀ e, (run s0 events).processingFrame = true →
      (step (run s0 events) e).processingFrame = false →
      ∃ r, (run s0 events).pending = [r] ∧ settles e r.frameId ∧
        (step (run s0 events) e).pending = []) := by
  have hs : SingleFlight (run s0 events) :=
    run_singleFlight events s0 (singleFlight_of_idle h0.1 h0.2)
  refine ⟨hs.1, hs.2, ?_, ?_⟩
  · intro env hne
    rcases processSingleFrame_cases (run s0 events) env with ⟨hp, _⟩ | ⟨hpf, _, _⟩
    · exact absurd hp hne
    · exact ⟨hpf, hs.idle hpf⟩
  · intro e hpf hclr
    exact step_clears_processingFrame _ e hs hpf hclr

/-- C12 (witness): from the camera-ready state, after start, a tick, the
response headers and a second tick, one request is outstanding. -/
theorem C12_at_most_one_request_witness :
    (cameraReady.pending = [] ∧ cameraReady.processingFrame = false) ∧
    (run cameraReady
      [.start (tickAt 50), .animationFrame (tickAt 90), .fetchResolved 0 true,
       .animationFrame (tickAt 130)]).pending.length ≤ 1 :=
  ⟨⟨rfl, rfl⟩,
    (C12_at_most_one_request_in_flight cameraReady ⟨rfl, rfl⟩
      [.start (tickAt 50), .animationFrame (tickAt 90), .fetchResolved 0 true,
       .animationFrame (tickAt 130)]).1⟩

/-! ## Stop -/

/-- The state `stopTranslation` leaves, field by field. -/
theorem stopTranslation_eq (s : Translator) :
    stopTranslation s =
      { s with
        isTranslating := false
        animationFrameId := none
        rafQueue := match s.animationFrameId with
          | some id => s.rafQueue.filter (fun h => h ≠ id)
          | none => s.rafQueue
        currentFrameController := none
        aborted := match s.currentFrameController with
          | some controller => s.aborted ++ [controller]
          | none => s.aborted
        frameDrawn := if s.ctxReady then false else s.frameDrawn
        keypointsDrawn := if s.keypointCtxReady then false else s.keypointsDrawn
        currentLandmarks := []
        handDetected := false } := by
  cases hA : s.animationFrameId <;> cases hC : s.currentFrameController <;>
    cases hX : s.ctxReady <;> cases hK : s.keypointCtxReady <;>
    simp [stopTranslation, clearCanvases, clearKeypoints, hA, hC, hX, hK]

/-- C13: from every state, `stopTranslation` leaves the loop stopped:
`isTranslating` is false, `animationFrameId` is null and the handle it held is
no longer scheduled (so no tick is scheduled when that was the only one),
`currentFrameController` is null and the controller it held has been aborted,
`currentLandmarks` is empty and `handDetected` is false (and the keypoint
canvas is cleared when it exists). -/
theorem C13_stopTranslation_leaves_loop_stopped (s : Translator) :
    (stopTranslation s).isTranslating = false ∧
    (stopTranslation s).animationFrameId = none ∧
    (∀ id, s.animationFrameId = some id → id ∉ (stopTranslation s).rafQueue) ∧
    (∀ id, s.animationFrameId = some id → s.rafQueue = [id] →
      (stopTranslation s).rafQueue = []) ∧
    (stopTranslation s).currentFrameController = none ∧
    (∀ c, s.currentFrameController = some c → c ∈ (stopTranslation s).aborted) ∧
    (stopTranslation s).currentLandmarks = [] ∧
    (stopTranslation s).handDetected = false ∧
    (s.keypointCtxReady = true → (stopTranslation s).keypointsDrawn = false) := by
  rw [stopTranslation_eq]
  refine ⟨rfl, rfl, ?_, ?_, rfl, ?_, rfl, rfl, ?_⟩
  · intro id hid
    simp [hid]
  · intro id hid hq
    simp [hid, hq]
  · intro c hc
    simp [hc]
  · intro hk
    simp [hk]

/-- C14: `stopTranslation` is idempotent: from every state, calling it twice in
a row yields exactly the state that calling it once yields. The method is a
total function of the state: each of its statements is guarded, none raises. -/
theorem C14_stopTranslation_idempotent (s : Translator) :
    stopTranslation (stopTranslation s) = stopTranslation s := by
  rw [stopTranslation_eq (stopTranslation s), stopTranslation_eq s]
  cases hX : s.ctxReady <;> cases hK : s.keypointCtxReady <;> simp [hX, hK]

/-! ## Pause and resume -/

/-- The state `pauseProcessing` leaves, field by field. -/
theorem pauseProcessing_eq (s : Translator) :
    pauseProcessing s =
      if s.isTranslating then
        { s with
          isTranslating := false
          animationFrameId := none
          rafQueue := match s.animationFrameId with
            | some id => s.rafQueue.filter (fun h => h ≠ id)
            | none => s.rafQueue }
      else s := by
  cases hT : s.isTranslating <;> cases hA : s.animationFrameId <;>
    simp [pauseProcessing, hT, hA]

theorem pauseProcessing_isTranslating (s : Translator) :
    (pauseProcessing s).isTranslating = false := by
  rw [pauseProcessing_eq]
  cases hT : s.isTranslating <;> simp [hT]

theorem addToHistory_predictionHistory (s : Translator) (p : String) (c : ℚ) :
    (addToHistory s p c).predictionHistory = s.predictionHistory := by
  simp only [addToHistory]
  split <;> rfl

/-- The window that `handleValidPrediction` leaves: the sample appended, the
oldest element removed when the length exceeds `smoothingFrames`. -/
theorem handleValidPrediction_predictionHistory (s : Translator) (item : HistoryItem) :
    (handleValidPrediction s item).predictionHistory =
      if s.smoothingFrames < (s.predictionHistory ++ [item]).length then
        (s.predictionHistory ++ [item]).tail
      else s.predictionHistory ++ [item] := by
  simp only [handleValidPrediction]
  split
  · split
    · rw [addToHistory_predictionHistory]
    · rfl
  · rfl

/-- A response with a candidate-valid sample that arrives for a request in its
body phase pushes the sample into the window, whatever `isTranslating` is. -/
theorem onBodyParsed_valid_predictionHistory (s : Translator) (r : Request)
    (result : PredictionResult) (item : HistoryItem) (now : ℚ)
    (hsucc : result.success = some true) (hvalid : validSample s result = some item) :
    (onBodyParsed s r (.object result) now).predictionHistory =
      if s.smoothingFrames < (s.predictionHistory ++ [item]).length then
        (s.predictionHistory ++ [item]).tail
      else s.predictionHistory ++ [item] := by
  have hv : ∀ t : Translator, t.confidenceThreshold = s.confidenceThreshold →
      validSample t result = some item := by
    intro t ht
    simp only [validSample] at hvalid ⊢
    rw [ht]
    exact hvalid
  simp only [onBodyParsed, processPredictionResult, hsucc, ne_eq, not_true_eq_false, if_false]
  rw [hv]
  · simp only [finallyBlock, updatePerformanceMetrics, updateDisplay]
    rw [handleValidPrediction_predictionHistory]
    rfl
  · rfl

/-- C15 (as amended): `pauseProcessing` does not cancel the outstanding frame
request. For every state it leaves `currentFrameController`, the aborted
controllers, the outstanding requests, `processingFrame` and the armed timers
as they were, so a request that was waiting for its body still is; and when
that body then arrives with a candidate-valid sample, the sample is pushed
into `predictionHistory` although the loop is paused. -/
theorem C15_pause_leaves_request_outstanding (s : Translator) :
    (pauseProcessing s).currentFrameController = s.currentFrameController ∧
    (pauseProcessing s).aborted = s.aborted ∧
    (pauseProcessing s).pending = s.pending ∧
    (pauseProcessing s).processingFrame = s.processingFrame ∧
    (pauseProcessing s).timers = s.timers ∧
    (pauseProcessing s).isTranslating = false ∧
    (∀ (f : ℕ) (r : Request) (result : PredictionResult) (item : HistoryItem) (now : ℚ),
      findRequest s f = some r → r.awaitingBody = true →
      result.success = some true → validSample s result = some item →
      (step (pauseProcessing s) (.bodyParsed f (.object result) now)).predictionHistory =
        if s.smoothingFrames < (s.predictionHistory ++ [item]).length then
          (s.predictionHistory ++ [item]).tail
        else s.predictionHistory ++ [item]) := by
  have hfields : (pauseProcessing s).currentFrameController = s.currentFrameController ∧
      (pauseProcessing s).aborted = s.aborted ∧
      (pauseProcessing s).timers = s.timers ∧
      (pauseProcessing s).predictionHistory = s.predictionHistory ∧
      (pauseProcessing s).smoothingFrames = s.smoothingFrames ∧
      (pauseProcessing s).confidenceThreshold = s.confidenceThreshold := by
    rw [pauseProcessing_eq]
    split <;> exact ⟨rfl, rfl, rfl, rfl, rfl, rfl⟩
  refine ⟨hfields.1, hfields.2.1, pauseProcessing_pending s, pauseProcessing_processingFrame s,
    hfields.2.2.1, pauseProcessing_isTranslating s, ?_⟩
  intro f r result item now hfind hbody hsucc hvalid
  have hfind2 : findRequest (pauseProcessing s) f = some r := by
    unfold findRequest at hfind ⊢
    rw [pauseProcessing_pending]
    exact hfind
  have hvalid2 : validSample (pauseProcessing s) result = some item := by
    simp only [validSample] at hvalid ⊢
    rw [hfields.2.2.2.2.2]
    exact hvalid
  simp only [step, hfind2, hbody, if_true]
  rw [onBodyParsed_valid_predictionHistory _ r result item now hsucc hvalid2,
    hfields.2.2.2.1, hfields.2.2.2.2.1]

/-- C15 (counterexample): a request is sent at the first tick and its response
headers arrive; `pauseProcessing` then leaves `currentFrameController` set to
that request's controller and aborts nothing, and when the body arrives during
the pause its sample enters `predictionHistory`. -/
theorem C15_counterexample_pause_does_not_abort :
    (run cameraReady [.start (tickAt 50), .fetchResolved 0 true]).pending =
      [{ frameId := 0, controller := 1, timeoutId := 2, startTime := 50,
         awaitingBody := true }] ∧
    (pauseProcessing
      (run cameraReady [.start (tickAt 50), .fetchResolved 0 true])).currentFrameController
      = some 1 ∧
    (pauseProcessing (run cameraReady [.start (tickAt 50), .fetchResolved 0 true])).aborted
      = [] ∧
    (run cameraReady [.start (tickAt 50), .fetchResolved 0 true, .pause]).isTranslating
      = false ∧
    (run cameraReady
      [.start (tickAt 50), .fetchResolved 0 true, .pause,
       .bodyParsed 0 (.object (responseFor "A" (9 / 10))) 80]).predictionHistory
      = [{ prediction := "A", confidence := 9 / 10 }] := by
  have h1 : run cameraReady [.start (tickAt 50), .fetchResolved 0 true] =
      { cameraReady with
        isTranslating := true
        lastFrameTime := 100 / 3
        processingFrame := true
        animationFrameId := some 3
        currentFrameController := some 1
        frameCount := 1
        fps := 20
        rafQueue := [3]
        nextHandle := 4
        timers := []
        pending := [{ frameId := 0, controller := 1, timeoutId := 2, startTime := 50,
                      awaitingBody := true }]
        frameDrawn := true } := by
    simp [run, step, startTranslation, cameraReady, constructed, tickAt, processFramesOptimized,
      frameRateControl, scheduleNextFrame, drawKeypointsIfAvailable, processSingleFrame,
      isSystemReady, updateFPSCounter, findRequest, onFetchResolved, jsRem, jsRound]
    norm_num
  have h3 : run cameraReady [.start (tickAt 50), .fetchResolved 0 true, .pause] =
      pauseProcessing (run cameraReady [.start (tickAt 50), .fetchResolved 0 true]) := rfl
  have h4 : run cameraReady
      [.start (tickAt 50), .fetchResolved 0 true, .pause,
       .bodyParsed 0 (.object (responseFor "A" (9 / 10))) 80] =
      step (pauseProcessing (run cameraReady [.start (tickAt 50), .fetchResolved 0 true]))
        (.bodyParsed 0 (.object (responseFor "A" (9 / 10))) 80) := rfl
  rw [h3, h4, h1]
  refine ⟨rfl, ?_, ?_, ?_, ?_⟩
  · simp [pauseProcessing]
  · simp [pauseProcessing, cameraReady, constructed]
  · simp [pauseProcessing]
  · simp [pauseProcessing, step, findRequest, onBodyParsed, dropRequest, processPredictionResult,
      updateHandState, responseFor, validSample, cameraReady, constructed, handleValidPrediction,
      applyTemporalSmoothing, updateDisplay, updatePerformanceMetrics, finallyBlock]
    norm_num

theorem scheduleNextFrame_isTranslating (s : Translator) (env : TickEnv)
    (h : env.scheduleThrows = false) :
    (scheduleNextFrame s env).isTranslating = s.isTranslating := by
  simp [scheduleNextFrame, h]

theorem processFramesOptimized_isTranslating (s : Translator) (env : TickEnv)
    (h : env.scheduleThrows = false) :
    (processFramesOptimized s env).isTranslating = s.isTranslating := by
  simp only [processFramesOptimized]
  split
  · rfl
  · rw [scheduleNextFrame_isTranslating _ _ h, drawKeypointsIfAvailable_isTranslating,
      frameRateControl_isTranslating]

/-- C16 (as amended): when scheduling the next animation frame does not raise,
`pauseProcessing` followed by `resumeProcessing` leaves a loop that was
translating with the camera initialized translating again, and leaves every
loop whose camera is not initialized not translating. -/
theorem C16_pause_resume_translating_loop (s : Translator) (env : TickEnv)
    (hsched : env.scheduleThrows = false) :
    (s.isTranslating = true → s.isCameraInitialized = true →
      (resumeProcessing (pauseProcessing s) env).isTranslating = true) ∧
    (s.isCameraInitialized = false →
      (resumeProcessing (pauseProcessing s) env).isTranslating = false) := by
  have hp := pauseProcessing_isTranslating s
  have hc := pauseProcessing_isCameraInitialized s
  constructor
  · intro _ hcam
    simp only [resumeProcessing, hp, hc, hcam, Bool.not_false, Bool.and_self, if_true]
    rw [processFramesOptimized_isTranslating _ _ hsched]
  · intro hcam
    simp only [resumeProcessing, hp, hc, hcam, Bool.not_false, Bool.and_false]
    exact hp

/-- C16 (witness): the loop is translating with the camera ready; after pause
and resume it is translating. -/
theorem C16_pause_resume_witness :
    (tickAt 50).scheduleThrows = false ∧
    (resumeProcessing (pauseProcessing translating)
      (tickAt 50)).isTranslating = true :=
  ⟨rfl, (C16_pause_resume_translating_loop translating
    (tickAt 50) rfl).1 rfl rfl⟩

/-- C16 (counterexample): a translating loop whose camera is not initialized is
not translating after pause and resume; and a loop that was never started, with
the camera ready, is translating after pause and resume. -/
theorem C16_counterexample_isTranslating_not_restored :
    ({ constructed with isTranslating := true } : Translator).isTranslating = true ∧
    (resumeProcessing (pauseProcessing { constructed with isTranslating := true })
      (tickAt 50)).isTranslating = false ∧
    cameraReady.isTranslating = false ∧
    (resumeProcessing (pauseProcessing cameraReady) (tickAt 50)).isTranslating = true := by
  refine ⟨rfl, ?_, rfl, ?_⟩
  · simp [resumeProcessing, pauseProcessing, constructed]
  · rw [show pauseProcessing cameraReady = cameraReady from rfl]
    simp only [resumeProcessing]
    rw [if_pos (by rfl), processFramesOptimized_isTranslating _ _ rfl]

/-! ## Pacing -/

theorem jsRem_bounds (a b : ℚ) (ha : 0 ≤ a) (hb : 0 < b) :
    0 ≤ jsRem a b ∧ jsRem a b < b := by
  have hq : 0 ≤ a / b := div_nonneg ha (le_of_lt hb)
  have h1 : ((⌊a / b⌋ : ℤ) : ℚ) ≤ a / b := Int.floor_le _
  have h2 : a / b < ((⌊a / b⌋ : ℤ) : ℚ) + 1 := Int.lt_floor_add_one _
  have h3 : ((⌊a / b⌋ : ℤ) : ℚ) * b ≤ a := (le_div_iff₀ hb).mp h1
  have h4 : a < (((⌊a / b⌋ : ℤ) : ℚ) + 1) * b := (div_lt_iff₀ hb).mp h2
  simp only [jsRem, hq, if_true]
  constructor <;> nlinarith

theorem frameRateControl_lastFrameTime (s : Translator) (env : TickEnv) :
    (frameRateControl s env).lastFrameTime =
      if s.frameInterval < env.now - s.lastFrameTime then
        env.now - jsRem (env.now - s.lastFrameTime) s.frameInterval
      else s.lastFrameTime := by
  simp only [frameRateControl]
  split
  · split
    · rw [updateFPSCounter_lastFrameTime, processSingleFrame_lastFrameTime]
    · rfl
  · rfl

/-- What a run of `processFramesOptimized` does to the pacing fields. -/
theorem processFramesOptimized_pacing (s : Translator) (env : TickEnv) :
    (processFramesOptimized s env).frameInterval = s.frameInterval ∧
    (accepted s env.now → (processFramesOptimized s env).lastFrameTime =
      env.now - jsRem (env.now - s.lastFrameTime) s.frameInterval) ∧
    (¬ accepted s env.now → (processFramesOptimized s env).lastFrameTime = s.lastFrameTime) := by
  simp only [processFramesOptimized, accepted]
  split
  · rename_i hT
    refine ⟨rfl, ?_, fun _ => rfl⟩
    intro h
    rw [h.1] at hT
    exact absurd hT (by simp)
  · rename_i hT
    have hT2 : s.isTranslating = true := by
      cases h : s.isTranslating
      · simp [h] at hT
      · rfl
    rw [scheduleNextFrame_frameInterval, drawKeypointsIfAvailable_frameInterval,
      frameRateControl_frameInterval, scheduleNextFrame_lastFrameTime,
      drawKeypointsIfAvailable_lastFrameTime, frameRateControl_lastFrameTime]
    refine ⟨rfl, ?_, ?_⟩
    · intro h
      rw [if_pos h.2]
    · intro h
      rw [if_neg (fun hlt => h ⟨hT2, hlt⟩)]

theorem runTicks_allRejected (ticks : List TickEnv) :
    ∀ s : Translator, allRejected s ticks →
      (runTicks s ticks).frameInterval = s.frameInterval ∧
      (runTicks s ticks).lastFrameTime = s.lastFrameTime := by
  induction ticks with
  | nil => intro s _; exact ⟨rfl, rfl⟩
  | cons env rest ih =>
    intro s h
    have hstep := processFramesOptimized_pacing s env
    have hrest := ih (processFramesOptimized s env) h.2
    simp only [runTicks, List.foldl_cons] at hrest ⊢
    rw [hrest.1, hrest.2, hstep.1, hstep.2.2 h.1]
    exact ⟨rfl, rfl⟩

/-- C17 (as amended): with a positive `frameInterval`, when a tick at time `t1`
is accepted, the ticks after it are rejected, and then a tick at time `t2` is
accepted, the elapsed time is measured from the value `lastFrameTime` got at
`t1`, which is `t1` moved back by the remainder
`r = (t1 - lastFrameTime) % frameInterval` with `0 ≤ r < frameInterval`:
`t2 - (t1 - r) > frameInterval`. Hence `t2 - t1 > frameInterval - r`, which is
positive. -/
theorem C17_pacing_measured_from_aligned_time (s : Translator) (e1 : TickEnv)
    (mid : List TickEnv) (e2 : TickEnv) (hfi : 0 < s.frameInterval)
    (h1 : accepted s e1.now)
    (hmid : allRejected (processFramesOptimized s e1) mid)
    (h2 : accepted (runTicks (processFramesOptimized s e1) mid) e2.now) :
    (processFramesOptimized s e1).lastFrameTime =
      e1.now - jsRem (e1.now - s.lastFrameTime) s.frameInterval ∧
    0 ≤ jsRem (e1.now - s.lastFrameTime) s.frameInterval ∧
    jsRem (e1.now - s.lastFrameTime) s.frameInterval < s.frameInterval ∧
    s.frameInterval <
      e2.now - (e1.now - jsRem (e1.now - s.lastFrameTime) s.frameInterval) ∧
    s.frameInterval - jsRem (e1.now - s.lastFrameTime) s.frameInterval < e2.now - e1.now ∧
    e1.now < e2.now := by
  have hstep := processFramesOptimized_pacing s e1
  have hrun := runTicks_allRejected mid _ hmid
  have hel : 0 ≤ e1.now - s.lastFrameTime := le_of_lt (lt_trans hfi h1.2)
  have hrem := jsRem_bounds _ _ hel hfi
  have hacc := h2.2
  rw [hrun.1, hrun.2, hstep.1, hstep.2.1 h1] at hacc
  refine ⟨hstep.2.1 h1, hrem.1, hrem.2, hacc, ?_, ?_⟩
  · linarith
  · linarith [hrem.2]

/-- C17 (witness): from time 0 with `frameInterval = 1000 / 30`, the ticks at
50 and 90 are accepted and the tick at 60 between them is rejected. -/
theorem C17_pacing_witness :
    (0 : ℚ) < translating.frameInterval ∧
    translating.frameInterval -
        jsRem ((tickAt 50).now - translating.lastFrameTime) translating.frameInterval
      < (tickAt 90).now - (tickAt 50).now := by
  have hL : (processFramesOptimized translating
      (tickAt 50)).lastFrameTime = 100 / 3 := by
    rw [(processFramesOptimized_pacing _ _).2.1 (by
      simp [accepted, translating, cameraReady, constructed, tickAt]; norm_num)]
    simp [translating, cameraReady, constructed, tickAt, jsRem]
    norm_num
  have hF : ∀ env, (processFramesOptimized translating
      env).frameInterval = 1000 / 30 := by
    intro env
    rw [(processFramesOptimized_pacing _ _).1]
    rfl
  have h := C17_pacing_measured_from_aligned_time translating
    (tickAt 50) [tickAt 60] (tickAt 90)
    (by simp [translating, cameraReady, constructed])
    (by simp [accepted, translating, cameraReady, constructed, tickAt]; norm_num)
    (by
      refine ⟨?_, trivial⟩
      intro hacc
      have := hacc.2
      rw [hL, hF] at this
      simp [tickAt] at this
      norm_num at this)
    (by
      have hrun := runTicks_allRejected [tickAt 60]
        (processFramesOptimized translating (tickAt 50))
        (by
          refine ⟨?_, trivial⟩
          intro hacc
          have := hacc.2
          rw [hL, hF] at this
          simp [tickAt] at this
          norm_num at this)
      refine ⟨?_, ?_⟩
      · simp only [runTicks, List.foldl_cons, List.foldl_nil]
        rw [processFramesOptimized_isTranslating _ _ rfl,
          processFramesOptimized_isTranslating _ _ rfl]
        rfl
      · rw [hrun.1, hrun.2, hL, hF]
        simp [tickAt]
        norm_num)
  exact ⟨by simp [translating, cameraReady, constructed], h.2.2.2.2.1⟩

/-- C17 (counterexample): with `frameInterval = 1000 / 30` and `lastFrameTime`
0, the ticks at 50 and 67 are both accepted, one right after the other, and
`67 - 50` is not greater than `frameInterval`. -/
theorem C17_counterexample_consecutive_accepted_ticks_closer :
    accepted translating (tickAt 50).now ∧
    accepted (processFramesOptimized translating (tickAt 50))
      (tickAt 67).now ∧
    (tickAt 50).now ≤ (tickAt 67).now ∧
    ¬ (translating.frameInterval
        < (tickAt 67).now - (tickAt 50).now) := by
  have hacc : accepted translating (tickAt 50).now := by
    simp [accepted, translating, cameraReady, constructed, tickAt]; norm_num
  have hL : (processFramesOptimized translating
      (tickAt 50)).lastFrameTime = 100 / 3 := by
    rw [(processFramesOptimized_pacing _ _).2.1 hacc]
    simp [translating, cameraReady, constructed, tickAt, jsRem]
    norm_num
  refine ⟨hacc, ⟨?_, ?_⟩, ?_, ?_⟩
  · rw [processFramesOptimized_isTranslating _ _ rfl]
    rfl
  · rw [hL, (processFramesOptimized_pacing _ _).1]
    simp [translating, cameraReady, constructed, tickAt]
    norm_num
  · simp [tickAt]
    norm_num
  · simp [translating, cameraReady, constructed, tickAt]
    norm_num

/-! ## The error budget -/

/-- The counter and the notifications that `handleProcessingError` leaves. -/
theorem handleProcessingError_budget (s : Translator) (e : FrameError) :
    (s.consecutiveErrors + 1 < 3 →
      (handleProcessingError s e).consecutiveErrors = s.consecutiveErrors + 1 ∧
      (handleProcessingError s e).notifications = s.notifications) ∧
    (3 ≤ s.consecutiveErrors + 1 →
      (handleProcessingError s e).consecutiveErrors = 0 ∧
      (handleProcessingError s e).notifications =
        s.notifications ++ ["Processing issues detected. Please try again."]) := by
  constructor
  · intro h
    have h' : ¬ 3 ≤ s.consecutiveErrors + 1 := by omega
    simp [handleProcessingError, h']
  · intro h
    simp [handleProcessingError, h, showError]

theorem handleProcessingError_consecutiveErrors (s : Translator) (e : FrameError) :
    (handleProcessingError s e).consecutiveErrors =
      if 3 ≤ s.consecutiveErrors + 1 then 0 else s.consecutiveErrors + 1 := by
  simp only [handleProcessingError]
  split <;> rfl

/-- C18 (the code at the failing input): `maxConsecutiveErrors` is 5 and two
failures have been counted. A third failure reported to `handleProcessingError`
shows its warning and resets the counter, while the same state given to
`handleNoPrediction` only counts to 3 and shows nothing. -/
theorem C18_handleProcessingError_warns_at_three :
    ({ translating with consecutiveErrors := 2 } : Translator).maxConsecutiveErrors = 5 ∧
    (handleProcessingError { translating with consecutiveErrors := 2 } .other).notifications =
      ["Processing issues detected. Please try again."] ∧
    (handleProcessingError { translating with consecutiveErrors := 2 } .other).consecutiveErrors
      = 0 ∧
    (handleNoPrediction { translating with consecutiveErrors := 2 }).notifications = [] ∧
    (handleNoPrediction { translating with consecutiveErrors := 2 }).consecutiveErrors = 3 := by
  refine ⟨rfl, ?_, ?_, ?_, ?_⟩ <;>
    simp [handleProcessingError, handleNoPrediction, showError, clearKeypoints, translating,
      cameraReady, constructed]

theorem stop_then_abort_consecutiveErrors (s : Translator) (f : ℕ) (r : Request)
    (hfind : findRequest s f = some r) :
    (step (stopTranslation s) (.requestFailed f .abortError)).consecutiveErrors =
      (handleProcessingError s .abortError).consecutiveErrors ∧
    (step (stopTranslation s) (.requestFailed f .abortError)).notifications =
      (handleProcessingError s .abortError).notifications := by
  have hfind2 : findRequest (stopTranslation s) f = some r := by
    unfold findRequest at hfind ⊢
    rw [stopTranslation_pending]
    exact hfind
  have hc : (dropRequest (stopTranslation s) r.frameId).consecutiveErrors = s.consecutiveErrors := by
    rw [stopTranslation_eq]; rfl
  have hn : (dropRequest (stopTranslation s) r.frameId).notifications = s.notifications := by
    rw [stopTranslation_eq]; rfl
  simp only [step, hfind2, onRequestFailed, finallyBlock]
  by_cases h : 3 ≤ s.consecutiveErrors + 1
  · have h1 := (handleProcessingError_budget s .abortError).2 h
    have h2 := (handleProcessingError_budget (dropRequest (stopTranslation s) r.frameId)
      .abortError).2 (by rw [hc]; exact h)
    rw [h1.1, h1.2, ← hn]
    exact ⟨h2.1, h2.2⟩
  · have h' : s.consecutiveErrors + 1 < 3 := by omega
    have h1 := (handleProcessingError_budget s .abortError).1 h'
    have h2 := (handleProcessingError_budget (dropRequest (stopTranslation s) r.frameId)
      .abortError).1 (by rw [hc]; exact h')
    rw [h1.1, h1.2, ← hn, ← hc]
    exact ⟨h2.1, h2.2⟩

/-- C19 (as amended): when a frame request is aborted because the operator
stopped translation, the resulting `AbortError` is handled like every other
request failure. For every prior value of `consecutiveErrors` the counter is
changed: it is incremented by 1 when no notification is shown, and it is reset
to 0 when the handler shows its notification. -/
theorem C19_abort_after_stop_counts_as_failure (s : Translator) (f : ℕ) (r : Request)
    (hfind : findRequest s f = some r) :
    (step (stopTranslation s) (.requestFailed f .abortError)).consecutiveErrors
      ≠ s.consecutiveErrors ∧
    ((step (stopTranslation s) (.requestFailed f .abortError)).notifications = s.notifications →
      (step (stopTranslation s) (.requestFailed f .abortError)).consecutiveErrors
        = s.consecutiveErrors + 1) ∧
    ((step (stopTranslation s) (.requestFailed f .abortError)).notifications ≠ s.notifications →
      (step (stopTranslation s) (.requestFailed f .abortError)).consecutiveErrors = 0) ∧
    (step (stopTranslation s) (.requestFailed f .abortError)).consecutiveErrors =
      (step s (.requestFailed f .other)).consecutiveErrors := by
  obtain ⟨hc, hn⟩ := stop_then_abort_consecutiveErrors s f r hfind
  have hother : (step s (.requestFailed f .other)).consecutiveErrors =
      (handleProcessingError s .abortError).consecutiveErrors := by
    simp only [step, hfind, onRequestFailed, finallyBlock]
    rw [handleProcessingError_consecutiveErrors s, handleProcessingError_consecutiveErrors]
    rfl
  rw [hc, hn, hother]
  by_cases h : 3 ≤ s.consecutiveErrors + 1
  · have h1 := (handleProcessingError_budget s .abortError).2 h
    rw [h1.1, h1.2]
    refine ⟨by omega, ?_, fun _ => rfl, rfl⟩
    intro hcontra
    simp at hcontra
  · have h' : s.consecutiveErrors + 1 < 3 := by omega
    have h1 := (handleProcessingError_budget s .abortError).1 h'
    rw [h1.1, h1.2]
    refine ⟨by omega, fun _ => rfl, ?_, rfl⟩
    intro hcontra
    exact absurd rfl hcontra

/-- C19 (witness): a request is in flight after the first tick; the operator
stops and the request is rejected with `AbortError`. -/
theorem C19_abort_after_stop_witness :
    findRequest (run cameraReady [.start (tickAt 50)]) 0 =
      some { frameId := 0, controller := 1, timeoutId := 2, startTime := 50,
             awaitingBody := false } ∧
    (step (stopTranslation (run cameraReady [.start (tickAt 50)]))
      (.requestFailed 0 .abortError)).consecutiveErrors
      ≠ (run cameraReady [.start (tickAt 50)]).consecutiveErrors := by
  have hfind : findRequest (run cameraReady [.start (tickAt 50)]) 0 =
      some { frameId := 0, controller := 1, timeoutId := 2, startTime := 50,
             awaitingBody := false } := by
    simp [run, step, startTranslation, cameraReady, constructed, tickAt, processFramesOptimized,
      frameRateControl, scheduleNextFrame, drawKeypointsIfAvailable, processSingleFrame,
      isSystemReady, updateFPSCounter, findRequest]
    norm_num
  exact ⟨hfind, (C19_abort_after_stop_counts_as_failure _ 0 _ hfind).1⟩

/-- C19 (counterexample): the operator stops while the first request is in
flight; the `AbortError` of that request raises `consecutiveErrors` from 0 to
1. With two failures already counted, the `AbortError` shows the notification. -/
theorem C19_counterexample_abort_is_counted :
    (run cameraReady [.start (tickAt 50)]).consecutiveErrors = 0 ∧
    (run cameraReady
      [.start (tickAt 50), .stop, .requestFailed 0 .abortError]).consecutiveErrors = 1 ∧
    (handleProcessingError { translating with consecutiveErrors := 2 } .abortError).notifications
      ≠ ({ translating with consecutiveErrors := 2 } : Translator).notifications := by
  refine ⟨?_, ?_, ?_⟩
  · simp [run, step, startTranslation, cameraReady, constructed, tickAt, processFramesOptimized,
      frameRateControl, scheduleNextFrame, drawKeypointsIfAvailable, processSingleFrame,
      isSystemReady, updateFPSCounter]
    norm_num
  · simp [run, step, startTranslation, cameraReady, constructed, tickAt, processFramesOptimized,
      frameRateControl, scheduleNextFrame, drawKeypointsIfAvailable, processSingleFrame,
      isSystemReady, updateFPSCounter, stopTranslation, clearCanvases, clearKeypoints,
      findRequest, onRequestFailed, dropRequest, handleProcessingError, finallyBlock]
    norm_num
  · simp [handleProcessingError, showError, translating, cameraReady, constructed]

/-! ## Responses with missing fields -/

/-- What `updateDisplay` writes, element by element: an element that the page
lacks stays absent, every other one gets its new content. -/
theorem updateDisplay_display (s : Translator) (result : PredictionResult) (valid : Bool) :
    (updateDisplay s result valid).display =
      { textOutput := s.display.textOutput.map (fun _ =>
          if valid then
            "<span class=\"detected-text\">"
              ++ escapeHtml (result.prediction.getD "undefined") ++ "</span>"
          else "<span class=\"placeholder\">Show a sign to your webcam...</span>")
        gestureName := s.display.gestureName.map (fun _ => predictionOr result "-")
        confidenceBadge := s.display.confidenceBadge.map (fun _ =>
          (confidencePercent result, getConfidenceClass (confidencePercent result)))
        handsCount := s.display.handsCount.map (fun _ => result.hand_count.getD 0)
        currentSignName :=
          s.display.currentSignName.map (fun _ => predictionOr result "No Sign Detected")
        currentSignConfidence :=
          s.display.currentSignConfidence.map (fun _ => confidencePercent result) } := by
  cases hd : s.display with
  | mk t g c h n k =>
    cases t <;> cases g <;> cases c <;> cases h <;> cases n <;> cases k <;> cases valid <;>
      simp [updateDisplay, updateTextOutput, updateGestureInfo, updateVideoOverlay, hd]

theorem confidencePercent_missing (result : PredictionResult) (h : result.confidence = none) :
    confidencePercent result = 0 := by
  simp [confidencePercent, h, jsRound]
  norm_num

theorem predictionOr_missing (result : PredictionResult) (fallback : String)
    (h : result.prediction = none) : predictionOr result fallback = fallback := by
  simp [predictionOr, h]

theorem validSample_missing (s : Translator) (result : PredictionResult)
    (h : result.prediction = none ∨ result.confidence = none) : validSample s result = none := by
  unfold validSample
  rcases h with h | h
  · rw [h]
  · rw [h]
    cases result.prediction <;> rfl

theorem handleLowConfidencePrediction_stabilizer (s : Translator) (result : PredictionResult) :
    (handleLowConfidencePrediction s result).predictionHistory = s.predictionHistory ∧
    (handleLowConfidencePrediction s result).settled = s.settled ∧
    (handleLowConfidencePrediction s result).display = s.display ∧
    (handleLowConfidencePrediction s result).currentLandmarks = s.currentLandmarks ∧
    (handleLowConfidencePrediction s result).handDetected = s.handDetected := by
  simp only [handleLowConfidencePrediction, clearKeypoints]
  split <;> (try split) <;> exact ⟨rfl, rfl, rfl, rfl, rfl⟩

theorem handleNoPrediction_stabilizer (s : Translator) :
    (handleNoPrediction s).predictionHistory = s.predictionHistory ∧
    (handleNoPrediction s).settled = s.settled := by
  simp only [handleNoPrediction, clearKeypoints, showError]
  split <;> split <;> exact ⟨rfl, rfl⟩

theorem handleValidPrediction_display (s : Translator) (item : HistoryItem) :
    (handleValidPrediction s item).display = s.display ∧
    (handleValidPrediction s item).currentLandmarks = s.currentLandmarks ∧
    (handleValidPrediction s item).handDetected = s.handDetected := by
  simp only [handleValidPrediction, addToHistory]
  split
  · split
    · split <;> exact ⟨rfl, rfl, rfl⟩
    · exact ⟨rfl, rfl, rfl⟩
  · exact ⟨rfl, rfl, rfl⟩

/-- C20: for every parsed response object, whichever of `prediction`,
`confidence`, `landmarks_detected`, `landmarks` and `hand_count` it lacks,
`processPredictionResult` with its display update returns without raising. A
response without `prediction` or without `confidence` is not candidate-valid:
nothing enters `predictionHistory` and nothing is emitted. When the response is
successful, the display shows the defaults for what is missing: the
placeholder text, `-` and `No Sign Detected` for a missing label, 0 percent
for a missing confidence, hand count 0, an empty landmark list, and no hand
detected. -/
theorem C20_missing_fields_degrade_to_defaults (s : Translator) (result : PredictionResult) :
    ∃ t, processPredictionResult s (.object result) = .ok t ∧
      ((result.prediction = none ∨ result.confidence = none) →
        validSample s result = none ∧ t.predictionHistory = s.predictionHistory ∧
        t.settled = s.settled) ∧
      (result.success = some true →
        ((result.prediction = none ∨ result.confidence = none) →
          t.display.textOutput = s.display.textOutput.map (fun _ =>
            "<span class=\"placeholder\">Show a sign to your webcam...</span>")) ∧
        (result.prediction = none →
          t.display.gestureName = s.display.gestureName.map (fun _ => "-") ∧
          t.display.currentSignName =
            s.display.currentSignName.map (fun _ => "No Sign Detected")) ∧
        (result.confidence = none →
          t.display.confidenceBadge =
            s.display.confidenceBadge.map (fun _ => (0, "low-confidence")) ∧
          t.display.currentSignConfidence = s.display.currentSignConfidence.map (fun _ => 0)) ∧
        (result.hand_count = none →
          t.display.handsCount = s.display.handsCount.map (fun _ => 0)) ∧
        (result.landmarks = none → t.currentLandmarks = [] ∧ t.handDetected = false) ∧
        (result.landmarks_detected = none → t.handDetected = false)) := by
  by_cases hsucc : result.success = some true
  · cases hv : validSample (updateHandState s result) result with
    | none =>
      refine ⟨updateDisplay (handleLowConfidencePrediction (updateHandState s result) result)
        result false, ?_, ?_, ?_⟩
      · simp only [processPredictionResult, hsucc, ne_eq, not_true_eq_false, if_false, hv]
      · intro hmiss
        exact ⟨validSample_missing s result hmiss,
          (handleLowConfidencePrediction_stabilizer _ result).1,
          (handleLowConfidencePrediction_stabilizer _ result).2.1⟩
      · intro _
        have hd := updateDisplay_display
          (handleLowConfidencePrediction (updateHandState s result) result) result false
        rw [(handleLowConfidencePrediction_stabilizer _ result).2.2.1] at hd
        have hl : (updateDisplay (handleLowConfidencePrediction (updateHandState s result)
            result) result false).currentLandmarks = result.landmarks.getD [] :=
          (handleLowConfidencePrediction_stabilizer _ result).2.2.2.1
        have hh : (updateDisplay (handleLowConfidencePrediction (updateHandState s result)
            result) result false).handDetected = (updateHandState s result).handDetected :=
          (handleLowConfidencePrediction_stabilizer _ result).2.2.2.2
        rw [hd, hl, hh]
        refine ⟨fun _ => by simp [updateHandState], ?_, ?_, ?_, ?_, ?_⟩
        · intro hp
          simp [predictionOr_missing result _ hp, updateHandState]
        · intro hc
          simp [confidencePercent_missing result hc, getConfidenceClass, updateHandState]
        · intro hc
          simp [hc, updateHandState]
        · intro hl
          simp [hl, updateHandState]
        · intro hl
          simp [hl, updateHandState]
    | some item =>
      have hmiss : ∀ _ : result.prediction = none ∨ result.confidence = none, False := by
        intro hmiss
        rw [validSample_missing _ result hmiss] at hv
        exact absurd hv (by simp)
      refine ⟨updateDisplay (handleValidPrediction (updateHandState s result) item)
        result true, ?_, fun h => (hmiss h).elim, ?_⟩
      · simp only [processPredictionResult, hsucc, ne_eq, not_true_eq_false, if_false, hv]
      · intro _
        have hd := updateDisplay_display
          (handleValidPrediction (updateHandState s result) item) result true
        rw [(handleValidPrediction_display _ item).1] at hd
        have hl : (updateDisplay (handleValidPrediction (updateHandState s result) item)
            result true).currentLandmarks = result.landmarks.getD [] :=
          (handleValidPrediction_display _ item).2.1
        have hh : (updateDisplay (handleValidPrediction (updateHandState s result) item)
            result true).handDetected = (updateHandState s result).handDetected :=
          (handleValidPrediction_display _ item).2.2
        rw [hd, hl, hh]
        refine ⟨fun h => (hmiss h).elim, fun h => (hmiss (Or.inl h)).elim,
          fun h => (hmiss (Or.inr h)).elim, ?_, ?_, ?_⟩
        · intro hc
          simp [hc, updateHandState]
        · intro hl
          simp [hl, updateHandState]
        · intro hl
          simp [hl, updateHandState]
  · refine ⟨handleNoPrediction s, by simp only [processPredictionResult, ne_eq, hsucc,
      not_false_eq_true, if_true], ?_, fun h => absurd h hsucc⟩
    intro hmiss
    exact ⟨validSample_missing s result hmiss, (handleNoPrediction_stabilizer s).1,
      (handleNoPrediction_stabilizer s).2⟩


/-! ## The camera -/

/-- The state `stopCamera` leaves, field by field. -/
theorem stopCamera_eq (s : Translator) :
    stopCamera s =
      { s with
        currentFrameController := none
        aborted := match s.currentFrameController with
          | some controller => s.aborted ++ [controller]
          | none => s.aborted
        videoStream := none
        stoppedStreams := match s.videoStream with
          | some stream => s.stoppedStreams ++ [stream]
          | none => s.stoppedStreams
        srcObject := none
        frameDrawn := if s.ctxReady then false else s.frameDrawn
        keypointsDrawn := if s.keypointCtxReady then false else s.keypointsDrawn
        isCameraInitialized := false } := by
  cases hC : s.currentFrameController <;> cases hV : s.videoStream <;>
    cases hX : s.ctxReady <;> cases hK : s.keypointCtxReady <;>
    simp [stopCamera, clearCanvases, clearKeypoints, hC, hV, hX, hK]

theorem handleCameraError_retry (s : Translator) (error : CameraError) :
    (handleCameraError s error).cameraRetryCount = s.cameraRetryCount ∧
    (handleCameraError s error).maxCameraRetries = s.maxCameraRetries := by
  simp only [handleCameraError, showCameraErrorModal, showPermissionModal]
  split <;> exact ⟨rfl, rfl⟩

theorem initializeCameraCatch_retry (s : Translator) (error : CameraError) :
    (initializeCameraCatch s error).cameraRetryCount = s.cameraRetryCount + 1 ∧
    (initializeCameraCatch s error).maxCameraRetries = s.maxCameraRetries := by
  unfold initializeCameraCatch
  exact ⟨(handleCameraError_retry _ error).1, (handleCameraError_retry _ error).2⟩

theorem initializeCameraBegin_suspended (s : Translator)
    (h : s.cameraRetryCount < s.maxCameraRetries) :
    (initializeCameraBegin s true).cameraAttempts = s.cameraAttempts + 1 ∧
    (initializeCameraBegin s true).cameraRetryCount = s.cameraRetryCount ∧
    (initializeCameraBegin s true).maxCameraRetries = s.maxCameraRetries := by
  have h' : ¬ s.maxCameraRetries ≤ s.cameraRetryCount := by omega
  simp only [initializeCameraBegin, h', if_false, Bool.not_true, Bool.false_eq_true]
  rw [stopCamera_eq]
  exact ⟨rfl, rfl, rfl⟩

/-- A failing invocation that passes the retry guard adds one to
`cameraRetryCount`. -/
theorem initializeCamera_failed (s : Translator) (apiSupported : Bool)
    (outcome : CameraOutcome) (h : s.cameraRetryCount < s.maxCameraRetries)
    (hfail : attemptFails apiSupported outcome = true) :
    (initializeCamera s apiSupported outcome).cameraRetryCount = s.cameraRetryCount + 1 ∧
    (initializeCamera s apiSupported outcome).maxCameraRetries = s.maxCameraRetries := by
  have h' : ¬ s.maxCameraRetries ≤ s.cameraRetryCount := by omega
  cases apiSupported with
  | false =>
    simp only [initializeCamera, initializeCameraSuspends, Bool.and_false, Bool.false_eq_true,
      if_false, initializeCameraBegin, h', Bool.not_false, if_true]
    exact initializeCameraCatch_retry _ _
  | true =>
    obtain ⟨ha, hc, hm⟩ := initializeCameraBegin_suspended s h
    have hne : ¬ (initializeCameraBegin s true).cameraAttempts = 0 := by omega
    simp only [initializeCamera, initializeCameraSuspends, h, decide_True, Bool.and_self,
      if_true, initializeCameraFinish, hne, if_false]
    cases outcome with
    | acquireFailed error =>
      have := initializeCameraCatch_retry
        { initializeCameraBegin s true with
          cameraAttempts := (initializeCameraBegin s true).cameraAttempts - 1
          getUserMediaCalls := (initializeCameraBegin s true).getUserMediaCalls + 1 } error
      exact ⟨by rw [this.1]; exact congrArg (· + 1) hc, by rw [this.2]; exact hm⟩
    | loadFailed stream fallbackUsed error =>
      have := initializeCameraCatch_retry
        (attachStream
          { initializeCameraBegin s true with
            cameraAttempts := (initializeCameraBegin s true).cameraAttempts - 1
            getUserMediaCalls := (initializeCameraBegin s true).getUserMediaCalls +
              (if fallbackUsed then 1 else 0) } stream) error
      exact ⟨by rw [this.1]; exact congrArg (· + 1) hc, by rw [this.2]; exact hm⟩
    | noFrames stream fallbackUsed =>
      have := initializeCameraCatch_retry
        (attachStream
          { initializeCameraBegin s true with
            cameraAttempts := (initializeCameraBegin s true).cameraAttempts - 1
            getUserMediaCalls := (initializeCameraBegin s true).getUserMediaCalls +
              (if fallbackUsed then 1 else 0) } stream)
        { name := "Error", message := "Camera initialized but not providing video frames" }
      exact ⟨by rw [this.1]; exact congrArg (· + 1) hc, by rw [this.2]; exact hm⟩
    | ready stream fallbackUsed =>
      simp [attemptFails] at hfail

/-- C21: starting with `cameraRetryCount` 0 and `maxCameraRetries` 3, after
three consecutive failed invocations of `initializeCamera` the counter is 3 and
a fourth invocation only shows the maximum-retries error: it is not suspended
at `getUserMedia` and makes no call of it, releases nothing (no controller
aborted, no track stopped, the stream untouched), and leaves `cameraRetryCount`
and `isCameraInitialized` as they were. -/
theorem C21_fourth_attempt_rejected (s : Translator) (a1 a2 a3 : Bool)
    (o1 o2 o3 : CameraOutcome) (hcount : s.cameraRetryCount = 0)
    (hmax : s.maxCameraRetries = 3)
    (h1 : attemptFails a1 o1 = true) (h2 : attemptFails a2 o2 = true)
    (h3 : attemptFails a3 o3 = true) (apiSupported : Bool) :
    (initializeCamera (initializeCamera (initializeCamera s a1 o1) a2 o2) a3 o3).cameraRetryCount
      = 3 ∧
    initializeCameraSuspends
      (initializeCamera (initializeCamera (initializeCamera s a1 o1) a2 o2) a3 o3)
      apiSupported = false ∧
    initializeCameraBegin
      (initializeCamera (initializeCamera (initializeCamera s a1 o1) a2 o2) a3 o3)
      apiSupported =
      { initializeCamera (initializeCamera (initializeCamera s a1 o1) a2 o2) a3 o3 with
        cameraErrorShown := some ("Camera Error",
          "Maximum retry attempts reached. Please refresh the page.") } ∧
    (initializeCameraBegin
      (initializeCamera (initializeCamera (initializeCamera s a1 o1) a2 o2) a3 o3)
      apiSupported).getUserMediaCalls =
      (initializeCamera (initializeCamera (initializeCamera s a1 o1) a2 o2)
        a3 o3).getUserMediaCalls ∧
    (initializeCameraBegin
      (initializeCamera (initializeCamera (initializeCamera s a1 o1) a2 o2) a3 o3)
      apiSupported).stoppedStreams =
      (initializeCamera (initializeCamera (initializeCamera s a1 o1) a2 o2)
        a3 o3).stoppedStreams ∧
    (initializeCameraBegin
      (initializeCamera (initializeCamera (initializeCamera s a1 o1) a2 o2) a3 o3)
      apiSupported).aborted =
      (initializeCamera (initializeCamera (initializeCamera s a1 o1) a2 o2) a3 o3).aborted ∧
    (initializeCameraBegin
      (initializeCamera (initializeCamera (initializeCamera s a1 o1) a2 o2) a3 o3)
      apiSupported).videoStream =
      (initializeCamera (initializeCamera (initializeCamera s a1 o1) a2 o2)
        a3 o3).videoStream ∧
    (initializeCameraBegin
      (initializeCamera (initializeCamera (initializeCamera s a1 o1) a2 o2) a3 o3)
      apiSupported).cameraRetryCount = 3 ∧
    (initializeCameraBegin
      (initializeCamera (initializeCamera (initializeCamera s a1 o1) a2 o2) a3 o3)
      apiSupported).isCameraInitialized =
      (initializeCamera (initializeCamera (initializeCamera s a1 o1) a2 o2)
        a3 o3).isCameraInitialized := by
  have e1 := initializeCamera_failed s a1 o1 (by omega) h1
  have e2 := initializeCamera_failed (initializeCamera s a1 o1) a2 o2 (by omega) h2
  have e3 := initializeCamera_failed (initializeCamera (initializeCamera s a1 o1) a2 o2) a3 o3
    (by omega) h3
  have hc : (initializeCamera (initializeCamera (initializeCamera s a1 o1) a2 o2)
      a3 o3).cameraRetryCount = 3 := by omega
  have hm : (initializeCamera (initializeCamera (initializeCamera s a1 o1) a2 o2)
      a3 o3).maxCameraRetries = 3 := by omega
  have hb : initializeCameraBegin
      (initializeCamera (initializeCamera (initializeCamera s a1 o1) a2 o2) a3 o3)
      apiSupported =
      { initializeCamera (initializeCamera (initializeCamera s a1 o1) a2 o2) a3 o3 with
        cameraErrorShown := some ("Camera Error",
          "Maximum retry attempts reached. Please refresh the page.") } := by
    simp only [initializeCameraBegin, hc, hm, le_refl, if_true, showCameraErrorModal]
  refine ⟨hc, ?_, hb, ?_, ?_, ?_, ?_, ?_, ?_⟩
  · simp [initializeCameraSuspends, hc, hm]
  all_goals rw [hb]
  · exact hc

/-- C21 (witness): on the constructed translator the camera is busy three
times in a row. -/
theorem C21_fourth_attempt_witness :
    (constructed.cameraRetryCount = 0 ∧ constructed.maxCameraRetries = 3) ∧
    (initializeCamera
      (initializeCamera
        (initializeCamera constructed true (.acquireFailed ⟨"NotReadableError", ""⟩))
        true (.acquireFailed ⟨"NotReadableError", ""⟩))
      true (.acquireFailed ⟨"NotReadableError", ""⟩)).cameraRetryCount = 3 :=
  ⟨⟨rfl, rfl⟩,
    (C21_fourth_attempt_rejected constructed true true true
      (.acquireFailed ⟨"NotReadableError", ""⟩) (.acquireFailed ⟨"NotReadableError", ""⟩)
      (.acquireFailed ⟨"NotReadableError", ""⟩) rfl rfl rfl rfl rfl true).1⟩

/-- C22 (the code at the failing input): two camera failures have been counted
and the retry button is pressed twice, so that two invocations of
`initializeCamera` pass the retry guard before either ends. When both fail,
`cameraRetryCount` is 4, above `maxCameraRetries`. When the first fails and the
second succeeds, the counter reaches the limit 3 and is then reset to 0 with
`isCameraInitialized` set. -/
theorem C22_overlapping_attempts_pass_the_limit :
    ({ constructed with cameraRetryCount := 2 } : Translator).maxCameraRetries = 3 ∧
    (initializeCameraFinish
      (initializeCameraFinish
        (initializeCameraBegin
          (initializeCameraBegin { constructed with cameraRetryCount := 2 } true) true)
        (.acquireFailed ⟨"NotReadableError", ""⟩))
      (.acquireFailed ⟨"NotReadableError", ""⟩)).cameraRetryCount = 4 ∧
    (initializeCameraFinish
      (initializeCameraBegin
        (initializeCameraBegin { constructed with cameraRetryCount := 2 } true) true)
      (.acquireFailed ⟨"NotReadableError", ""⟩)).cameraRetryCount = 3 ∧
    (initializeCameraFinish
      (initializeCameraFinish
        (initializeCameraBegin
          (initializeCameraBegin { constructed with cameraRetryCount := 2 } true) true)
        (.acquireFailed ⟨"NotReadableError", ""⟩))
      (.ready 7 false)).cameraRetryCount = 0 ∧
    (initializeCameraFinish
      (initializeCameraFinish
        (initializeCameraBegin
          (initializeCameraBegin { constructed with cameraRetryCount := 2 } true) true)
        (.acquireFailed ⟨"NotReadableError", ""⟩))
      (.ready 7 false)).isCameraInitialized = true := by
  refine ⟨rfl, ?_, ?_, ?_, ?_⟩ <;>
    simp [initializeCameraFinish, initializeCameraBegin, initializeCameraCatch,
      handleCameraError, showCameraErrorModal, hideCameraErrorModal, hidePermissionModal,
      attachStream, stopCamera_eq, constructed]

/-- C23: `stopCamera` is idempotent: from every state, a second call changes
nothing, so it stops no track and aborts no request; after the first call
`videoStream` and `currentFrameController` are null and `isCameraInitialized`
is false. -/
theorem C23_stopCamera_idempotent (s : Translator) :
    stopCamera (stopCamera s) = stopCamera s ∧
    (stopCamera s).videoStream = none ∧
    (stopCamera s).currentFrameController = none ∧
    (stopCamera s).isCameraInitialized = false ∧
    (stopCamera (stopCamera s)).stoppedStreams = (stopCamera s).stoppedStreams ∧
    (stopCamera (stopCamera s)).aborted = (stopCamera s).aborted := by
  have h : stopCamera (stopCamera s) = stopCamera s := by
    rw [stopCamera_eq (stopCamera s), stopCamera_eq s]
    cases hX : s.ctxReady <;> cases hK : s.keypointCtxReady <;> simp [hX, hK]
  refine ⟨h, ?_, ?_, ?_, by rw [h], by rw [h]⟩ <;> (rw [stopCamera_eq])

/-- C24: `handleCameraError` shows four pairwise distinct texts for the four
kinds of acquisition failure: permission denied (`NotAllowedError`), device not
found (`NotFoundError`), device busy (`NotReadableError`) and the video-load
timeout, whatever messages the browser attaches to the first three. -/
theorem C24_camera_errors_have_distinct_texts (s : Translator) (m1 m2 m3 : String) :
    (handleCameraError s ⟨"NotAllowedError", m1⟩).cameraErrorShown =
      some ("Permission Required",
        "Please allow camera access in your browser settings. Click \"Enable Camera\" to try again.") ∧
    (handleCameraError s ⟨"NotFoundError", m2⟩).cameraErrorShown =
      some ("Camera Not Found",
        "No suitable camera detected. Please check your device has a working camera.") ∧
    (handleCameraError s ⟨"NotReadableError", m3⟩).cameraErrorShown =
      some ("Camera Busy",
        "Camera is already in use by another application. Please close other camera apps and try again.") ∧
    (handleCameraError s videoLoadTimeout).cameraErrorShown =
      some ("Camera Error", "Unable to access camera. Video load timeout after 8 seconds") ∧
    cameraErrorText ⟨"NotAllowedError", m1⟩ ≠ cameraErrorText ⟨"NotFoundError", m2⟩ ∧
    cameraErrorText ⟨"NotAllowedError", m1⟩ ≠ cameraErrorText ⟨"NotReadableError", m3⟩ ∧
    cameraErrorText ⟨"NotAllowedError", m1⟩ ≠ cameraErrorText videoLoadTimeout ∧
    cameraErrorText ⟨"NotFoundError", m2⟩ ≠ cameraErrorText ⟨"NotReadableError", m3⟩ ∧
    cameraErrorText ⟨"NotFoundError", m2⟩ ≠ cameraErrorText videoLoadTimeout ∧
    cameraErrorText ⟨"NotReadableError", m3⟩ ≠ cameraErrorText videoLoadTimeout := by
  have t1 : cameraErrorText ⟨"NotAllowedError", m1⟩ = ("Permission Required",
      "Please allow camera access in your browser settings. Click \"Enable Camera\" to try again.") := by
    simp [cameraErrorText]
  have t2 : cameraErrorText ⟨"NotFoundError", m2⟩ = ("Camera Not Found",
      "No suitable camera detected. Please check your device has a working camera.") := by
    simp [cameraErrorText]
  have t3 : cameraErrorText ⟨"NotReadableError", m3⟩ = ("Camera Busy",
      "Camera is already in use by another application. Please close other camera apps and try again.") := by
    simp [cameraErrorText]
  have t4 : cameraErrorText videoLoadTimeout =
      ("Camera Error", "Unable to access camera. Video load timeout after 8 seconds") := by
    simp [cameraErrorText, videoLoadTimeout]
  refine ⟨?_, ?_, ?_, ?_, ?_, ?_, ?_, ?_, ?_, ?_⟩
  · simp [handleCameraError, showCameraErrorModal, t1]
  · simp [handleCameraError, showCameraErrorModal, t2]
  · simp [handleCameraError, showCameraErrorModal, t3]
  · rw [← t4]
    simp [handleCameraError, showCameraErrorModal, videoLoadTimeout]
  all_goals (simp only [t1, t2, t3, t4]; decide)

/-! ## The recognition history and the overlay -/

/-- C25: for every recognition history list with at most 10 entries,
`addToHistory` places the new entry first, keeps the other entries in their
order, and leaves at most 10 entries: the list is unchanged behind the new
entry while it had fewer than 10, and loses its last (oldest) entry when it
had 10. -/
theorem C25_addToHistory_bounded (s : Translator) (prediction : String) (confidence : ℚ)
    (items : List HistoryEntry) (hlist : s.historyList = some items)
    (hlen : items.length ≤ 10) :
    (addToHistory s prediction confidence).historyList =
      some ({ text := escapeHtml prediction, percent := jsRound (confidence * 100) } ::
        (if items.length < 10 then items else items.dropLast)) ∧
    (if items.length < 10 then items else items.dropLast).length ≤ 9 ∧
    (if items.length < 10 then items else items.dropLast) = items.take 9 := by
  have hd : items.dropLast = items.take (items.length - 1) := List.dropLast_eq_take items
  refine ⟨?_, ?_, ?_⟩
  · simp only [addToHistory, hlist, List.length_cons]
    by_cases h : items.length < 10
    · have h' : ¬ 10 < items.length + 1 := by omega
      simp [h, h']
    · have h' : 10 < items.length + 1 := by omega
      have hne : items ≠ [] := by
        intro hnil
        rw [hnil] at h
        simp at h
      simp [h, h', List.dropLast_cons_of_ne_nil hne]
  · split
    · omega
    · rw [List.length_dropLast]
      omega
  · split
    · rw [List.take_of_length_le (by omega)]
    · rw [hd]
      have : items.length = 10 := by omega
      rw [this]

/-- C25 (witness): the list holds ten entries; the new entry goes first and the
tenth is dropped. -/
theorem C25_addToHistory_witness :
    ({ constructed with
        historyList := some (List.replicate 10 { text := "B", percent := 80 }) }
      : Translator).historyList = some (List.replicate 10 { text := "B", percent := 80 }) ∧
    (addToHistory
      { constructed with
        historyList := some (List.replicate 10 { text := "B", percent := 80 }) }
      "A" (9 / 10)).historyList =
      some ({ text := escapeHtml "A", percent := jsRound (9 / 10 * 100) } ::
        (if (List.replicate 10 ({ text := "B", percent := 80 } : HistoryEntry)).length < 10
          then List.replicate 10 { text := "B", percent := 80 }
          else (List.replicate 10 ({ text := "B", percent := 80 } : HistoryEntry)).dropLast)) :=
  ⟨rfl,
    (C25_addToHistory_bounded
      { constructed with
        historyList := some (List.replicate 10 { text := "B", percent := 80 }) }
      "A" (9 / 10) (List.replicate 10 { text := "B", percent := 80 }) rfl
      (by simp)).1⟩

theorem validSample_updateHandState (s : Translator) (result : PredictionResult) :
    validSample (updateHandState s result) result = validSample s result := rfl

/-- C26 (as amended): for every successful response that is not
candidate-valid, `processPredictionResult` emits no settled label; it clears
the landmark overlay exactly when the label is the sentinel `No hand detected`,
and leaves the overlay as it is for every other label, also one whose
confidence is below the threshold. -/
theorem C26_invalid_sample_overlay (s : Translator) (result : PredictionResult)
    (hsucc : result.success = some true) (hinvalid : validSample s result = none) :
    ∃ t, processPredictionResult s (.object result) = .ok t ∧
      t.settled = s.settled ∧
      (result.prediction = some "No hand detected" →
        t.keypointsDrawn = (clearKeypoints s).keypointsDrawn ∧
        (s.keypointCtxReady = true → t.keypointsDrawn = false)) ∧
      (result.prediction ≠ some "No hand detected" → t.keypointsDrawn = s.keypointsDrawn) := by
  refine ⟨updateDisplay (handleLowConfidencePrediction (updateHandState s result) result)
    result false, ?_, ?_, ?_, ?_⟩
  · simp only [processPredictionResult, hsucc, ne_eq, not_true_eq_false, if_false,
      validSample_updateHandState, hinvalid]
  · exact (handleLowConfidencePrediction_stabilizer _ result).2.1
  · intro hp
    cases hk : s.keypointCtxReady <;>
      simp [updateDisplay, handleLowConfidencePrediction, hp, clearKeypoints, updateHandState, hk]
  · intro hp
    simp [updateDisplay, handleLowConfidencePrediction, hp, updateHandState]

/-- C26 (witness): a hand is drawn and the response carries label `A` with
confidence one half, below the threshold. -/
theorem C26_invalid_sample_witness :
    validSample { translating with keypointsDrawn := true } (responseFor "A" (1 / 2)) = none ∧
    ∃ t, processPredictionResult { translating with keypointsDrawn := true }
        (.object (responseFor "A" (1 / 2))) = .ok t ∧
      t.settled = ({ translating with keypointsDrawn := true } : Translator).settled := by
  have hv : validSample { translating with keypointsDrawn := true }
      (responseFor "A" (1 / 2)) = none := by
    simp [validSample, responseFor, translating, cameraReady, constructed]
    norm_num
  obtain ⟨t, h1, h2, _⟩ := C26_invalid_sample_overlay
    { translating with keypointsDrawn := true } (responseFor "A" (1 / 2)) rfl hv
  exact ⟨hv, t, h1, h2⟩

/-- C26 (counterexample): landmarks are drawn and a successful response
arrives with label `A` and confidence one half, below the threshold 0.75. The
response is not candidate-valid and the drawn landmarks are not cleared. -/
theorem C26_counterexample_low_confidence_keeps_overlay :
    validSample { translating with keypointsDrawn := true } (responseFor "A" (1 / 2)) = none ∧
    (processPredictionResult { translating with keypointsDrawn := true }
      (.object (responseFor "A" (1 / 2)))).map (fun t => t.keypointsDrawn) = .ok true := by
  constructor
  · simp [validSample, responseFor, translating, cameraReady, constructed]
    norm_num
  · have hv : validSample { translating with keypointsDrawn := true }
        (responseFor "A" (1 / 2)) = none := by
      simp [validSample, responseFor, translating, cameraReady, constructed]
      norm_num
    simp only [processPredictionResult, validSample_updateHandState, hv]
    simp [responseFor, updateDisplay, handleLowConfidencePrediction, updateHandState,
      Except.map]

/-- C28 (the code at the failing input): the first request (frame 0, timer 2)
is rejected by a network error, which leaves its timer armed; the next tick
sends the second request (frame 1, controller 4, timer 5). When timer 2 fires
it aborts controller 4, the controller of the second request. And when the
operator stops instead, so that no controller is current, the callback of
timer 2 raises a `TypeError`. -/
theorem C28_stale_timer_aborts_later_request :
    (run cameraReady [.start (tickAt 50), .requestFailed 0 .other]).timers = [2] ∧
    (run cameraReady
      [.start (tickAt 50), .requestFailed 0 .other, .animationFrame (tickAt 90)]).pending =
      [{ frameId := 1, controller := 4, timeoutId := 5, startTime := 90,
         awaitingBody := false }] ∧
    (run cameraReady
      [.start (tickAt 50), .requestFailed 0 .other, .animationFrame (tickAt 90),
       .timeoutFired 2]).aborted = [4] ∧
    timeoutCallback
      (run cameraReady [.start (tickAt 50), .stop, .requestFailed 0 .abortError]) =
      .error .typeError := by
  have h1 : run cameraReady [.start (tickAt 50), .requestFailed 0 .other] =
      { cameraReady with
        isTranslating := true
        lastFrameTime := 100 / 3
        animationFrameId := some 3
        consecutiveErrors := 1
        frameCount := 1
        fps := 20
        rafQueue := [3]
        nextHandle := 4
        timers := [2]
        frameDrawn := true } := by
    simp [run, step, startTranslation, cameraReady, constructed, tickAt, processFramesOptimized,
      frameRateControl, scheduleNextFrame, drawKeypointsIfAvailable, processSingleFrame,
      isSystemReady, updateFPSCounter, findRequest, onRequestFailed, dropRequest,
      handleProcessingError, finallyBlock, jsRem, jsRound]
    norm_num
  have h2 : run cameraReady
      [.start (tickAt 50), .requestFailed 0 .other, .animationFrame (tickAt 90)] =
      step (run cameraReady [.start (tickAt 50), .requestFailed 0 .other])
        (.animationFrame (tickAt 90)) := rfl
  have h3 : run cameraReady
      [.start (tickAt 50), .requestFailed 0 .other, .animationFrame (tickAt 90),
       .timeoutFired 2] =
      step (step (run cameraReady [.start (tickAt 50), .requestFailed 0 .other])
        (.animationFrame (tickAt 90))) (.timeoutFired 2) := rfl
  rw [h2, h3, h1]
  refine ⟨rfl, ?_, ?_, ?_⟩
  · simp [step, cameraReady, constructed, tickAt, processFramesOptimized,
      frameRateControl, scheduleNextFrame, drawKeypointsIfAvailable, processSingleFrame,
      isSystemReady, updateFPSCounter]
    norm_num
  · simp [step, cameraReady, constructed, tickAt, processFramesOptimized,
      frameRateControl, scheduleNextFrame, drawKeypointsIfAvailable, processSingleFrame,
      isSystemReady, updateFPSCounter, timeoutCallback]
    norm_num
  · simp [run, step, startTranslation, cameraReady, constructed, tickAt, processFramesOptimized,
      frameRateControl, scheduleNextFrame, drawKeypointsIfAvailable, processSingleFrame,
      isSystemReady, updateFPSCounter, findRequest, onRequestFailed, dropRequest,
      handleProcessingError, finallyBlock, stopTranslation, clearCanvases, clearKeypoints,
      timeoutCallback]
    norm_num

/-! ## Escaping -/

/-- The characters `escapeHtml` writes for the characters of `l`. -/
theorem escapeHtml_data (text : String) :
    (escapeHtml text).data = (text.data.map escapeChar).flatten := rfl

theorem escapeChar_cases (c : Char) :
    (c ∈ specialChars ∧ escapeChar c ∈ entities) ∨ (c ∉ specialChars ∧ escapeChar c = [c]) := by
  by_cases h1 : c = '&'
  · left; subst h1; decide
  by_cases h2 : c = '<'
  · left; subst h2; decide
  by_cases h3 : c = '>'
  · left; subst h3; decide
  by_cases h4 : c = Char.ofNat 34
  · left; subst h4; decide
  by_cases h5 : c = Char.ofNat 39
  · left; subst h5; decide
  · right
    constructor
    · simp [specialChars, h1, h2, h3, h4, h5]
    · simp [escapeChar, h1, h2, h3, h4, h5]

theorem unescapeAux_escapeChar (c : Char) (out : List Char) :
    unescapeAux 0 (escapeChar c ++ out) = c :: unescapeAux 0 out := by
  by_cases h1 : c = '&'
  · subst h1; simp [escapeChar, unescapeAux, startsWith]
  by_cases h2 : c = '<'
  · subst h2; simp [escapeChar, unescapeAux, startsWith]
  by_cases h3 : c = '>'
  · subst h3; simp [escapeChar, unescapeAux, startsWith]
  by_cases h4 : c = Char.ofNat 34
  · subst h4; simp [escapeChar, unescapeAux, startsWith]
  by_cases h5 : c = Char.ofNat 39
  · subst h5; simp [escapeChar, unescapeAux, startsWith]
  · simp [escapeChar, h1, h2, h3, h4, h5, unescapeAux]

theorem unescapeAux_escape (l : List Char) :
    unescapeAux 0 (l.map escapeChar).flatten = l := by
  induction l with
  | nil => simp [unescapeAux]
  | cons c cs ih =>
    simp only [List.map_cons, List.flatten_cons]
    rw [unescapeAux_escapeChar, ih]

theorem startsWith_append (e out : List Char) : startsWith e (e ++ out) = true := by
  induction e with
  | nil => simp [startsWith]
  | cons c cs ih => simp [startsWith, ih]

theorem ampersands_escapeChar (c : Char) (out : List Char)
    (h : AmpersandsStartEntities out) : AmpersandsStartEntities (escapeChar c ++ out) := by
  have hent : ∀ e ∈ entities, e = escapeChar c →
      ∃ e' ∈ entities, startsWith e' (escapeChar c ++ out) = true := by
    intro e he heq
    exact ⟨e, he, by rw [← heq]; exact startsWith_append e out⟩
  by_cases h1 : c = '&'
  · subst h1
    have := hent "&amp;".data (by decide) (by decide)
    simpa [escapeChar, AmpersandsStartEntities, h] using this
  by_cases h2 : c = '<'
  · subst h2
    have := hent "&lt;".data (by decide) (by decide)
    simpa [escapeChar, AmpersandsStartEntities, h] using this
  by_cases h3 : c = '>'
  · subst h3
    have := hent "&gt;".data (by decide) (by decide)
    simpa [escapeChar, AmpersandsStartEntities, h] using this
  by_cases h4 : c = Char.ofNat 34
  · subst h4
    have := hent "&quot;".data (by decide) (by decide)
    simpa [escapeChar, AmpersandsStartEntities, h] using this
  by_cases h5 : c = Char.ofNat 39
  · subst h5
    have := hent "&#039;".data (by decide) (by decide)
    simpa [escapeChar, AmpersandsStartEntities, h] using this
  · simp [escapeChar, h1, h2, h3, h4, h5, AmpersandsStartEntities, h]

theorem ampersands_escape (l : List Char) :
    AmpersandsStartEntities (l.map escapeChar).flatten := by
  induction l with
  | nil => simp [AmpersandsStartEntities]
  | cons c cs ih =>
    simp only [List.map_cons, List.flatten_cons]
    exact ampersands_escapeChar c _ ih

theorem ampersands_at_suffix (l pre suf : List Char) (h : AmpersandsStartEntities l)
    (hl : l = pre ++ '&' :: suf) : ∃ e ∈ entities, startsWith e ('&' :: suf) = true := by
  induction pre generalizing l with
  | nil =>
    subst hl
    exact h.1 rfl
  | cons p ps ih =>
    subst hl
    exact ih _ h.2 rfl

theorem escape_no_markup (l : List Char) :
    ∀ ch ∈ (l.map escapeChar).flatten,
      ch ≠ '<' ∧ ch ≠ '>' ∧ ch ≠ Char.ofNat 34 ∧ ch ≠ Char.ofNat 39 := by
  intro ch hch
  rw [List.mem_flatten] at hch
  obtain ⟨block, hblock, hmem⟩ := hch
  obtain ⟨c, _, rfl⟩ := List.mem_map.mp hblock
  rcases escapeChar_cases c with ⟨_, hent⟩ | ⟨hns, heq⟩
  · have hall : ∀ e ∈ entities, ∀ x ∈ e,
        x ≠ '<' ∧ x ≠ '>' ∧ x ≠ Char.ofNat 34 ∧ x ≠ Char.ofNat 39 := by decide
    exact hall _ hent ch hmem
  · rw [heq] at hmem
    simp at hmem
    subst hmem
    simp [specialChars] at hns
    exact ⟨hns.2.1, hns.2.2.1, hns.2.2.2.1, hns.2.2.2.2⟩

theorem escape_plain (l : List Char) (h : ∀ ch ∈ l, ch ∉ specialChars) :
    (l.map escapeChar).flatten = l := by
  induction l with
  | nil => rfl
  | cons c cs ih =>
    simp only [List.map_cons, List.flatten_cons]
    rcases escapeChar_cases c with ⟨hs, _⟩ | ⟨_, heq⟩
    · exact absurd hs (h c (by simp))
    · rw [heq, ih (fun ch hch => h ch (by simp [hch]))]
      rfl

/-- C29: for every string, `escapeHtml` returns a string without `<`, `>`,
the double quote and the apostrophe; every `&` in it is the start of one of
the five entities; replacing the entities back gives the string again, so
`escapeHtml` is injective; and a string without the five special characters is
returned as it is. -/
theorem C29_escapeHtml_safe_and_invertible :
    (∀ text : String, ∀ ch ∈ (escapeHtml text).data,
      ch ≠ '<' ∧ ch ≠ '>' ∧ ch ≠ Char.ofNat 34 ∧ ch ≠ Char.ofNat 39) ∧
    (∀ (text : String) (pre suf : List Char), (escapeHtml text).data = pre ++ '&' :: suf →
      ∃ e ∈ entities, startsWith e ('&' :: suf) = true) ∧
    (∀ text : String, unescapeHtml (escapeHtml text) = text) ∧
    Function.Injective escapeHtml ∧
    (∀ text : String, (∀ ch ∈ text.data, ch ∉ specialChars) → escapeHtml text = text) := by
  have hinv : ∀ text : String, unescapeHtml (escapeHtml text) = text := by
    intro text
    unfold unescapeHtml
    rw [escapeHtml_data, unescapeAux_escape]
  refine ⟨?_, ?_, hinv, ?_, ?_⟩
  · intro text ch hch
    rw [escapeHtml_data] at hch
    exact escape_no_markup _ ch hch
  · intro text pre suf h
    rw [escapeHtml_data] at h
    exact ampersands_at_suffix _ pre suf (ampersands_escape _) h
  · intro a b hab
    rw [← hinv a, ← hinv b, hab]
  · intro text h
    unfold escapeHtml
    rw [escape_plain _ h]

/-! ## The stabilizer -/

theorem handleValidPrediction_window (s : Translator) (item : HistoryItem) :
    (handleValidPrediction s item).predictionHistory = pushWindow s item ∧
    (handleValidPrediction s item).smoothingFrames = s.smoothingFrames ∧
    (handleValidPrediction s item).minStabilityFrames = s.minStabilityFrames ∧
    (handleValidPrediction s item).confidenceThreshold = s.confidenceThreshold := by
  simp only [handleValidPrediction, addToHistory, pushWindow]
  split
  · split
    · split <;> exact ⟨rfl, rfl, rfl, rfl⟩
    · exact ⟨rfl, rfl, rfl, rfl⟩
  · exact ⟨rfl, rfl, rfl, rfl⟩

/-- What `handleValidPrediction` does when the window gives a vote. -/
theorem handleValidPrediction_vote (s : Translator) (item v : HistoryItem)
    (h : applyTemporalSmoothing (pushWindow s item) = some v) :
    (handleValidPrediction s item).stabilityCounter = s.stabilityCounter + 1 ∧
    (s.minStabilityFrames ≤ s.stabilityCounter + 1 →
      (handleValidPrediction s item).settled = s.settled ++ [(v.prediction, v.confidence)]) ∧
    (¬ s.minStabilityFrames ≤ s.stabilityCounter + 1 →
      (handleValidPrediction s item).settled = s.settled) := by
  unfold pushWindow at h
  simp only [handleValidPrediction, h, addToHistory]
  refine ⟨?_, ?_, ?_⟩
  · split
    · split <;> rfl
    · rfl
  · intro hm
    simp only [hm, if_true]
    split <;> rfl
  · intro hm
    simp only [hm, if_false]

/-- What `handleValidPrediction` does when the window gives no vote. -/
theorem handleValidPrediction_no_vote (s : Translator) (item : HistoryItem)
    (h : applyTemporalSmoothing (pushWindow s item) = none) :
    (handleValidPrediction s item).stabilityCounter = 0 ∧
    (handleValidPrediction s item).settled = s.settled := by
  unfold pushWindow at h
  constructor <;> simp only [handleValidPrediction, h]

theorem validSample_eq_some (s : Translator) (result : PredictionResult) (item : HistoryItem) :
    validSample s result = some item ↔
      result.prediction = some item.prediction ∧ item.prediction ≠ "" ∧
      item.prediction ≠ "No hand detected" ∧ result.confidence = some item.confidence ∧
      s.confidenceThreshold ≤ item.confidence := by
  unfold validSample
  cases hp : result.prediction with
  | none => simp
  | some p =>
    cases hc : result.confidence with
    | none => simp
    | some c =>
      simp only []
      constructor
      · intro h
        split at h
        · rename_i hcond
          cases h
          exact ⟨rfl, hcond.1, hcond.2.1, rfl, hcond.2.2⟩
        · exact absurd h (by simp)
      · rintro ⟨h1, h2, h3, h4, h5⟩
        cases item with
        | mk ip ic =>
          simp only [Option.some.injEq] at h1 h4
          subst h1 h4
          simp [h2, h3, h5]

/-- The effect of one cycle on the stabilizer, by the kind of response. -/
theorem processResult_cases (s : Translator) (result : PredictionResult) :
    (result.success ≠ some true ∧ processResult s result = handleNoPrediction s) ∨
    (result.success = some true ∧ validSample s result = none ∧
      processResult s result =
        updateDisplay (handleLowConfidencePrediction (updateHandState s result) result)
          result false) ∨
    (result.success = some true ∧ ∃ item, validSample s result = some item ∧
      processResult s result =
        updateDisplay (handleValidPrediction (updateHandState s result) item) result true) := by
  by_cases hs : result.success = some true
  · right
    cases hv : validSample s result with
    | none =>
      left
      refine ⟨hs, rfl, ?_⟩
      simp only [processResult, processPredictionResult, hs, ne_eq, not_true_eq_false, if_false,
        validSample_updateHandState, hv]
    | some item =>
      right
      refine ⟨hs, item, rfl, ?_⟩
      simp only [processResult, processPredictionResult, hs, ne_eq, not_true_eq_false, if_false,
        validSample_updateHandState, hv]
  · left
    refine ⟨hs, ?_⟩
    simp only [processResult, processPredictionResult, ne_eq, hs, not_false_eq_true, if_true]

theorem pushWindow_updateHandState (s : Translator) (result : PredictionResult)
    (item : HistoryItem) : pushWindow (updateHandState s result) item = pushWindow s item := rfl

/-- C2: `processPredictionResult` hands a sample to `handleValidPrediction`,
which pushes it into `predictionHistory`, if and only if `result.success` is
set, `result.prediction` is present, not empty and not `No hand detected`, and
`result.confidence` is present and at least `confidenceThreshold`; a confidence
equal to the threshold is valid. In every other case `predictionHistory` is
left as it is. -/
theorem C2_candidate_valid_iff (s : Translator) (result : PredictionResult) :
    (∀ p c, result.success = some true → result.prediction = some p → p ≠ "" →
      p ≠ "No hand detected" → result.confidence = some c → s.confidenceThreshold ≤ c →
      processPredictionResult s (.object result) =
        .ok (updateDisplay
          (handleValidPrediction (updateHandState s result) { prediction := p, confidence := c })
          result true) ∧
      (processResult s result).predictionHistory =
        pushWindow s { prediction := p, confidence := c }) ∧
    (¬ (result.success = some true ∧ ∃ p c, result.prediction = some p ∧ p ≠ "" ∧
        p ≠ "No hand detected" ∧ result.confidence = some c ∧ s.confidenceThreshold ≤ c) →
      (processPredictionResult s (.object result) = .ok (handleNoPrediction s) ∨
        processPredictionResult s (.object result) =
          .ok (updateDisplay
            (handleLowConfidencePrediction (updateHandState s result) result) result false)) ∧
      (processResult s result).predictionHistory = s.predictionHistory) ∧
    (∀ p, result.success = some true → result.prediction = some p → p ≠ "" →
      p ≠ "No hand detected" → result.confidence = some s.confidenceThreshold →
      validSample s result = some { prediction := p, confidence := s.confidenceThreshold }) := by
  refine ⟨?_, ?_, ?_⟩
  · intro p c hs hp hne hns hc hth
    have hv : validSample s result = some { prediction := p, confidence := c } :=
      (validSample_eq_some s result _).mpr ⟨hp, hne, hns, hc, hth⟩
    have hproc : processPredictionResult s (.object result) =
        .ok (updateDisplay
          (handleValidPrediction (updateHandState s result) { prediction := p, confidence := c })
          result true) := by
      simp only [processPredictionResult, hs, ne_eq, not_true_eq_false, if_false,
        validSample_updateHandState, hv]
    refine ⟨hproc, ?_⟩
    simp only [processResult, hproc]
    exact (handleValidPrediction_window _ _).1
  · intro hnot
    rcases processResult_cases s result with ⟨hs, hr⟩ | ⟨hs, hv, hr⟩ | ⟨hs, item, hv, _⟩
    · refine ⟨Or.inl ?_, ?_⟩
      · simp only [processPredictionResult, ne_eq, hs, not_false_eq_true, if_true]
      · rw [hr]
        exact (handleNoPrediction_stabilizer s).1
    · refine ⟨Or.inr ?_, ?_⟩
      · simp only [processPredictionResult, hs, ne_eq, not_true_eq_false, if_false,
          validSample_updateHandState, hv]
      · rw [hr]
        exact (handleLowConfidencePrediction_stabilizer _ result).1
    · exfalso
      obtain ⟨h1, h2, h3, h4, h5⟩ := (validSample_eq_some s result item).mp hv
      exact hnot ⟨hs, item.prediction, item.confidence, h1, h2, h3, h4, h5⟩
  · intro p _ hp hne hns hc
    exact (validSample_eq_some s result _).mpr ⟨hp, hne, hns, hc, le_refl _⟩

theorem pushWindow_length (s : Translator) (item : HistoryItem)
    (h : s.predictionHistory.length ≤ s.smoothingFrames) :
    (pushWindow s item).length ≤ s.smoothingFrames := by
  unfold pushWindow
  split
  · simp only [List.length_tail, List.length_append, List.length_singleton]
    omega
  · rename_i hlt
    omega

/-- C3: for every state whose window is not longer than `smoothingFrames`
(itself at least 1) and every valid sample, after `handleValidPrediction` the
window is the old window with the sample appended at the end and, when that is
longer than `smoothingFrames`, without its first element; the sample is the
last element, and the length is again at most `smoothingFrames`, as it is
after any cycle. -/
theorem C3_window_is_bounded_fifo (s : Translator) (item : HistoryItem)
    (hlen : s.predictionHistory.length ≤ s.smoothingFrames) (hcap : 1 ≤ s.smoothingFrames) :
    (handleValidPrediction s item).predictionHistory =
      (if s.smoothingFrames < (s.predictionHistory ++ [item]).length then
        (s.predictionHistory ++ [item]).tail
      else s.predictionHistory ++ [item]) ∧
    (handleValidPrediction s item).predictionHistory.getLast? = some item ∧
    (handleValidPrediction s item).predictionHistory.length ≤
      (handleValidPrediction s item).smoothingFrames ∧
    (∀ result, (processResult s result).predictionHistory.length ≤ s.smoothingFrames) := by
  have hw := handleValidPrediction_window s item
  refine ⟨by rw [hw.1]; rfl, ?_, ?_, ?_⟩
  · rw [hw.1]
    unfold pushWindow
    split
    · cases hh : s.predictionHistory with
      | nil =>
        rename_i hlt
        rw [hh] at hlt
        simp at hlt
        omega
      | cons a rest => simp
    · simp
  · rw [hw.1, hw.2.1]
    exact pushWindow_length s item hlen
  · intro result
    rcases processResult_cases s result with ⟨_, hr⟩ | ⟨_, _, hr⟩ | ⟨_, it, _, hr⟩
    · rw [hr, (handleNoPrediction_stabilizer s).1]
      exact hlen
    · rw [hr]
      have := (handleLowConfidencePrediction_stabilizer (updateHandState s result) result).1
      simp only [updateDisplay] at this ⊢
      rw [this]
      exact hlen
    · rw [hr]
      have := (handleValidPrediction_window (updateHandState s result) it).1
      simp only [updateDisplay] at this ⊢
      rw [this, pushWindow_updateHandState]
      exact pushWindow_length s it hlen

/-- C3 (witness): a window of four samples with `smoothingFrames` 4. -/
theorem C3_window_witness :
    (({ translating with
        predictionHistory := [⟨"A", 1⟩, ⟨"A", 1⟩, ⟨"B", 1⟩, ⟨"A", 1⟩] } : Translator
      ).predictionHistory.length ≤ 4 ∧ (1 : ℕ) ≤ 4) ∧
    (handleValidPrediction
      { translating with predictionHistory := [⟨"A", 1⟩, ⟨"A", 1⟩, ⟨"B", 1⟩, ⟨"A", 1⟩] }
      ⟨"C", 1⟩).predictionHistory.getLast? = some ⟨"C", 1⟩ :=
  ⟨⟨by simp, by simp⟩,
    (C3_window_is_bounded_fifo
      { translating with predictionHistory := [⟨"A", 1⟩, ⟨"A", 1⟩, ⟨"B", 1⟩, ⟨"A", 1⟩] }
      ⟨"C", 1⟩ (by simp [translating, cameraReady, constructed])
      (by simp [translating, cameraReady, constructed])).2.1⟩

theorem handleNoPrediction_stabilityCounter (s : Translator) :
    (handleNoPrediction s).stabilityCounter = s.stabilityCounter := by
  simp only [handleNoPrediction, clearKeypoints, showError]
  split <;> split <;> rfl

theorem handleLowConfidencePrediction_stabilityCounter (s : Translator)
    (result : PredictionResult) :
    (handleLowConfidencePrediction s result).stabilityCounter = 0 := by
  simp only [handleLowConfidencePrediction, clearKeypoints]
  split <;> (try split) <;> rfl

/-- C4 (as amended): for every state and every successful response that is
not candidate-valid (the label is the sentinel, empty or missing, or the
confidence is missing or below the threshold), processing it sets
`stabilityCounter` to 0 and leaves `predictionHistory` unchanged. A response
whose success flag is not set leaves `predictionHistory` and also
`stabilityCounter` unchanged. -/
theorem C4_invalid_sample_resets_counter (s : Translator) (result : PredictionResult) :
    (result.success = some true → validSample s result = none →
      (processResult s result).stabilityCounter = 0 ∧
      (processResult s result).predictionHistory = s.predictionHistory) ∧
    (result.success ≠ some true →
      (processResult s result).stabilityCounter = s.stabilityCounter ∧
      (processResult s result).predictionHistory = s.predictionHistory) := by
  constructor
  · intro hs hv
    rcases processResult_cases s result with ⟨hs', _⟩ | ⟨_, _, hr⟩ | ⟨_, item, hv', _⟩
    · exact absurd hs hs'
    · rw [hr]
      exact ⟨handleLowConfidencePrediction_stabilityCounter _ result,
        (handleLowConfidencePrediction_stabilizer _ result).1⟩
    · rw [hv] at hv'
      exact absurd hv' (by simp)
  · intro hs
    rcases processResult_cases s result with ⟨_, hr⟩ | ⟨hs', _, _⟩ | ⟨hs', _, _, _⟩
    · rw [hr]
      exact ⟨handleNoPrediction_stabilityCounter s, (handleNoPrediction_stabilizer s).1⟩
    · exact absurd hs' hs
    · exact absurd hs' hs

/-- C4 (counterexample): the counter stands at 3 and a response arrives whose
success flag is false; the counter still stands at 3 afterwards. -/
theorem C4_counterexample_unsuccessful_response_keeps_counter :
    (processResult { translating with stabilityCounter := 3 }
      { responseFor "A" (9 / 10) with success := some false }).stabilityCounter = 3 := by
  simp [processResult, processPredictionResult, handleNoPrediction, clearKeypoints, showError,
    responseFor, translating, cameraReady, constructed]

/-- C5 (as amended): in `handleValidPrediction`, when a vote is produced,
`stabilityCounter` is incremented by 1, whether or not the vote equals the vote
of the previous cycle; when no vote is produced it is set to 0. -/
theorem C5_counter_counts_cycles_with_a_vote (s : Translator) (item : HistoryItem) :
    (∀ v, applyTemporalSmoothing (pushWindow s item) = some v →
      (handleValidPrediction s item).stabilityCounter = s.stabilityCounter + 1) ∧
    (applyTemporalSmoothing (pushWindow s item) = none →
      (handleValidPrediction s item).stabilityCounter = 0) :=
  ⟨fun v h => (handleValidPrediction_vote s item v h).1,
    fun h => (handleValidPrediction_no_vote s item h).1⟩

/-- C6: for every state and every response, the cycle emits a settled label
(calls `addToHistory`) if and only if the sample is candidate-valid,
`applyTemporalSmoothing` produces a vote on the updated window, and
`stabilityCounter` after its increment is at least `minStabilityFrames`; what
is emitted is the label and the confidence of the vote. -/
theorem C6_emission_iff (s : Translator) (result : PredictionResult) :
    (∀ item v, result.success = some true → validSample s result = some item →
      applyTemporalSmoothing (pushWindow s item) = some v →
      s.minStabilityFrames ≤ s.stabilityCounter + 1 →
      (processResult s result).settled = s.settled ++ [(v.prediction, v.confidence)]) ∧
    (¬ (result.success = some true ∧ ∃ item v, validSample s result = some item ∧
        applyTemporalSmoothing (pushWindow s item) = some v ∧
        s.minStabilityFrames ≤ s.stabilityCounter + 1) →
      (processResult s result).settled = s.settled) := by
  constructor
  · intro item v hs hv hvote hmin
    rcases processResult_cases s result with ⟨hs', _⟩ | ⟨_, hv', _⟩ | ⟨_, item', hv', hr⟩
    · exact absurd hs hs'
    · rw [hv] at hv'
      exact absurd hv' (by simp)
    · rw [hv] at hv'
      cases hv'
      rw [hr]
      exact (handleValidPrediction_vote (updateHandState s result) item v hvote).2.1 hmin
  · intro hnot
    rcases processResult_cases s result with ⟨_, hr⟩ | ⟨_, _, hr⟩ | ⟨hs, item, hv, hr⟩
    · rw [hr]
      exact (handleNoPrediction_stabilizer s).2
    · rw [hr]
      exact (handleLowConfidencePrediction_stabilizer _ result).2.1
    · rw [hr]
      cases hvote : applyTemporalSmoothing (pushWindow s item) with
      | none =>
        exact (handleValidPrediction_no_vote (updateHandState s result) item hvote).2
      | some v =>
        by_cases hmin : s.minStabilityFrames ≤ s.stabilityCounter + 1
        · exact absurd ⟨hs, item, v, hv, hvote, hmin⟩ hnot
        · exact (handleValidPrediction_vote (updateHandState s result) item v hvote).2.2 hmin

/-- C8: once `stabilityCounter` has reached `minStabilityFrames`, a further
candidate-valid sample on which a vote is produced emits the vote again, and
the counter, incremented, is still at least `minStabilityFrames`: the
stabilizer emits on every such cycle, not only on the first crossing. -/
theorem C8_emits_again_on_every_stable_cycle (s : Translator) (result : PredictionResult)
    (item v : HistoryItem) (hreached : s.minStabilityFrames ≤ s.stabilityCounter)
    (hs : result.success = some true) (hv : validSample s result = some item)
    (hvote : applyTemporalSmoothing (pushWindow s item) = some v) :
    (processResult s result).settled = s.settled ++ [(v.prediction, v.confidence)] ∧
    (processResult s result).stabilityCounter = s.stabilityCounter + 1 ∧
    (processResult s result).minStabilityFrames ≤ (processResult s result).stabilityCounter := by
  rcases processResult_cases s result with ⟨hs', _⟩ | ⟨_, hv', _⟩ | ⟨_, item', hv', hr⟩
  · exact absurd hs hs'
  · rw [hv] at hv'
    exact absurd hv' (by simp)
  · rw [hv] at hv'
    cases hv'
    have hvo := handleValidPrediction_vote (updateHandState s result) item v hvote
    have hw := handleValidPrediction_window (updateHandState s result) item
    have h1 : (processResult s result).settled = s.settled ++ [(v.prediction, v.confidence)] := by
      rw [hr]
      exact hvo.2.1 (Nat.le_succ_of_le hreached)
    have h2 : (processResult s result).stabilityCounter = s.stabilityCounter + 1 := by
      rw [hr]
      exact hvo.1
    have h3 : (processResult s result).minStabilityFrames = s.minStabilityFrames := by
      rw [hr]
      exact hw.2.2.1
    refine ⟨h1, h2, ?_⟩
    rw [h2, h3]
    exact Nat.le_succ_of_le hreached

/-- C5 (counterexample): the samples A, A, B, B, B are fed to a fresh
stabilizer. After the fourth the vote is A and after the fifth it is B, and
the counter stands at 4 after the fifth cycle, not at 1. -/
theorem C5_counterexample_changed_vote_increments :
    (applyTemporalSmoothing
      (feedValid translating
        [⟨"A", 9 / 10⟩, ⟨"A", 4 / 5⟩, ⟨"B", 1⟩, ⟨"B", 1⟩]).predictionHistory).map
      HistoryItem.prediction = some "A" ∧
    (applyTemporalSmoothing
      (feedValid translating
        [⟨"A", 9 / 10⟩, ⟨"A", 4 / 5⟩, ⟨"B", 1⟩, ⟨"B", 1⟩, ⟨"B", 1⟩]).predictionHistory).map
      HistoryItem.prediction = some "B" ∧
    (feedValid translating
      [⟨"A", 9 / 10⟩, ⟨"A", 4 / 5⟩, ⟨"B", 1⟩, ⟨"B", 1⟩]).stabilityCounter = 3 ∧
    (feedValid translating
      [⟨"A", 9 / 10⟩, ⟨"A", 4 / 5⟩, ⟨"B", 1⟩, ⟨"B", 1⟩, ⟨"B", 1⟩]).stabilityCounter = 4 := by
  refine ⟨?_, ?_, ?_, ?_⟩ <;>
    simp [feedValid, handleValidPrediction, applyTemporalSmoothing, sortByCountDesc,
      objectEntries, countPredictions, increment, assign, storedFirst, inheritedMethods,
      PropertyValue.plusOne, keepsBefore, arrayIndex, sumConfidence, addToHistory, translating,
      cameraReady, constructed]

/-- C8 (witness): the counter stands at 2 with the window `[A, A]`, and a
third valid sample `A` arrives. -/
theorem C8_emits_again_witness :
    (({ translating with
        predictionHistory := [⟨"A", 9 / 10⟩, ⟨"A", 4 / 5⟩], stabilityCounter := 2 }
      : Translator).minStabilityFrames ≤ 2) ∧
    (processResult
      { translating with
        predictionHistory := [⟨"A", 9 / 10⟩, ⟨"A", 4 / 5⟩], stabilityCounter := 2 }
      (responseFor "A" (19 / 20))).settled = [("A", 53 / 60)] := by
  have hv : validSample
      { translating with
        predictionHistory := [⟨"A", 9 / 10⟩, ⟨"A", 4 / 5⟩], stabilityCounter := 2 }
      (responseFor "A" (19 / 20)) = some ⟨"A", 19 / 20⟩ := by
    simp [validSample, responseFor, translating, cameraReady, constructed]
    norm_num
  have hvote : applyTemporalSmoothing (pushWindow
      { translating with
        predictionHistory := [⟨"A", 9 / 10⟩, ⟨"A", 4 / 5⟩], stabilityCounter := 2 }
      ⟨"A", 19 / 20⟩) = some ⟨"A", 53 / 60⟩ := by
    simp [pushWindow, applyTemporalSmoothing, sortByCountDesc, objectEntries, countPredictions,
      increment, assign, storedFirst, inheritedMethods, PropertyValue.plusOne, keepsBefore,
      arrayIndex, sumConfidence, translating, cameraReady, constructed]
    norm_num
  exact ⟨by simp [translating, cameraReady, constructed],
    (C8_emits_again_on_every_stable_cycle _ (responseFor "A" (19 / 20)) ⟨"A", 19 / 20⟩
      ⟨"A", 53 / 60⟩ (by simp [translating, cameraReady, constructed]) rfl hv hvote).1⟩

/-! ## The vote is a label with the highest count -/

/-- The label of a vote is counted by a number, and the number of its samples
is at least half the length of the window, rounded down. -/
theorem applyTemporalSmoothing_some_count (history : List HistoryItem) (v : HistoryItem)
    (h : applyTemporalSmoothing history = some v) :
    countedLabel v.prediction ∧ history.length / 2 ≤ countLabel v.prediction history := by
  unfold applyTemporalSmoothing at h
  split at h
  · exact absurd h (by simp)
  · split at h
    · exact absurd h (by simp)
    · rename_i mostFrequent hhead
      split at h
      · rename_i count hcount
        split at h
        · rename_i hge
          have hmem : mostFrequent ∈ countPredictions history :=
            mem_objectEntries _ _ (mem_sortByCountDesc _ _
              (List.mem_of_mem_head? (by rw [hhead]; exact rfl)))
          obtain ⟨hproto, _, hval⟩ := countPredictions_mem history mostFrequent hmem
          rw [hcount] at hval
          obtain ⟨hinh, hc⟩ := storedValue_number _ _ _ hval.symm
          have hv : v = { prediction := mostFrequent.1
                          confidence := sumConfidence mostFrequent.1 history / count } :=
            (Option.some.inj h).symm
          subst hv
          exact ⟨⟨hproto, hinh⟩, by rw [hc]; exact hge⟩
        · exact absurd h (by simp)
      · exact absurd h (by simp)

/-- C1 (as amended): a window of fewer than two samples gives no vote. For
every window of at least two samples none of whose labels is `__proto__` or
the name of a function inherited from `Object.prototype`,
`applyTemporalSmoothing` returns a vote if and only if some label occurs at
least `floor(length / 2)` times, that is, if and only if the highest count per
label reaches that bound; and the label it returns has the highest count. On
every window, the label of a vote is none of those names and occurs at least
`floor(length / 2)` times. -/
theorem C1_vote_iff_highest_count_reaches_half (history : List HistoryItem) :
    (history.length < 2 → applyTemporalSmoothing history = none) ∧
    (2 ≤ history.length → (∀ item ∈ history, countedLabel item.prediction) →
      ((∃ v, applyTemporalSmoothing history = some v) ↔
        ∃ label, history.length / 2 ≤ countLabel label history) ∧
      (∀ v, applyTemporalSmoothing history = some v →
        ∀ label, countLabel label history ≤ countLabel v.prediction history)) ∧
    (∀ v, applyTemporalSmoothing history = some v →
      countedLabel v.prediction ∧
        history.length / 2 ≤ countLabel v.prediction history) := by
  refine ⟨?_, ?_, fun v hv => applyTemporalSmoothing_some_count history v hv⟩
  · intro h
    simp [applyTemporalSmoothing, h]
  · intro hlen hplain
    obtain ⟨x, rest, n, _, _, hn, _, hmax, _, heq⟩ := mostFrequent_spec history hlen hplain
    constructor
    · constructor
      · rintro ⟨v, hv⟩
        rw [heq] at hv
        split at hv
        · rename_i hge
          exact ⟨x.1, by rw [← hn]; exact hge⟩
        · exact absurd hv (by simp)
      · rintro ⟨label, hl⟩
        have hge : history.length / 2 ≤ n := le_trans hl (hmax label)
        exact ⟨_, by rw [heq, if_pos hge]⟩
    · intro v hv label
      rw [heq] at hv
      split at hv
      · cases hv
        simp only []
        rw [← hn]
        exact hmax label
      · exact absurd hv (by simp)

/-- C1 (counterexample): in the window of the single sample A the highest
count is 1, which is at least `floor(1 / 2) = 0`, and no vote is returned. -/
theorem C1_counterexample_single_sample_no_vote :
    ([⟨"A", 9 / 10⟩] : List HistoryItem) ≠ [] ∧
    ([⟨"A", 9 / 10⟩] : List HistoryItem).length / 2 ≤ countLabel "A" [⟨"A", 9 / 10⟩] ∧
    applyTemporalSmoothing [⟨"A", 9 / 10⟩] = none := by
  refine ⟨by simp, by simp [countLabel], by simp [applyTemporalSmoothing]⟩

/-- Labels that name a member inherited from `Object.prototype`: the window
`[constructor, constructor]` gives no vote although the label occurs twice, the
window `[A, constructor, constructor]` votes A, which occurs once, and the
window `[__proto__, __proto__]` gives no vote. -/
theorem applyTemporalSmoothing_inherited_names :
    applyTemporalSmoothing [⟨"constructor", 9 / 10⟩, ⟨"constructor", 9 / 10⟩] = none ∧
    applyTemporalSmoothing
      [⟨"A", 4 / 5⟩, ⟨"constructor", 9 / 10⟩, ⟨"constructor", 9 / 10⟩] = some ⟨"A", 4 / 5⟩ ∧
    applyTemporalSmoothing [⟨"__proto__", 9 / 10⟩, ⟨"__proto__", 9 / 10⟩] = none := by
  refine ⟨?_, ?_, ?_⟩ <;>
    simp [applyTemporalSmoothing, sortByCountDesc, objectEntries, countPredictions, increment,
      assign, storedFirst, inheritedMethods, PropertyValue.plusOne, keepsBefore, arrayIndex,
      sumConfidence]

/-! ## Which of several labels with the highest count is returned -/

theorem countPredictions_labels (history : List HistoryItem) :
    countPredictions history =
      (history.map (fun item => item.prediction)).foldl (fun acc l => increment l acc) [] := by
  unfold countPredictions
  rw [List.foldl_map]

theorem label_mem_keys (history : List HistoryItem) (item : HistoryItem)
    (h : item ∈ history) (hp : item.prediction ≠ "__proto__") :
    item.prediction ∈ (countPredictions history).map Prod.fst := by
  have hpos : 0 < countLabel item.prediction history := by
    unfold countLabel
    exact List.length_pos_of_mem (List.mem_filter.mpr ⟨h, by simp⟩)
  exact List.mem_map_of_mem Prod.fst (mem_countPredictions_of_pos _ _ hp hpos)

/-- The keys of `predictions` stand in the order in which the labels first
occur in the window: the labels before the first occurrence of a key are keys
created before it. -/
theorem keys_first_occurrence (history : List HistoryItem)
    (hplain : ∀ item ∈ history, item.prediction ≠ "__proto__") :
    ∀ Kp k Ks, (countPredictions history).map Prod.fst = Kp ++ k :: Ks →
      ∃ pre suf, history.map (fun item => item.prediction) = pre ++ k :: suf ∧
        ∀ l ∈ pre, l ∈ Kp := by
  induction history using List.reverseRecOn with
  | nil =>
    intro Kp k Ks h
    simp [countPredictions] at h
  | append_singleton history item ih =>
    intro Kp k Ks h
    have hplain' : ∀ it ∈ history, it.prediction ≠ "__proto__" :=
      fun it hit => hplain it (List.mem_append_left _ hit)
    have hitem : item.prediction ≠ "__proto__" := hplain item (by simp)
    rw [countPredictions_concat, keys_increment] at h
    simp only [hitem, false_or] at h
    by_cases hin : item.prediction ∈ (countPredictions history).map Prod.fst
    · rw [if_pos hin] at h
      obtain ⟨pre, suf, hl, hpre⟩ := ih hplain' Kp k Ks h
      exact ⟨pre, suf ++ [item.prediction], by simp [hl], hpre⟩
    · rw [if_neg hin] at h
      rcases List.eq_nil_or_concat Ks with hKs | ⟨Ks', p, hKs⟩
      · subst hKs
        have h2 := List.append_inj' h (by simp)
        obtain ⟨h3, h4⟩ := h2
        simp only [List.cons.injEq, and_true] at h4
        refine ⟨history.map (fun item => item.prediction), [], by simp [h4], ?_⟩
        intro l hl
        obtain ⟨it, hit, rfl⟩ := List.mem_map.mp hl
        rw [← h3]
        exact label_mem_keys history it hit (hplain' it hit)
      · subst hKs
        have h5 : (countPredictions history).map Prod.fst ++ [item.prediction] =
            (Kp ++ k :: Ks') ++ [p] := by
          rw [h]; simp
        have h2 := List.append_inj' h5 (by simp)
        obtain ⟨pre, suf, hl, hpre⟩ := ih hplain' Kp k Ks' h2.1
        exact ⟨pre, suf ++ [item.prediction], by simp [hl], hpre⟩

theorem objectEntries_of_no_index (own : List (String × PropertyValue))
    (h : ∀ e ∈ own, arrayIndex e.1 = none) : objectEntries own = own := by
  unfold objectEntries
  have h1 : own.filter (fun e => (arrayIndex e.1).isSome) = [] := by
    rw [List.filter_eq_nil_iff]
    intro e he
    simp [h e he]
  have h2 : own.filter (fun e => !(arrayIndex e.1).isSome) = own := by
    rw [List.filter_eq_self]
    intro e he
    simp [h e he]
  rw [h1, h2]
  simp

theorem applyTemporalSmoothing_label (history : List HistoryItem) :
    (applyTemporalSmoothing history).map (fun v => v.prediction) =
      if history.length < 2 then none
      else
        match (sortByCountDesc (objectEntries (countPredictions history))).head? with
        | none => none
        | some mostFrequent =>
          match mostFrequent.2 with
          | .number count =>
            if history.length / 2 ≤ count then some mostFrequent.1 else none
          | .text _ => none := by
  unfold applyTemporalSmoothing
  split
  · rfl
  · cases (sortByCountDesc (objectEntries (countPredictions history))).head? with
    | none => rfl
    | some x =>
      simp only []
      cases x.2 with
      | number count =>
        simp only []
        split <;> rfl
      | text ones => rfl

/-- C10 (as amended): whether `applyTemporalSmoothing` returns a vote, and with
which label, is a function of the window's sequence of labels. On a window none
of whose labels is an array index (a canonical decimal numeral), `__proto__` or
the name of a function inherited from `Object.prototype`, the returned label
is, among the labels with the highest count, the one that occurs first: every
label before its first occurrence has a strictly smaller count. For such
labels A and B, the window [A,A,B,A] gives A, [A,A,B,B] gives A and [B,B,A,A]
gives B. -/
theorem C10_vote_label_deterministic_first_seen :
    (∀ h1 h2 : List HistoryItem,
      h1.map (fun item => item.prediction) = h2.map (fun item => item.prediction) →
      (applyTemporalSmoothing h1).map (fun v => v.prediction) =
        (applyTemporalSmoothing h2).map (fun v => v.prediction)) ∧
    (∀ (history : List HistoryItem) (v : HistoryItem),
      (∀ item ∈ history, arrayIndex item.prediction = none ∧ countedLabel item.prediction) →
      applyTemporalSmoothing history = some v →
      (∀ label, countLabel label history ≤ countLabel v.prediction history) ∧
      ∃ pre suf, history.map (fun item => item.prediction) = pre ++ v.prediction :: suf ∧
        ∀ l ∈ pre, countLabel l history < countLabel v.prediction history) ∧
    (∀ (A B : String) (c1 c2 c3 c4 : ℚ), arrayIndex A = none → arrayIndex B = none →
      countedLabel A → countedLabel B →
      (applyTemporalSmoothing [⟨A, c1⟩, ⟨A, c2⟩, ⟨B, c3⟩, ⟨A, c4⟩]).map
          (fun v => v.prediction) = some A ∧
      (applyTemporalSmoothing [⟨A, c1⟩, ⟨A, c2⟩, ⟨B, c3⟩, ⟨B, c4⟩]).map
          (fun v => v.prediction) = some A ∧
      (applyTemporalSmoothing [⟨B, c1⟩, ⟨B, c2⟩, ⟨A, c3⟩, ⟨A, c4⟩]).map
          (fun v => v.prediction) = some B) := by
  refine ⟨?_, ?_, ?_⟩
  · intro h1 h2 h
    have hc : countPredictions h1 = countPredictions h2 := by
      rw [countPredictions_labels, countPredictions_labels, h]
    have hl : h1.length = h2.length := by
      have := congrArg List.length h
      simpa using this
    rw [applyTemporalSmoothing_label, applyTemporalSmoothing_label, hc, hl]
  · intro history v hidx hv
    have hlen : 2 ≤ history.length := by
      by_contra hlt
      have : history.length < 2 := by omega
      simp [applyTemporalSmoothing, this] at hv
    obtain ⟨x, rest, n, _, _, hn, _, hmax, ⟨P, S, hl, hP⟩, heq⟩ :=
      mostFrequent_spec history hlen (fun item hitem => (hidx item hitem).2)
    rw [heq] at hv
    split at hv
    · cases hv
      simp only []
      refine ⟨fun label => by rw [← hn]; exact hmax label, ?_⟩
      have hown : ∀ e ∈ countPredictions history, arrayIndex e.1 = none := by
        intro e he
        have hpos := (countPredictions_mem history e he).2.1
        unfold countLabel at hpos
        obtain ⟨it, hit⟩ := List.exists_mem_of_length_pos hpos
        have hit2 := List.mem_filter.mp hit
        have hit3 : it.prediction = e.1 := by simpa using hit2.2
        rw [← hit3]
        exact (hidx it hit2.1).1
      rw [objectEntries_of_no_index _ hown] at hl
      have hkeys : (countPredictions history).map Prod.fst =
          P.map Prod.fst ++ x.1 :: S.map Prod.fst := by
        rw [hl]; simp
      obtain ⟨pre, suf, hlab, hpre⟩ := keys_first_occurrence history
        (fun item hitem => (hidx item hitem).2.1) _ _ _ hkeys
      refine ⟨pre, suf, hlab, ?_⟩
      intro l hlmem
      obtain ⟨e, heP, rfl⟩ := List.mem_map.mp (hpre l hlmem)
      rw [← hn]
      exact hP e heP
    · exact absurd hv (by simp)
  · intro A B c1 c2 c3 c4 hA hB hcA hcB
    have hA1 : ¬ A = "__proto__" := hcA.1
    have hB1 : ¬ B = "__proto__" := hcB.1
    have hA2 : storedFirst A = .number 1 := by
      unfold storedFirst
      rw [if_neg hcA.2]
    have hB2 : storedFirst B = .number 1 := by
      unfold storedFirst
      rw [if_neg hcB.2]
    by_cases hAB : A = B
    · subst hAB
      simp [applyTemporalSmoothing, countPredictions, increment, assign, hA1, hA2,
        PropertyValue.plusOne, keepsBefore, objectEntries, hA, sortByCountDesc]
    · have hBA : ¬ B = A := fun h => hAB h.symm
      simp [applyTemporalSmoothing, countPredictions, increment, assign, hA1, hB1, hA2, hB2,
        PropertyValue.plusOne, keepsBefore, objectEntries, hA, hB, sortByCountDesc, hAB, hBA,
        List.filter_cons]

/-- C10 (counterexample): with the labels A = "2" and B = "1", which are array
indices, the window [A,A,B,B] has both labels at the highest count 2 and A
occurs first, and the vote is B. -/
theorem C10_counterexample_numeric_labels_tie :
    countLabel "2" [⟨"2", 9 / 10⟩, ⟨"2", 9 / 10⟩, ⟨"1", 9 / 10⟩, ⟨"1", 9 / 10⟩] = 2 ∧
    countLabel "1" [⟨"2", 9 / 10⟩, ⟨"2", 9 / 10⟩, ⟨"1", 9 / 10⟩, ⟨"1", 9 / 10⟩] = 2 ∧
    (applyTemporalSmoothing
      [⟨"2", 9 / 10⟩, ⟨"2", 9 / 10⟩, ⟨"1", 9 / 10⟩, ⟨"1", 9 / 10⟩]).map
        (fun v => v.prediction) = some "1" := by
  have h2 : arrayIndex "2" = some 2 := by decide
  have h1 : arrayIndex "1" = some 1 := by decide
  refine ⟨by simp [countLabel, List.filter_cons], by simp [countLabel, List.filter_cons], ?_⟩
  simp [applyTemporalSmoothing, countPredictions, increment, assign, storedFirst,
    inheritedMethods, PropertyValue.plusOne, keepsBefore, objectEntries, h1, h2, sortByCountDesc,
    List.filter_cons, indexValue]

/-! ## The first emission after a start -/

theorem SameStabilizer.refl (s : Translator) : SameStabilizer s s :=
  ⟨rfl, rfl, rfl, rfl, rfl, rfl⟩

theorem SameStabilizer.trans {s t u : Translator} (h1 : SameStabilizer s t)
    (h2 : SameStabilizer t u) : SameStabilizer s u := by
  obtain ⟨a1, a2, a3, a4, a5, a6⟩ := h1
  obtain ⟨b1, b2, b3, b4, b5, b6⟩ := h2
  exact ⟨b1.trans a1, b2.trans a2, b3.trans a3, b4.trans a4, b5.trans a5, b6.trans a6⟩

theorem stopTranslation_sameStabilizer (s : Translator) :
    SameStabilizer s (stopTranslation s) := by
  rw [stopTranslation_eq]
  exact ⟨rfl, rfl, rfl, rfl, rfl, rfl⟩

theorem handleProcessingError_sameStabilizer (s : Translator) (e : FrameError) :
    SameStabilizer s (handleProcessingError s e) := by
  simp only [handleProcessingError, showError]
  split <;> exact ⟨rfl, rfl, rfl, rfl, rfl, rfl⟩

theorem processSingleFrame_sameStabilizer (s : Translator) (env : TickEnv) :
    SameStabilizer s (processSingleFrame s env) := by
  simp only [processSingleFrame]
  split
  · exact SameStabilizer.refl s
  · split
    · exact SameStabilizer.trans (t := handleProcessingError { s with processingFrame := true } .other)
        (SameStabilizer.trans (t := { s with processingFrame := true })
          ⟨rfl, rfl, rfl, rfl, rfl, rfl⟩ (handleProcessingError_sameStabilizer _ _))
        ⟨rfl, rfl, rfl, rfl, rfl, rfl⟩
    · exact ⟨rfl, rfl, rfl, rfl, rfl, rfl⟩

theorem frameRateControl_sameStabilizer (s : Translator) (env : TickEnv) :
    SameStabilizer s (frameRateControl s env) := by
  simp only [frameRateControl]
  split
  · split
    · exact SameStabilizer.trans
        (t := processSingleFrame
          { s with lastFrameTime := env.now - jsRem (env.now - s.lastFrameTime) s.frameInterval }
          env)
        (SameStabilizer.trans
          (t := { s with
            lastFrameTime := env.now - jsRem (env.now - s.lastFrameTime) s.frameInterval })
          ⟨rfl, rfl, rfl, rfl, rfl, rfl⟩ (processSingleFrame_sameStabilizer _ env))
        ⟨rfl, rfl, rfl, rfl, rfl, rfl⟩
    · exact ⟨rfl, rfl, rfl, rfl, rfl, rfl⟩
  · exact SameStabilizer.refl s

theorem drawKeypointsIfAvailable_sameStabilizer (s : Translator) :
    SameStabilizer s (drawKeypointsIfAvailable s) := by
  simp only [drawKeypointsIfAvailable, drawOptimizedLandmarks]
  split
  · split <;> exact ⟨rfl, rfl, rfl, rfl, rfl, rfl⟩
  · exact SameStabilizer.refl s

theorem scheduleNextFrame_sameStabilizer (s : Translator) (env : TickEnv) :
    SameStabilizer s (scheduleNextFrame s env) := by
  simp only [scheduleNextFrame]
  split
  · exact stopTranslation_sameStabilizer s
  · exact ⟨rfl, rfl, rfl, rfl, rfl, rfl⟩

theorem processFramesOptimized_sameStabilizer (s : Translator) (env : TickEnv) :
    SameStabilizer s (processFramesOptimized s env) := by
  simp only [processFramesOptimized]
  split
  · exact SameStabilizer.refl s
  · exact SameStabilizer.trans (frameRateControl_sameStabilizer s env)
      (SameStabilizer.trans (drawKeypointsIfAvailable_sameStabilizer _)
        (scheduleNextFrame_sameStabilizer _ env))

/-- The stabilizer fields in the state that `startTranslation` leaves when the
camera is initialised: the window is empty and the counter is 0. -/
theorem startTranslation_stabilizer (s : Translator) (env : TickEnv)
    (h : s.isCameraInitialized = true) :
    SameStabilizer { s with predictionHistory := [], stabilityCounter := 0 }
      (startTranslation s env) := by
  simp only [startTranslation, h, Bool.not_true, Bool.false_eq_true, if_false]
  exact SameStabilizer.trans (t := { s with
      isTranslating := true
      consecutiveErrors := 0
      predictionHistory := []
      lastValidPrediction := none
      stabilityCounter := 0 })
    ⟨rfl, rfl, rfl, rfl, rfl, rfl⟩ (processFramesOptimized_sameStabilizer _ env)

/-- The state that `startTranslation` leaves at time 0 with the camera ready. -/
theorem startTranslation_cameraReady :
    startTranslation cameraReady (tickAt 0) =
      { translating with animationFrameId := some 1, rafQueue := [1], nextHandle := 2 } := by
  have h : ¬ ((1000 : ℚ) / 30 < 0) := by norm_num
  simp [startTranslation, processFramesOptimized, scheduleNextFrame, drawKeypointsIfAvailable,
    frameRateControl, translating, cameraReady, constructed, tickAt, h]

/-- The votes on the windows of the sample sequence A(0.9), A(0.8), A(0.95),
A(0.85), and the threshold tests of its samples. -/
theorem vote_on_one_sample (item : HistoryItem) : applyTemporalSmoothing [item] = none := by
  simp [applyTemporalSmoothing]

theorem vote_on_two_A :
    applyTemporalSmoothing [⟨"A", 9 / 10⟩, ⟨"A", 4 / 5⟩] = some ⟨"A", 17 / 20⟩ := by
  simp [applyTemporalSmoothing, sortByCountDesc, objectEntries, countPredictions, increment,
    assign, storedFirst, inheritedMethods, PropertyValue.plusOne, keepsBefore, arrayIndex,
    sumConfidence]
  norm_num

theorem vote_on_three_A :
    applyTemporalSmoothing [⟨"A", 9 / 10⟩, ⟨"A", 4 / 5⟩, ⟨"A", 19 / 20⟩]
      = some ⟨"A", 53 / 60⟩ := by
  simp [applyTemporalSmoothing, sortByCountDesc, objectEntries, countPredictions, increment,
    assign, storedFirst, inheritedMethods, PropertyValue.plusOne, keepsBefore, arrayIndex,
    sumConfidence]
  norm_num

theorem vote_on_four_A :
    applyTemporalSmoothing [⟨"A", 9 / 10⟩, ⟨"A", 4 / 5⟩, ⟨"A", 19 / 20⟩, ⟨"A", 17 / 20⟩]
      = some ⟨"A", 7 / 8⟩ := by
  simp [applyTemporalSmoothing, sortByCountDesc, objectEntries, countPredictions, increment,
    assign, storedFirst, inheritedMethods, PropertyValue.plusOne, keepsBefore, arrayIndex,
    sumConfidence]
  norm_num

theorem threshold_tests :
    (3 / 4 : ℚ) ≤ 9 / 10 ∧ (3 / 4 : ℚ) ≤ 4 / 5 ∧ (3 / 4 : ℚ) ≤ 19 / 20 ∧
      (3 / 4 : ℚ) ≤ 17 / 20 ∧ ¬ (3 / 4 : ℚ) ≤ 2⁻¹ := by
  norm_num

/-- A window of at least two samples that all carry the label `L`, counted by
a number, votes `L`. -/
theorem applyTemporalSmoothing_all_same (w : List HistoryItem) (L : String)
    (hlen : 2 ≤ w.length) (hL : ∀ item ∈ w, item.prediction = L) (hcounted : countedLabel L) :
    ∃ c, applyTemporalSmoothing w = some ⟨L, c⟩ := by
  obtain ⟨x, rest, n, _, _, hx, hpos, hmax, _, heq⟩ := mostFrequent_spec w hlen
    (fun item hitem => by rw [hL item hitem]; exact hcounted)
  have hx1 : x.1 = L := by
    rw [hx] at hpos
    unfold countLabel at hpos
    obtain ⟨it, hit⟩ := List.exists_mem_of_length_pos hpos
    have hit2 := List.mem_filter.mp hit
    have hit3 : it.prediction = x.1 := by simpa using hit2.2
    rw [← hit3]
    exact hL it hit2.1
  have hall : countLabel L w = w.length := by
    unfold countLabel
    rw [List.filter_eq_self.mpr]
    intro item hitem
    simp [hL item hitem]
  have hge : w.length / 2 ≤ n := by
    have := hmax L
    rw [hall] at this
    omega
  rw [heq, if_pos hge, hx1]
  exact ⟨_, rfl⟩

theorem feedResponses_concat (s : Translator) (results : List PredictionResult)
    (r : PredictionResult) :
    feedResponses s (results ++ [r]) = processResult (feedResponses s results) r := by
  simp [feedResponses, List.foldl_append]

/-- One cycle of the stabilizer on a valid sample labelled `L`, when the window
holds only samples labelled `L`, has `min k smoothingFrames` of them, and the
counter stands at `k - 1`. -/
theorem processResult_same_label (t : Translator) (r : PredictionResult) (L : String) (c : ℚ)
    (k : ℕ) (hsF : 2 ≤ t.smoothingFrames) (hmin : 1 ≤ t.minStabilityFrames)
    (hL1 : L ≠ "") (hL2 : L ≠ "No hand detected") (hL3 : countedLabel L)
    (hs : r.success = some true) (hp : r.prediction = some L) (hc : r.confidence = some c)
    (hthr : t.confidenceThreshold ≤ c)
    (hlen : t.predictionHistory.length = min k t.smoothingFrames)
    (hwin : ∀ item ∈ t.predictionHistory, item.prediction = L)
    (hcnt : t.stabilityCounter = k - 1) :
    (processResult t r).smoothingFrames = t.smoothingFrames ∧
    (processResult t r).minStabilityFrames = t.minStabilityFrames ∧
    (processResult t r).confidenceThreshold = t.confidenceThreshold ∧
    (processResult t r).predictionHistory.length = min (k + 1) t.smoothingFrames ∧
    (∀ item ∈ (processResult t r).predictionHistory, item.prediction = L) ∧
    (processResult t r).stabilityCounter = k ∧
    (t.minStabilityFrames ≤ k → ∃ c', (processResult t r).settled = t.settled ++ [(L, c')]) ∧
    (k < t.minStabilityFrames → (processResult t r).settled = t.settled) := by
  have hv : validSample t r = some ⟨L, c⟩ :=
    (validSample_eq_some t r ⟨L, c⟩).mpr ⟨hp, hL1, hL2, hc, hthr⟩
  rcases processResult_cases t r with ⟨hs', _⟩ | ⟨_, hv', _⟩ | ⟨_, item, hv', hr⟩
  · exact absurd hs hs'
  · rw [hv] at hv'
    exact absurd hv' (by simp)
  rw [hv] at hv'
  cases hv'
  have hw := handleValidPrediction_window (updateHandState t r) ⟨L, c⟩
  have hpw : (processResult t r).predictionHistory = pushWindow t ⟨L, c⟩ := by
    rw [hr]; exact hw.1
  have hplen : (pushWindow t ⟨L, c⟩).length = min (k + 1) t.smoothingFrames := by
    unfold pushWindow
    split
    · rename_i hlt
      simp only [List.length_append, List.length_singleton] at hlt
      simp only [List.length_tail, List.length_append, List.length_singleton]
      omega
    · rename_i hlt
      simp only [List.length_append, List.length_singleton] at hlt ⊢
      omega
  have hpall : ∀ item ∈ pushWindow t ⟨L, c⟩, item.prediction = L := by
    intro item hitem
    have hmem : item ∈ t.predictionHistory ++ [⟨L, c⟩] := by
      unfold pushWindow at hitem
      split at hitem
      · exact List.mem_of_mem_tail hitem
      · exact hitem
    rcases List.mem_append.mp hmem with h | h
    · exact hwin item h
    · simp only [List.mem_singleton] at h
      rw [h]
  refine ⟨by rw [hr]; exact hw.2.1, by rw [hr]; exact hw.2.2.1, by rw [hr]; exact hw.2.2.2,
    by rw [hpw]; exact hplen, by rw [hpw]; exact hpall, ?_⟩
  by_cases hk : k = 0
  · have hone : (pushWindow t ⟨L, c⟩).length < 2 := by
      rw [hplen, hk]
      omega
    have hnone : applyTemporalSmoothing (pushWindow t ⟨L, c⟩) = none := by
      simp [applyTemporalSmoothing, hone]
    have hno := handleValidPrediction_no_vote (updateHandState t r) ⟨L, c⟩ hnone
    refine ⟨by rw [hr, hk]; exact hno.1, fun h => by omega, fun _ => by rw [hr]; exact hno.2⟩
  · have htwo : 2 ≤ (pushWindow t ⟨L, c⟩).length := by
      rw [hplen]
      omega
    obtain ⟨c', hvote⟩ := applyTemporalSmoothing_all_same _ L htwo hpall hL3
    have hvo := handleValidPrediction_vote (updateHandState t r) ⟨L, c⟩ ⟨L, c'⟩ hvote
    have hcnt' : (updateHandState t r).stabilityCounter = k - 1 := hcnt
    refine ⟨?_, ?_, ?_⟩
    · rw [hr]
      have := hvo.1
      rw [hcnt'] at this
      have h2 : k - 1 + 1 = k := by omega
      rw [h2] at this
      exact this
    · intro hle
      refine ⟨c', ?_⟩
      rw [hr]
      apply hvo.2.1
      rw [hcnt']
      have : (updateHandState t r).minStabilityFrames = t.minStabilityFrames := rfl
      omega
    · intro hlt
      rw [hr]
      apply hvo.2.2
      rw [hcnt']
      have : (updateHandState t r).minStabilityFrames = t.minStabilityFrames := rfl
      omega

/-- The stabilizer after `results.length` valid samples labelled `L`, from a
state with an empty window and the counter at 0. -/
theorem feedResponses_same_label (s : Translator) (L : String)
    (hsF : 2 ≤ s.smoothingFrames) (hmin : 1 ≤ s.minStabilityFrames)
    (hL1 : L ≠ "") (hL2 : L ≠ "No hand detected") (hL3 : countedLabel L)
    (hwin : s.predictionHistory = []) (hcnt : s.stabilityCounter = 0)
    (results : List PredictionResult) :
    (∀ r ∈ results, r.success = some true ∧ r.prediction = some L ∧
        ∃ c, r.confidence = some c ∧ s.confidenceThreshold ≤ c) →
    (feedResponses s results).smoothingFrames = s.smoothingFrames ∧
    (feedResponses s results).minStabilityFrames = s.minStabilityFrames ∧
    (feedResponses s results).confidenceThreshold = s.confidenceThreshold ∧
    (feedResponses s results).predictionHistory.length = min results.length s.smoothingFrames ∧
    (∀ item ∈ (feedResponses s results).predictionHistory, item.prediction = L) ∧
    (feedResponses s results).stabilityCounter = results.length - 1 ∧
    ∃ emitted, (feedResponses s results).settled = s.settled ++ emitted ∧
      emitted.length = results.length - s.minStabilityFrames ∧ ∀ e ∈ emitted, e.1 = L := by
  induction results using List.reverseRecOn with
  | nil =>
    intro _
    refine ⟨rfl, rfl, rfl, ?_, ?_, ?_, [], ?_, ?_, ?_⟩
    · simp [feedResponses, hwin]
    · simp [feedResponses, hwin]
    · simp [feedResponses, hcnt]
    · simp [feedResponses]
    · simp
    · simp
  | append_singleton results r ih =>
    intro hvalid
    obtain ⟨i1, i2, i3, i4, i5, i6, emitted, i7, i8, i9⟩ :=
      ih (fun r hr => hvalid r (List.mem_append_left _ hr))
    obtain ⟨hs, hp, c, hc, hthr⟩ := hvalid r (by simp)
    have step := processResult_same_label (feedResponses s results) r L c results.length
      (by rw [i1]; exact hsF) (by rw [i2]; exact hmin) hL1 hL2 hL3 hs hp hc
      (by rw [i3]; exact hthr) (by rw [i4, i1]) i5 i6
    rw [feedResponses_concat]
    obtain ⟨s1, s2, s3, s4, s5, s6, s7, s8⟩ := step
    rw [i1] at s1 s4
    rw [i2] at s2 s7 s8
    rw [i3] at s3
    refine ⟨s1, s2, s3, by simpa using s4, s5, by simpa using s6, ?_⟩
    by_cases hle : s.minStabilityFrames ≤ results.length
    · obtain ⟨c', hc'⟩ := s7 hle
      refine ⟨emitted ++ [(L, c')], by rw [hc', i7, List.append_assoc], ?_, ?_⟩
      · simp only [List.length_append, List.length_singleton, i8]
        omega
      · intro e he
        rcases List.mem_append.mp he with h | h
        · exact i9 e h
        · simp only [List.mem_singleton] at h
          rw [h]
    · have hlt : results.length < s.minStabilityFrames := by omega
      refine ⟨emitted, by rw [s8 hlt, i7], ?_, i9⟩
      simp only [List.length_append, List.length_singleton, i8]
      omega

/-- C7 (as amended): from the state left by `startTranslation` (empty window,
`stabilityCounter` 0), with a window capacity of at least 2 and a stability
threshold of at least 1, feeding n valid samples labelled L, where L is not
`__proto__` and names no function inherited from `Object.prototype`, emits
nothing while n is at most `minStabilityFrames` and has emitted L exactly
`n - minStabilityFrames` times afterwards: L is emitted for the first time at
cycle number `minStabilityFrames + 1`, because the first cycle never gives a
vote (a window of one sample gives none). -/
theorem C7_first_emission_one_cycle_after_threshold (s : Translator) (env : TickEnv)
    (L : String) (results : List PredictionResult)
    (hcam : s.isCameraInitialized = true)
    (hsF : 2 ≤ s.smoothingFrames) (hmin : 1 ≤ s.minStabilityFrames)
    (hL1 : L ≠ "") (hL2 : L ≠ "No hand detected") (hL3 : countedLabel L)
    (hvalid : ∀ r ∈ results, r.success = some true ∧ r.prediction = some L ∧
        ∃ c, r.confidence = some c ∧ s.confidenceThreshold ≤ c) :
    ∃ emitted, (feedResponses (startTranslation s env) results).settled = s.settled ++ emitted ∧
      emitted.length = results.length - s.minStabilityFrames ∧ ∀ e ∈ emitted, e.1 = L := by
  obtain ⟨h1, h2, h3, h4, h5, h6⟩ := startTranslation_stabilizer s env hcam
  have h := feedResponses_same_label (startTranslation s env) L (by rw [h3]; exact hsF)
    (by rw [h4]; exact hmin) hL1 hL2 hL3 h1 h2 results (by rw [h5]; exact hvalid)
  obtain ⟨_, _, _, _, _, _, emitted, e1, e2, e3⟩ := h
  rw [h6] at e1
  rw [h4] at e2
  exact ⟨emitted, e1, e2, e3⟩

/-- C7 (witness): the camera is ready, the loop is started and the samples
A(0.9), A(0.8), A(0.95) arrive, with threshold 0.75, window 4 and stability 2:
exactly one emission has happened after the third cycle. -/
theorem C7_first_emission_witness :
    ∃ emitted, (feedResponses (startTranslation cameraReady (tickAt 0))
        [responseFor "A" (9 / 10), responseFor "A" (4 / 5), responseFor "A" (19 / 20)]).settled
          = cameraReady.settled ++ emitted ∧
      emitted.length = 1 ∧ ∀ e ∈ emitted, e.1 = "A" :=
  C7_first_emission_one_cycle_after_threshold cameraReady (tickAt 0) "A"
    [responseFor "A" (9 / 10), responseFor "A" (4 / 5), responseFor "A" (19 / 20)]
    rfl (by simp [cameraReady, constructed]) (by simp [cameraReady, constructed])
    (by decide) (by decide) (by decide)
    (by
      intro r hr
      simp only [List.mem_cons, List.mem_singleton, List.not_mem_nil, or_false] at hr
      rcases hr with rfl | rfl | rfl
      · exact ⟨rfl, rfl, 9 / 10, rfl, by simp [cameraReady, constructed]; norm_num⟩
      · exact ⟨rfl, rfl, 4 / 5, rfl, by simp [cameraReady, constructed]; norm_num⟩
      · exact ⟨rfl, rfl, 19 / 20, rfl, by simp [cameraReady, constructed]; norm_num⟩)

/-- C7 (counterexample): with threshold 0.75, window 4 and stability 2, after
the two cycles A(0.9), A(0.8) from the state left by `startTranslation` nothing
has been emitted; the first emission of A comes with the third cycle. -/
theorem C7_counterexample_no_emission_at_cycle_two :
    (startTranslation cameraReady (tickAt 0)).minStabilityFrames = 2 ∧
    (feedResponses (startTranslation cameraReady (tickAt 0))
      [responseFor "A" (9 / 10), responseFor "A" (4 / 5)]).settled = [] ∧
    (feedResponses (startTranslation cameraReady (tickAt 0))
      [responseFor "A" (9 / 10), responseFor "A" (4 / 5), responseFor "A" (19 / 20)]).settled
        = [("A", 53 / 60)] := by
  rw [startTranslation_cameraReady]
  refine ⟨rfl, ?_, ?_⟩ <;>
  · simp [feedResponses, processResult, processPredictionResult, updateHandState, validSample,
      handleValidPrediction, vote_on_one_sample, vote_on_two_A, vote_on_three_A, addToHistory,
      updateDisplay, responseFor, translating, cameraReady, constructed, threshold_tests]

/-- Three valid samples labelled `constructor` from the state left by
`startTranslation`: their count in `predictions` is a string, no cycle gives a
vote, nothing is emitted and the counter stays at 0. -/
theorem no_emission_for_inherited_name :
    (feedResponses (startTranslation cameraReady (tickAt 0))
      [responseFor "constructor" (9 / 10), responseFor "constructor" (4 / 5),
        responseFor "constructor" (19 / 20)]).settled = [] ∧
    (feedResponses (startTranslation cameraReady (tickAt 0))
      [responseFor "constructor" (9 / 10), responseFor "constructor" (4 / 5),
        responseFor "constructor" (19 / 20)]).stabilityCounter = 0 := by
  have v2 : applyTemporalSmoothing [⟨"constructor", 9 / 10⟩, ⟨"constructor", 4 / 5⟩] = none := by
    simp [applyTemporalSmoothing, sortByCountDesc, objectEntries, countPredictions, increment,
      assign, storedFirst, inheritedMethods, PropertyValue.plusOne, keepsBefore, arrayIndex]
  have v3 : applyTemporalSmoothing
      [⟨"constructor", 9 / 10⟩, ⟨"constructor", 4 / 5⟩, ⟨"constructor", 19 / 20⟩] = none := by
    simp [applyTemporalSmoothing, sortByCountDesc, objectEntries, countPredictions, increment,
      assign, storedFirst, inheritedMethods, PropertyValue.plusOne, keepsBefore, arrayIndex]
  rw [startTranslation_cameraReady]
  constructor <;>
    simp [feedResponses, processResult, processPredictionResult, updateHandState, validSample,
      handleValidPrediction, vote_on_one_sample, v2, v3, addToHistory, updateDisplay,
      responseFor, translating, cameraReady, constructed, threshold_tests]

/-! ## A single sample with another label -/

theorem validSample_responseFor (t : Translator) (L : String) (c : ℚ)
    (h1 : L ≠ "") (h2 : L ≠ "No hand detected") (h : t.confidenceThreshold ≤ c) :
    validSample t (responseFor L c) = some ⟨L, c⟩ :=
  (validSample_eq_some t (responseFor L c) ⟨L, c⟩).mpr ⟨rfl, h1, h2, rfl, h⟩

theorem validSample_responseFor_low (t : Translator) (L : String) (c : ℚ)
    (h : c < t.confidenceThreshold) : validSample t (responseFor L c) = none := by
  have hn : ¬ t.confidenceThreshold ≤ c := not_le.mpr h
  simp [validSample, responseFor, hn]

/-- One cycle on a successful response with a valid sample, on the fields of
the stabilizer. -/
theorem processResult_valid_step (t : Translator) (r : PredictionResult) (item : HistoryItem)
    (hs : r.success = some true) (hv : validSample t r = some item) :
    (processResult t r).predictionHistory = pushWindow t item ∧
    (processResult t r).smoothingFrames = t.smoothingFrames ∧
    (processResult t r).minStabilityFrames = t.minStabilityFrames ∧
    (processResult t r).confidenceThreshold = t.confidenceThreshold ∧
    (∀ v, applyTemporalSmoothing (pushWindow t item) = some v →
      (processResult t r).stabilityCounter = t.stabilityCounter + 1 ∧
      (t.minStabilityFrames ≤ t.stabilityCounter + 1 →
        (processResult t r).settled = t.settled ++ [(v.prediction, v.confidence)]) ∧
      (¬ t.minStabilityFrames ≤ t.stabilityCounter + 1 →
        (processResult t r).settled = t.settled)) ∧
    (applyTemporalSmoothing (pushWindow t item) = none →
      (processResult t r).stabilityCounter = 0 ∧ (processResult t r).settled = t.settled) := by
  rcases processResult_cases t r with ⟨hs', _⟩ | ⟨_, hv', _⟩ | ⟨_, item', hv', hr⟩
  · exact absurd hs hs'
  · rw [hv] at hv'
    exact absurd hv' (by simp)
  rw [hv] at hv'
  cases hv'
  have hw := handleValidPrediction_window (updateHandState t r) item
  rw [hr]
  refine ⟨hw.1, hw.2.1, hw.2.2.1, hw.2.2.2, ?_, ?_⟩
  · intro v hvote
    have hvo := handleValidPrediction_vote (updateHandState t r) item v hvote
    exact ⟨hvo.1, hvo.2.1, hvo.2.2⟩
  · intro hnone
    have hno := handleValidPrediction_no_vote (updateHandState t r) item hnone
    exact ⟨hno.1, hno.2⟩

/-- One cycle on a successful response without a valid sample, on the fields of
the stabilizer. -/
theorem processResult_low_step (t : Translator) (r : PredictionResult)
    (hs : r.success = some true) (hv : validSample t r = none) :
    (processResult t r).predictionHistory = t.predictionHistory ∧
    (processResult t r).smoothingFrames = t.smoothingFrames ∧
    (processResult t r).minStabilityFrames = t.minStabilityFrames ∧
    (processResult t r).confidenceThreshold = t.confidenceThreshold ∧
    (processResult t r).stabilityCounter = 0 ∧
    (processResult t r).settled = t.settled := by
  rcases processResult_cases t r with ⟨hs', _⟩ | ⟨_, _, hr⟩ | ⟨_, item, hv', _⟩
  · exact absurd hs hs'
  · rw [hr]
    simp only [handleLowConfidencePrediction, clearKeypoints]
    split <;> (try split) <;> exact ⟨rfl, rfl, rfl, rfl, rfl, rfl⟩
  · rw [hv] at hv'
    exact absurd hv' (by simp)

/-- The fourth and fifth cycle of the sequence A, A, A, B(c), A(0.85) when the
B sample is valid. -/
theorem cycles_after_valid_B (t : Translator) (c : ℚ)
    (hw : t.predictionHistory = [⟨"A", 9 / 10⟩, ⟨"A", 4 / 5⟩, ⟨"A", 19 / 20⟩])
    (hcnt : t.stabilityCounter = 2) (hset : t.settled = [("A", 53 / 60)])
    (hsF : t.smoothingFrames = 4) (hmin : t.minStabilityFrames = 2)
    (hthr : t.confidenceThreshold = 3 / 4) (hc : 3 / 4 ≤ c) :
    (processResult t (responseFor "B" c)).settled = [("A", 53 / 60), ("A", 53 / 60)] ∧
    (processResult (processResult t (responseFor "B" c)) (responseFor "A" (17 / 20))).settled
      = [("A", 53 / 60), ("A", 53 / 60), ("A", 13 / 15)] := by
  have hv4 := validSample_responseFor t "B" c (by decide) (by decide) (by rw [hthr]; exact hc)
  have hw4 : pushWindow t ⟨"B", c⟩ =
      [⟨"A", 9 / 10⟩, ⟨"A", 4 / 5⟩, ⟨"A", 19 / 20⟩, ⟨"B", c⟩] := by
    simp [pushWindow, hw, hsF]
  have hvote4 : applyTemporalSmoothing (pushWindow t ⟨"B", c⟩) = some ⟨"A", 53 / 60⟩ := by
    rw [hw4]
    simp [applyTemporalSmoothing, sortByCountDesc, objectEntries, countPredictions, increment,
      assign, storedFirst, inheritedMethods, PropertyValue.plusOne, keepsBefore, arrayIndex,
      sumConfidence]
    norm_num
  obtain ⟨a1, a2, a3, a4, a5, _⟩ := processResult_valid_step t (responseFor "B" c) _ rfl hv4
  obtain ⟨a6, a7, _⟩ := a5 _ hvote4
  have hset4 : (processResult t (responseFor "B" c)).settled
      = [("A", 53 / 60), ("A", 53 / 60)] := by
    rw [a7 (by rw [hmin, hcnt]; omega), hset]
    rfl
  refine ⟨hset4, ?_⟩
  have hv5 := validSample_responseFor (processResult t (responseFor "B" c)) "A" (17 / 20)
    (by decide) (by decide) (by rw [a4, hthr]; norm_num)
  have hw5 : pushWindow (processResult t (responseFor "B" c)) ⟨"A", 17 / 20⟩ =
      [⟨"A", 4 / 5⟩, ⟨"A", 19 / 20⟩, ⟨"B", c⟩, ⟨"A", 17 / 20⟩] := by
    unfold pushWindow
    rw [a1, hw4, a2, hsF]
    simp
  have hvote5 : applyTemporalSmoothing
      (pushWindow (processResult t (responseFor "B" c)) ⟨"A", 17 / 20⟩)
        = some ⟨"A", 13 / 15⟩ := by
    rw [hw5]
    simp [applyTemporalSmoothing, sortByCountDesc, objectEntries, countPredictions, increment,
      assign, storedFirst, inheritedMethods, PropertyValue.plusOne, keepsBefore, arrayIndex,
      sumConfidence]
    norm_num
  obtain ⟨_, _, _, _, b5, _⟩ := processResult_valid_step (processResult t (responseFor "B" c))
    (responseFor "A" (17 / 20)) _ rfl hv5
  obtain ⟨_, b7, _⟩ := b5 _ hvote5
  rw [b7 (by rw [a3, hmin, a6, hcnt]; omega), hset4]
  rfl

/-- The fourth and fifth cycle of the sequence A, A, A, B(c), A(0.85) when the
confidence of the B sample is below the threshold. -/
theorem cycles_after_low_B (t : Translator) (c : ℚ)
    (hw : t.predictionHistory = [⟨"A", 9 / 10⟩, ⟨"A", 4 / 5⟩, ⟨"A", 19 / 20⟩])
    (hset : t.settled = [("A", 53 / 60)])
    (hsF : t.smoothingFrames = 4) (hmin : t.minStabilityFrames = 2)
    (hthr : t.confidenceThreshold = 3 / 4) (hc : c < 3 / 4) :
    (processResult t (responseFor "B" c)).settled = [("A", 53 / 60)] ∧
    (processResult t (responseFor "B" c)).stabilityCounter = 0 ∧
    (processResult (processResult t (responseFor "B" c)) (responseFor "A" (17 / 20))).settled
      = [("A", 53 / 60)] ∧
    (processResult (processResult t (responseFor "B" c))
      (responseFor "A" (17 / 20))).stabilityCounter = 1 ∧
    (processResult (processResult t (responseFor "B" c))
      (responseFor "A" (17 / 20))).predictionHistory.map (fun item => item.prediction)
        = ["A", "A", "A", "A"] := by
  have hv4 := validSample_responseFor_low t "B" c (by rw [hthr]; exact hc)
  obtain ⟨a1, a2, a3, a4, a5, a6⟩ := processResult_low_step t (responseFor "B" c) rfl hv4
  have hv5 := validSample_responseFor (processResult t (responseFor "B" c)) "A" (17 / 20)
    (by decide) (by decide) (by rw [a4, hthr]; norm_num)
  have hw5 : pushWindow (processResult t (responseFor "B" c)) ⟨"A", 17 / 20⟩ =
      [⟨"A", 9 / 10⟩, ⟨"A", 4 / 5⟩, ⟨"A", 19 / 20⟩, ⟨"A", 17 / 20⟩] := by
    simp [pushWindow, a1, hw, a2, hsF]
  have hvote5 : applyTemporalSmoothing
      (pushWindow (processResult t (responseFor "B" c)) ⟨"A", 17 / 20⟩)
        = some ⟨"A", 7 / 8⟩ := by
    rw [hw5]
    simp [applyTemporalSmoothing, sortByCountDesc, objectEntries, countPredictions, increment,
      assign, storedFirst, inheritedMethods, PropertyValue.plusOne, keepsBefore, arrayIndex,
      sumConfidence]
    norm_num
  obtain ⟨b1, _, _, _, b5, _⟩ := processResult_valid_step (processResult t (responseFor "B" c))
    (responseFor "A" (17 / 20)) _ rfl hv5
  obtain ⟨b6, _, b8⟩ := b5 _ hvote5
  refine ⟨by rw [a6, hset], a5, ?_, by rw [b6, a5], ?_⟩
  · rw [b8 (by rw [a3, hmin, a5]; omega), a6, hset]
  · rw [b1, hw5]
    rfl

/-- C9 (as amended): with threshold 0.75, window 4 and stability 2, the samples
A(0.9), A(0.8), A(0.95), B(c), A(0.85) are fed from the state left by
`startTranslation`. No cycle emits B, whatever c is. When c is at least the
threshold, the B sample enters the window, the vote stays A and the fourth and
the fifth cycle both emit A. When c is below the threshold, the B sample does
not enter the window but sets `stabilityCounter` to 0, and the fifth cycle
emits nothing: the counter then stands at 1, below `minStabilityFrames`. -/
theorem C9_single_B_sample (c : ℚ) :
    (3 / 4 ≤ c →
      (feedResponses (startTranslation cameraReady (tickAt 0))
        [responseFor "A" (9 / 10), responseFor "A" (4 / 5), responseFor "A" (19 / 20),
          responseFor "B" c]).settled = [("A", 53 / 60), ("A", 53 / 60)] ∧
      (feedResponses (startTranslation cameraReady (tickAt 0))
        [responseFor "A" (9 / 10), responseFor "A" (4 / 5), responseFor "A" (19 / 20),
          responseFor "B" c, responseFor "A" (17 / 20)]).settled
        = [("A", 53 / 60), ("A", 53 / 60), ("A", 13 / 15)]) ∧
    (c < 3 / 4 →
      (feedResponses (startTranslation cameraReady (tickAt 0))
        [responseFor "A" (9 / 10), responseFor "A" (4 / 5), responseFor "A" (19 / 20),
          responseFor "B" c]).settled = [("A", 53 / 60)] ∧
      (feedResponses (startTranslation cameraReady (tickAt 0))
        [responseFor "A" (9 / 10), responseFor "A" (4 / 5), responseFor "A" (19 / 20),
          responseFor "B" c]).stabilityCounter = 0 ∧
      (feedResponses (startTranslation cameraReady (tickAt 0))
        [responseFor "A" (9 / 10), responseFor "A" (4 / 5), responseFor "A" (19 / 20),
          responseFor "B" c, responseFor "A" (17 / 20)]).settled = [("A", 53 / 60)] ∧
      (feedResponses (startTranslation cameraReady (tickAt 0))
        [responseFor "A" (9 / 10), responseFor "A" (4 / 5), responseFor "A" (19 / 20),
          responseFor "B" c, responseFor "A" (17 / 20)]).stabilityCounter = 1 ∧
      (feedResponses (startTranslation cameraReady (tickAt 0))
        [responseFor "A" (9 / 10), responseFor "A" (4 / 5), responseFor "A" (19 / 20),
          responseFor "B" c, responseFor "A" (17 / 20)]).predictionHistory.map
            (fun item => item.prediction) = ["A", "A", "A", "A"]) := by
  have hw : (feedResponses (startTranslation cameraReady (tickAt 0))
      [responseFor "A" (9 / 10), responseFor "A" (4 / 5),
        responseFor "A" (19 / 20)]).predictionHistory
        = [⟨"A", 9 / 10⟩, ⟨"A", 4 / 5⟩, ⟨"A", 19 / 20⟩] := by
    rw [startTranslation_cameraReady]
    simp [feedResponses, processResult, processPredictionResult, updateHandState, validSample,
      handleValidPrediction, vote_on_one_sample, vote_on_two_A, vote_on_three_A, addToHistory,
      updateDisplay, responseFor, translating, cameraReady, constructed, threshold_tests]
  have hcnt : (feedResponses (startTranslation cameraReady (tickAt 0))
      [responseFor "A" (9 / 10), responseFor "A" (4 / 5),
        responseFor "A" (19 / 20)]).stabilityCounter = 2 := by
    rw [startTranslation_cameraReady]
    simp [feedResponses, processResult, processPredictionResult, updateHandState, validSample,
      handleValidPrediction, vote_on_one_sample, vote_on_two_A, vote_on_three_A, addToHistory,
      updateDisplay, responseFor, translating, cameraReady, constructed, threshold_tests]
  have hset : (feedResponses (startTranslation cameraReady (tickAt 0))
      [responseFor "A" (9 / 10), responseFor "A" (4 / 5),
        responseFor "A" (19 / 20)]).settled = [("A", 53 / 60)] := by
    rw [startTranslation_cameraReady]
    simp [feedResponses, processResult, processPredictionResult, updateHandState, validSample,
      handleValidPrediction, vote_on_one_sample, vote_on_two_A, vote_on_three_A, addToHistory,
      updateDisplay, responseFor, translating, cameraReady, constructed, threshold_tests]
  have hpar : (feedResponses (startTranslation cameraReady (tickAt 0))
        [responseFor "A" (9 / 10), responseFor "A" (4 / 5),
          responseFor "A" (19 / 20)]).smoothingFrames = 4 ∧
      (feedResponses (startTranslation cameraReady (tickAt 0))
        [responseFor "A" (9 / 10), responseFor "A" (4 / 5),
          responseFor "A" (19 / 20)]).minStabilityFrames = 2 ∧
      (feedResponses (startTranslation cameraReady (tickAt 0))
        [responseFor "A" (9 / 10), responseFor "A" (4 / 5),
          responseFor "A" (19 / 20)]).confidenceThreshold = 3 / 4 := by
    obtain ⟨_, _, h3, h4, h5, _⟩ := startTranslation_stabilizer cameraReady (tickAt 0) rfl
    obtain ⟨p1, p2, p3, _⟩ := feedResponses_same_label (startTranslation cameraReady (tickAt 0))
      "A" (by rw [h3]; decide) (by rw [h4]; decide) (by decide) (by decide) (by decide)
      (startTranslation_stabilizer cameraReady (tickAt 0) rfl).1
      (startTranslation_stabilizer cameraReady (tickAt 0) rfl).2.1
      [responseFor "A" (9 / 10), responseFor "A" (4 / 5), responseFor "A" (19 / 20)]
      (by
        intro r hr
        simp only [List.mem_cons, List.mem_singleton, List.not_mem_nil, or_false] at hr
        have ht : (startTranslation cameraReady (tickAt 0)).confidenceThreshold = 3 / 4 := h5
        rw [ht]
        rcases hr with rfl | rfl | rfl
        · exact ⟨rfl, rfl, 9 / 10, rfl, by norm_num⟩
        · exact ⟨rfl, rfl, 4 / 5, rfl, by norm_num⟩
        · exact ⟨rfl, rfl, 19 / 20, rfl, by norm_num⟩)
    exact ⟨p1.trans h3, p2.trans h4, p3.trans h5⟩
  constructor
  · intro hc
    exact cycles_after_valid_B _ c hw hcnt hset hpar.1 hpar.2.1 hpar.2.2 hc
  · intro hc
    exact cycles_after_low_B _ c hw hset hpar.1 hpar.2.1 hpar.2.2 hc

/-- C9 (counterexample): the B sample has confidence 0.5, below the threshold.
After the fourth cycle A has been emitted once (by the third cycle), and after
the fifth cycle, the sample A(0.85), still only once: the fifth cycle emits
nothing. -/
theorem C9_counterexample_low_confidence_B_delays_emission :
    (feedResponses (startTranslation cameraReady (tickAt 0))
      [responseFor "A" (9 / 10), responseFor "A" (4 / 5), responseFor "A" (19 / 20),
        responseFor "B" (1 / 2)]).settled = [("A", 53 / 60)] ∧
    (feedResponses (startTranslation cameraReady (tickAt 0))
      [responseFor "A" (9 / 10), responseFor "A" (4 / 5), responseFor "A" (19 / 20),
        responseFor "B" (1 / 2), responseFor "A" (17 / 20)]).settled = [("A", 53 / 60)] := by
  rw [startTranslation_cameraReady]
  constructor <;>
  · simp [feedResponses, processResult, processPredictionResult, updateHandState, validSample,
      handleValidPrediction, handleLowConfidencePrediction, vote_on_one_sample, vote_on_two_A,
      vote_on_three_A, vote_on_four_A, addToHistory, updateDisplay, responseFor, translating,
      cameraReady, constructed, threshold_tests]

/-- C10 (witness): in the window [A, B, B, A] both labels have the count 2; the
vote is A, and no label stands before its first occurrence. -/
theorem C10_first_seen_witness :
    applyTemporalSmoothing [⟨"A", 9 / 10⟩, ⟨"B", 4 / 5⟩, ⟨"B", 4 / 5⟩, ⟨"A", 7 / 10⟩]
      = some ⟨"A", 4 / 5⟩ ∧
    ∃ pre suf, ["A", "B", "B", "A"] = pre ++ "A" :: suf ∧
      ∀ l ∈ pre, countLabel l [⟨"A", 9 / 10⟩, ⟨"B", 4 / 5⟩, ⟨"B", 4 / 5⟩, ⟨"A", 7 / 10⟩]
        < countLabel "A" [⟨"A", 9 / 10⟩, ⟨"B", 4 / 5⟩, ⟨"B", 4 / 5⟩, ⟨"A", 7 / 10⟩] := by
  have hv : applyTemporalSmoothing
      [⟨"A", 9 / 10⟩, ⟨"B", 4 / 5⟩, ⟨"B", 4 / 5⟩, ⟨"A", 7 / 10⟩] = some ⟨"A", 4 / 5⟩ := by
    simp [applyTemporalSmoothing, sortByCountDesc, objectEntries, countPredictions, increment,
      assign, storedFirst, inheritedMethods, PropertyValue.plusOne, keepsBefore, arrayIndex,
      sumConfidence]
    norm_num
  exact ⟨hv, (C10_vote_label_deterministic_first_seen.2.1
    [⟨"A", 9 / 10⟩, ⟨"B", 4 / 5⟩, ⟨"B", 4 / 5⟩, ⟨"A", 7 / 10⟩] ⟨"A", 4 / 5⟩
    (by
      intro item hitem
      simp only [List.mem_cons, List.mem_singleton, List.not_mem_nil, or_false] at hitem
      rcases hitem with rfl | rfl | rfl | rfl <;> exact ⟨by decide, by decide⟩)
    hv).2⟩

end ASLTranslator

namespace ASLQuiz

/-! ## The quiz -/

theorem alphabet_nodup : alphabet.Nodup := by decide

theorem alphabet_length : alphabet.length = 26 := rfl

theorem length_filter_ne {l : List Char} (hl : l.Nodup) {a : Char} (ha : a ∈ l) :
    (l.filter (fun x => x ≠ a)).length = l.length - 1 := by
  have h := hl.erase_eq_filter a
  have h2 : l.filter (fun x => x ≠ a) = l.filter (fun x => x != a) := by
    congr 1
    funext x
    by_cases hx : x = a <;> simp [hx]
  rw [h2, ← h, List.length_erase_of_mem ha]

/-- C27: whatever permutations the three shuffles produce, `generateQuestions`
yields exactly 10 questions on pairwise distinct letters of A to Z, and each
question has exactly 4 pairwise distinct options, among them its
`correctAnswer`, which equals the question's letter; the other options are
exactly 3 and are letters of A to Z. -/
theorem C27_generateQuestions_well_formed (σ : Shuffles) (hσ : σ.ArePermutations) :
    (generateQuestions σ).length = 10 ∧
    ((generateQuestions σ).map Question.letter).Nodup ∧
    ∀ q ∈ generateQuestions σ,
      q.letter ∈ alphabet ∧ q.options.length = 4 ∧ q.options.Nodup ∧
      q.correctAnswer = q.letter ∧ q.correctAnswer ∈ q.options ∧
      (q.options.filter (fun o => o ≠ q.letter)).length = 3 ∧
      ∀ o ∈ q.options, o ∈ alphabet := by
  obtain ⟨h1, h2, h3⟩ := hσ
  have hperm := h1 alphabet
  have hnd : (σ.letters alphabet).Nodup := hperm.nodup_iff.mpr alphabet_nodup
  have hlen : (σ.letters alphabet).length = 26 := by rw [hperm.length_eq]; rfl
  have hmap : (generateQuestions σ).map Question.letter = (σ.letters alphabet).take 10 := by
    simp [generateQuestions, Function.comp_def]
  refine ⟨?_, ?_, ?_⟩
  · simp [generateQuestions, hlen]
  · rw [hmap]
    exact hnd.sublist (List.take_sublist _ _)
  · intro q hq
    simp only [generateQuestions, List.mem_map] at hq
    obtain ⟨letter, hsel, rfl⟩ := hq
    have hmemS : letter ∈ σ.letters alphabet := List.mem_of_mem_take hsel
    have hmemA : letter ∈ alphabet := hperm.mem_iff.mp hmemS
    have hpoolnd : ((σ.letters alphabet).filter (fun l => l ≠ letter)).Nodup := hnd.filter _
    have hpoollen : ((σ.letters alphabet).filter (fun l => l ≠ letter)).length = 25 := by
      rw [length_filter_ne hnd hmemS, hlen]
    have hwperm := h2 letter ((σ.letters alphabet).filter (fun l => l ≠ letter))
    have hwnd : ((σ.wrong letter ((σ.letters alphabet).filter (fun l => l ≠ letter))).take
        3).Nodup :=
      (hwperm.nodup_iff.mpr hpoolnd).sublist (List.take_sublist _ _)
    have hwlen : ((σ.wrong letter ((σ.letters alphabet).filter (fun l => l ≠ letter))).take
        3).length = 3 := by
      rw [List.length_take, hwperm.length_eq, hpoollen]
      rfl
    have hwmem : ∀ o ∈ (σ.wrong letter ((σ.letters alphabet).filter
        (fun l => l ≠ letter))).take 3, o ≠ letter ∧ o ∈ alphabet := by
      intro o ho
      have ho2 := hwperm.mem_iff.mp (List.mem_of_mem_take ho)
      have ho3 := List.mem_filter.mp ho2
      exact ⟨by simpa using ho3.2, hperm.mem_iff.mp ho3.1⟩
    have hoperm := h3 letter (letter :: (σ.wrong letter ((σ.letters alphabet).filter
      (fun l => l ≠ letter))).take 3)
    refine ⟨hmemA, ?_, ?_, rfl, ?_, ?_, ?_⟩
    · show (σ.options letter _).length = 4
      rw [hoperm.length_eq, List.length_cons, hwlen]
    · show (σ.options letter _).Nodup
      rw [hoperm.nodup_iff, List.nodup_cons]
      exact ⟨fun hin => (hwmem letter hin).1 rfl, hwnd⟩
    · show letter ∈ σ.options letter _
      exact hoperm.mem_iff.mpr (List.mem_cons_self _ _)
    · show ((σ.options letter _).filter (fun o => o ≠ letter)).length = 3
      rw [(hoperm.filter _).length_eq]
      have hf : (letter :: (σ.wrong letter ((σ.letters alphabet).filter
          (fun l => l ≠ letter))).take 3).filter (fun o => o ≠ letter) =
          (σ.wrong letter ((σ.letters alphabet).filter (fun l => l ≠ letter))).take 3 := by
        rw [List.filter_cons_of_neg (by simp)]
        apply List.filter_eq_self.mpr
        intro o ho
        simpa using (hwmem o ho).1
      rw [hf, hwlen]
    · intro o ho
      have ho2 := hoperm.mem_iff.mp ho
      rcases List.mem_cons.mp ho2 with h | h
      · rw [h]; exact hmemA
      · exact (hwmem o h).2

/-- C27 (witness): the shuffles that move nothing are permutations. -/
theorem C27_generateQuestions_witness :
    noShuffle.ArePermutations ∧ (generateQuestions noShuffle).length = 10 :=
  ⟨⟨fun _ => List.Perm.refl _, fun _ _ => List.Perm.refl _, fun _ _ => List.Perm.refl _⟩,
    (C27_generateQuestions_well_formed noShuffle
      ⟨fun _ => List.Perm.refl _, fun _ _ => List.Perm.refl _,
        fun _ _ => List.Perm.refl _⟩).1⟩

/-- C30 (the code at the failing input): the quiz is started, the correct
option `A` of the first question is chosen, and the submit button, which
`submitAnswer` leaves enabled, is pressed 11 times before the first advance
timer runs. The score is then 11 while the first question is still shown, and
after the 11 scheduled advances the result dialog shows 11 out of 10 and 110
percent. -/
theorem C30_repeated_submit_inflates_score :
    (run (start constructed noShuffle)
      (.clickOption 'A' :: List.replicate 11 .clickSubmit)).score = 11 ∧
    (run (start constructed noShuffle)
      (.clickOption 'A' :: List.replicate 11 .clickSubmit)).currentQuestionIndex = 0 ∧
    (run (start constructed noShuffle)
      (.clickOption 'A' :: List.replicate 11 .clickSubmit)).questions.length = 10 ∧
    (run (start constructed noShuffle)
      (.clickOption 'A' :: (List.replicate 11 .clickSubmit ++
        List.replicate 11 .timerFires))).result = some (11, 110) := by
  have hr : (run (start constructed noShuffle)
      (.clickOption 'A' :: (List.replicate 11 .clickSubmit ++
        List.replicate 11 .timerFires))).result =
      some (11, ASLTranslator.jsRound (((11 : ℕ) : ℚ) / 10 * 100)) := by
    rfl
  refine ⟨by decide, by decide, by decide, ?_⟩
  rw [hr]
  simp [ASLTranslator.jsRound]
  norm_num

end ASLQuiz
